import Mathlib

/-!
The dumbvm coremap frame allocator and address spaces

A shallow embedding of `kern/arch/mips/vm/dumbvm.c`.

* Kernel memory is a map from word index to 32-bit word: `mem w` is the word
  at kernel virtual address `4 * w`.  The two coremap arrays are pointers into
  that memory, exactly as the source lays them out
  (`coremap_location = (paddr_t *) coremap_count + num_pages`), so an access
  past the end of one array lands where the C program would land.
* A failed `KASSERT` (kernel panic) and an access through a NULL pointer are
  the outcome `none`: the call does not return.
* C `int` values are `Int`, stored in memory in two's complement; arithmetic
  on `int` that can leave the 32-bit range is wrapped explicitly.
-/

namespace DumbVM

/-! ## Machine constants and macros -/

/-- Modelled from the spec: the macro `PAGE_SIZE` comes from a machine header
outside the translated file; the spec's scenarios fix the page size at 4096. -/
def PAGE_SIZE : Nat := 4096

/-- Modelled from the spec: the macro `PAGE_FRAME` comes from a machine header
outside the translated file; it is the mask that keeps the page number of a
32-bit address and drops the offset inside a 4096-byte page. -/
def PAGE_FRAME : Nat := 0xfffff000

/-- Modelled from the spec: the start of the permanent kernel window into
physical memory (MIPS kseg0); the header defining it is outside the translated
file. -/
def MIPS_KSEG0 : Nat := 0x80000000

/-- Modelled from the spec: the macro `PADDR_TO_KVADDR` comes from a machine
header outside the translated file; the spec describes it as a constant
bijection from physical addresses into the kernel window: the window base is
added to the address.  Addresses are 32-bit, so the sum wraps. -/
def PADDR_TO_KVADDR (paddr : Nat) : Nat := (MIPS_KSEG0 + paddr) % 4294967296

/-- Modelled from the spec: the macro `ROUNDUP(a, b)` comes from a library
header outside the translated file; it rounds `a` up to a multiple of `b`. -/
def ROUNDUP (a b : Nat) : Nat := (a + b - 1) / b * b

/-- The number of user stack pages, `#define DUMBVM_STACKPAGES 12`. -/
def DUMBVM_STACKPAGES : Nat := 12

/-! ## 32-bit words -/

/-- The 32-bit two's complement word that stores the C `int` value `v`. -/
def toWord (v : Int) : Nat := (v % 4294967296).toNat

/-- The C `int` value held by the 32-bit word `w`. -/
def toInt (w : Nat) : Int :=
  if w % 4294967296 < 2147483648 then ((w % 4294967296 : Nat) : Int)
  else ((w % 4294967296 : Nat) : Int) - 4294967296

/-- The result of `int` arithmetic: the mathematical value wrapped to 32 bits. -/
def wrapInt (v : Int) : Int := toInt (toWord v)

/-- Kernel memory, word addressed. -/
abbrev Mem := Nat → Nat

/-- One word store: `mem[a] := v`. -/
def store (m : Mem) (a v : Nat) : Mem := fun x => if x = a then v else m x

/-! ## Global state of the frame allocator -/

/-- The globals of `dumbvm.c` together with kernel memory.  `coremap_count` and
`coremap_location` are pointers (kernel virtual byte addresses).  `stealmem`
stands for the external primitive `ram_stealmem`, used only before bootstrap. -/
structure VM where
  mem : Mem
  coremap_count : Nat
  coremap_location : Nat
  num_pages : Nat
  firstpaddr : Nat
  lastpaddr : Nat
  bootstrapped : Bool
  start_page : Nat
  stealmem : Int → Nat

/-- The word index of `coremap_count[i]`. -/
def countAddr (s : VM) (i : Nat) : Nat := s.coremap_count / 4 + i

/-- The word index of `coremap_location[i]`. -/
def locationAddr (s : VM) (i : Nat) : Nat := s.coremap_location / 4 + i

/-- The value of `coremap_count[i]`, read as an `int`. -/
def count (s : VM) (i : Nat) : Int := toInt (s.mem (countAddr s i))

/-- The value of `coremap_location[i]`, a `paddr_t`. -/
def location (s : VM) (i : Nat) : Nat := s.mem (locationAddr s i)

/-! ## vm_bootstrap -/

/-- The loop of `vm_bootstrap` (lines 83-86): `k` iterations starting at index
`i`, each one storing `coremap_count[i] = 0` and
`coremap_location[i] = firstpaddr + i*PAGE_SIZE`. -/
def bootLoop (cnt loc firstpaddr : Nat) : Nat → Nat → Mem → Mem
  | 0, _, m => m
  | k + 1, i, m =>
    bootLoop cnt loc firstpaddr k (i + 1)
      (store (store m (cnt / 4 + i) 0) (loc / 4 + i) ((firstpaddr + i * PAGE_SIZE) % 4294967296))

/-- The function `vm_bootstrap`.  `ramsize` is the pair `(firstpaddr, lastpaddr)`
reported by the external `ram_getsize`; `s` is the state before the call, whose
memory content is whatever RAM holds at that time. -/
def vm_bootstrap (ramsize : Nat × Nat) (s : VM) : Option VM :=
  if s.bootstrapped then none
  else
    let firstpaddr := ramsize.1
    let lastpaddr := ramsize.2
    let num_pages := (((lastpaddr : Int) - (firstpaddr : Int)) % 4294967296).toNat / PAGE_SIZE
    let coremap_count := PADDR_TO_KVADDR firstpaddr
    let coremap_location := coremap_count + 4 * num_pages
    let coremap_size := num_pages * 4 * 2
    let start_page := ROUNDUP coremap_size PAGE_SIZE / PAGE_SIZE
    let m1 := store s.mem (coremap_count / 4) (toWord start_page)
    let m2 := store m1 (coremap_location / 4) coremap_count
    let m3 := bootLoop coremap_count coremap_location firstpaddr (num_pages - start_page) start_page m2
    some { s with
      mem := m3
      coremap_count := coremap_count
      coremap_location := coremap_location
      num_pages := num_pages
      firstpaddr := firstpaddr
      lastpaddr := lastpaddr
      bootstrapped := true
      start_page := start_page }

/-! ## getppages / alloc_kpages -/

/-- The inner loop of `getppages` (lines 122-124): `k` iterations starting at
index `j`, each one storing `coremap_count[j] = -1`. -/
def markInterior (cnt : Nat) : Nat → Nat → Mem → Mem
  | 0, _, m => m
  | k + 1, j, m => markInterior cnt k (j + 1) (store m (cnt / 4 + j) (toWord (-1)))

/-- The scan loop of `getppages` (lines 118-127): at most `k` iterations
starting at index `i`.  The result is the final value of the local `page`
(0 when the loop ends without a hit) and the memory after the loop. -/
def scanFree (s : VM) (npages : Int) : Nat → Nat → Nat × Mem
  | 0, _ => (0, s.mem)
  | k + 1, i =>
    if count s i = 0 then
      (i, markInterior s.coremap_count (wrapInt ((i : Int) + npages) - ((i : Int) + 1)).toNat (i + 1)
            (store s.mem (countAddr s i) (toWord npages)))
    else scanFree s npages k (i + 1)

/-- The function `getppages`: the physical address of the allocated run and the
state after the call, or `none` when `KASSERT(page != 0)` fails. -/
def getppages (npages : Int) (s : VM) : Option (Nat × VM) :=
  if s.bootstrapped = false then some (s.stealmem npages, s)
  else
    let r := scanFree s npages
      (wrapInt ((s.num_pages : Int) - npages) - (s.start_page : Int)).toNat s.start_page
    if r.1 = 0 then none
    else
      let s1 := { s with mem := r.2 }
      some (location s1 r.1, s1)

/-- The function `alloc_kpages`. -/
def alloc_kpages (npages : Int) (s : VM) : Option (Nat × VM) :=
  match getppages npages s with
  | none => none
  | some (pa, s1) => if pa = 0 then some (0, s1) else some (PADDR_TO_KVADDR pa, s1)

/-! ## free_kpages -/

/-- The search loop of `free_kpages` (lines 160-166): at most `k` iterations
starting at index `i`; the result is the final value of the locals
`(page, npages)`. -/
def findPage (s : VM) (addr : Nat) : Nat → Nat → Nat × Int
  | 0, _ => (0, 0)
  | k + 1, i =>
    if PADDR_TO_KVADDR (location s i) = addr then (i, count s i)
    else findPage s addr k (i + 1)

/-- The clearing loop of `free_kpages` (lines 169-171): `k` iterations starting
at index `i`, each one storing `coremap_count[i] = 0`. -/
def zeroRun (cnt : Nat) : Nat → Nat → Mem → Mem
  | 0, _, m => m
  | k + 1, i, m => zeroRun cnt k (i + 1) (store m (cnt / 4 + i) 0)

/-- The function `free_kpages`: the state after the call, or `none` when
`KASSERT(page != 0)` fails. -/
def free_kpages (addr : Nat) (s : VM) : Option VM :=
  let r := findPage s addr (s.num_pages - s.start_page) s.start_page
  if r.1 = 0 then none
  else
    some { s with
      mem := zeroRun s.coremap_count (wrapInt ((r.1 : Int) + r.2) - (r.1 : Int)).toNat r.1 s.mem }

/-! ## Initial machine and state predicates -/

/-- A machine before `vm_bootstrap`: no coremap yet, RAM filled with a junk
pattern, used as the starting point of concrete runs. -/
def ram0 : VM :=
  { mem := fun _ => 0xdeadbeef, coremap_count := 0, coremap_location := 0, num_pages := 0,
    firstpaddr := 0, lastpaddr := 0, bootstrapped := false, start_page := 0,
    stealmem := fun _ => 0 }

/-- The facts `vm_bootstrap` establishes about the globals, which no later call
changes; the content of the two coremap arrays is left open. -/
structure Laid (s : VM) : Prop where
  boot : s.bootstrapped = true
  base : s.coremap_count = PADDR_TO_KVADDR s.firstpaddr
  layout : s.coremap_location = s.coremap_count + 4 * s.num_pages
  pages : s.firstpaddr + s.num_pages * PAGE_SIZE ≤ s.lastpaddr
  last : s.lastpaddr < 4294967296
  start : s.start_page = ROUNDUP (s.num_pages * 4 * 2) PAGE_SIZE / PAGE_SIZE

/-- The facts `vm_bootstrap` establishes about the globals and the
`coremap_location` array, none of which a later allocation changes. -/
structure Booted (s : VM) : Prop where
  boot : s.bootstrapped = true
  base : s.coremap_count = PADDR_TO_KVADDR s.firstpaddr
  layout : s.coremap_location = s.coremap_count + 4 * s.num_pages
  pages : s.firstpaddr + s.num_pages * PAGE_SIZE ≤ s.lastpaddr
  last : s.lastpaddr < 4294967296
  start : s.start_page = ROUNDUP (s.num_pages * 4 * 2) PAGE_SIZE / PAGE_SIZE
  locs : ∀ i, s.start_page ≤ i → i < s.num_pages → location s i = s.firstpaddr + i * PAGE_SIZE

/-- The memory after `getppages` has claimed the run of `n` frames headed at
index `i`: `coremap_count[i]` holds `n`, the next `n - 1` entries hold `-1`,
every other word is as in `s`. -/
def claimed (s : VM) (n : Int) (i : Nat) : Mem := fun x =>
  if x = countAddr s i then toWord n
  else if countAddr s i < x ∧ x < countAddr s i + n.toNat then toWord (-1)
  else s.mem x

/-- The memory after `free_kpages` has cleared the `k` coremap entries from index
`i` on: those words hold 0, every other word is as in `s`. -/
def released (s : VM) (i k : Nat) : Mem := fun x =>
  if countAddr s i ≤ x ∧ x < countAddr s i + k then 0 else s.mem x

/-- The head/interior invariant of the coremap: an entry `k > 0` at an
allocatable index `i` is followed by `k - 1` entries `-1`, and the run ends
inside the coremap. -/
def HeadInv (s : VM) : Prop :=
  ∀ i, s.start_page ≤ i → i < s.num_pages → 0 < count s i →
    (∀ j, i < j → (j : Int) < (i : Int) + count s i → count s j = -1) ∧
    (i : Int) + count s i ≤ (s.num_pages : Int)

/-- An 8-frame machine just after bootstrap: RAM reported as
`[0x100000, 0x108000)`, so `num_pages = 8` and `start_page = 1`. -/
def m8 : VM := (vm_bootstrap (0x100000, 0x108000) ram0).getD ram0

/-- The 8-frame machine after `alloc_kpages(6)`: frames 1 to 6 form one run, and
no index below `num_pages - 1` is free. -/
def used8 : VM := ((alloc_kpages 6 m8).map Prod.snd).getD m8

/-! ## Address spaces -/

/-- Return codes of the address-space entry points: `ok` is the C value 0, the
others are the non-zero codes of `kern/errno.h` (a header outside the
translated file; only their being distinct and non-zero matters). -/
inductive Status where
  | ok
  | ENOMEM
  | EFAULT
  | EINVAL
  | EUNIMP
  deriving DecidableEq, Repr

/-- Modelled from the spec: `struct addrspace` is declared in a header outside the
translated file; these are the fields `dumbvm.c` uses.  A page table is a
pointer to a vector on the kernel heap: `none` is the NULL pointer, `some l`
a vector holding the words `l`. -/
structure addrspace where
  as_vbase1 : Nat
  as_npages1 : Nat
  as_vbase2 : Nat
  as_npages2 : Nat
  load_elf_completed : Bool
  page_table1 : Option (List Nat)
  page_table2 : Option (List Nat)
  page_table3 : Option (List Nat)
  deriving DecidableEq, Repr

/-- The function `as_create`, on the path where `kmalloc` succeeds. -/
def as_create : addrspace :=
  { as_vbase1 := 0
    as_npages1 := 0
    as_vbase2 := 0
    as_npages2 := 0
    load_elf_completed := false
    page_table1 := none
    page_table2 := none
    page_table3 := none }

/-- The page count `as_define_region` computes (lines 383-389): the size grows by
the offset of `vaddr` in its page, is rounded up to whole pages with the
`PAGE_FRAME` mask, and is divided by the page size.  `vaddr` and `sz` are
32-bit (`vaddr_t`, `size_t`), so the sums wrap. -/
def region_npages (vaddr sz : Nat) : Nat :=
  let sz1 := (sz + (vaddr &&& (4294967295 - PAGE_FRAME))) % 4294967296
  let sz2 := ((sz1 + PAGE_SIZE - 1) % 4294967296) &&& PAGE_FRAME
  sz2 / PAGE_SIZE

set_option linter.unusedVariables false in
/-- The function `as_define_region`.  `kmalloc` is the external kernel heap: it is taken
to succeed and not to touch the coremap, and the loop that follows stores 0 in
each of the `npages` slots of the new vector.  The state `s` is threaded
through to record that no global is written. -/
def as_define_region (as : addrspace) (vaddr sz : Nat) (readable writeable executable : Int)
    (s : VM) : Status × addrspace × VM :=
  let npages := region_npages vaddr sz
  let vaddr1 := vaddr &&& PAGE_FRAME
  if as.as_vbase1 = 0 then
    (Status.ok, { as with
      as_vbase1 := vaddr1
      as_npages1 := npages
      page_table1 := some (List.replicate npages 0) }, s)
  else if as.as_vbase2 = 0 then
    (Status.ok, { as with
      as_vbase2 := vaddr1
      as_npages2 := npages
      page_table2 := some (List.replicate npages 0) }, s)
  else (Status.EUNIMP, as, s)

/-- Modelled from the spec: `bzero` is a library routine outside the translated
file; it zero-fills `len` bytes from kernel virtual address `addr`.  Both are
multiples of 4 wherever `dumbvm.c` calls it on a frame, so whole words are
cleared. -/
def bzero (m : Mem) (addr len : Nat) : Mem := fun x =>
  if addr / 4 ≤ x ∧ x < addr / 4 + len / 4 then 0 else m x

/-- The function `as_zero_region`. -/
def as_zero_region (paddr npages : Nat) (s : VM) : VM :=
  { s with mem := bzero s.mem (PADDR_TO_KVADDR paddr) (npages * PAGE_SIZE) }

/-- One of the three loops of `as_prepare_load` (lines 439-445, 447-453,
456-462): `k` iterations starting at index `i` over the page table `pt`.  Each
one calls `getppages(1)`, stores the address in slot `i`, returns `ENOMEM`
when it is 0 and zero-fills the frame otherwise.  The result is `none` when
`getppages` panics or the store goes through a NULL pointer or past the end of
the vector. -/
def prepareLoop : Nat → Nat → Option (List Nat) → VM → Option (Status × Option (List Nat) × VM)
  | 0, _, pt, s => some (Status.ok, pt, s)
  | k + 1, i, pt, s =>
    match getppages 1 s with
    | none => none
    | some (pa, s1) =>
      match pt with
      | none => none
      | some l =>
        if i < l.length then
          if pa = 0 then some (Status.ENOMEM, some (l.set i pa), s1)
          else prepareLoop k (i + 1) (some (l.set i pa)) (as_zero_region pa 1 s1)
        else none

/-- The function `as_prepare_load`.  `fresh` is the content of the vector that
`kmalloc(DUMBVM_STACKPAGES*sizeof(int))` returns (uninitialised heap memory);
`kmalloc` is the external kernel heap, taken to succeed and not to touch the
coremap. -/
def as_prepare_load (fresh : List Nat) (as : addrspace) (s : VM) :
    Option (Status × addrspace × VM) :=
  match prepareLoop as.as_npages1 0 as.page_table1 s with
  | none => none
  | some (st1, pt1, s1) =>
    if st1 ≠ Status.ok then some (Status.ENOMEM, { as with page_table1 := pt1 }, s1)
    else
      match prepareLoop as.as_npages2 0 as.page_table2 s1 with
      | none => none
      | some (st2, pt2, s2) =>
        if st2 ≠ Status.ok then
          some (Status.ENOMEM, { as with page_table1 := pt1, page_table2 := pt2 }, s2)
        else
          match prepareLoop DUMBVM_STACKPAGES 0 (some fresh) s2 with
          | none => none
          | some (st3, pt3, s3) =>
            if st3 ≠ Status.ok then
              some (Status.ENOMEM,
                { as with page_table1 := pt1, page_table2 := pt2, page_table3 := pt3 }, s3)
            else
              some (Status.ok,
                { as with page_table1 := pt1, page_table2 := pt2, page_table3 := pt3 }, s3)

/-- The indices `j` in `[i, i + k)` with `count[j] = 0`, in increasing order. -/
def freeFrom (s : VM) : Nat → Nat → List Nat
  | 0, _ => []
  | k + 1, i => if count s i = 0 then i :: freeFrom s k (i + 1) else freeFrom s k (i + 1)

/-- The frames `getppages(1)` can hand out: the indices in
`[start_page, num_pages - 1)` with `count = 0`, in increasing order. -/
def freeFrames (s : VM) : List Nat :=
  freeFrom s (s.num_pages - 1 - s.start_page) s.start_page

/-- Every word of the frame at physical address `pa` is 0. -/
def frameZero (s : VM) (pa : Nat) : Prop :=
  ∀ w, w < 1024 → s.mem (PADDR_TO_KVADDR pa / 4 + w) = 0

/-- The effect of `k` successful rounds of "`getppages(1)`, then zero-fill the
frame" on a bootstrapped state `s`, leading to `t`: the first `k` free frames
of `s` are taken (count 1, content zero), nothing else in the coremap changes,
and frames that were all-zero stay so. -/
structure Filled (s t : VM) (k : Nat) : Prop where
  booted : Booted t
  globals : t = { s with mem := t.mem }
  enough : k ≤ (freeFrames s).length
  free : freeFrames t = (freeFrames s).drop k
  taken : ∀ j ∈ (freeFrames s).take k, count t j = 1 ∧ frameZero t (location s j)
  others : ∀ j, j < s.num_pages → j ∉ (freeFrames s).take k → count t j = count s j
  keep : ∀ j, s.start_page ≤ j → j < s.num_pages →
    frameZero s (location s j) → frameZero t (location s j)

/-- A 32-frame machine just after bootstrap: RAM reported as
`[0x100000, 0x120000)`, so `num_pages = 32` and `start_page = 1`. -/
def m32 : VM := (vm_bootstrap (0x100000, 0x120000) ram0).getD ram0

/-- The address space of scenario S3: a fresh address space after
`as_define_region(0x00400000, 0x3000)` and `as_define_region(0x10000000, 0x5000)`. -/
def as_s3 : addrspace :=
  (as_define_region (as_define_region as_create 0x00400000 0x3000 1 0 1 m32).2.1
    0x10000000 0x5000 1 1 0 m32).2.1

/-! ## TLB, fault handler and activation -/

/-- Modelled from the spec: the user stack top `USERSTACK`; the spec's scenarios
fix it at `0x80000000`. -/
def USERSTACK : Nat := 0x80000000

/-- Modelled from the spec: the number of TLB slots, a constant of the MIPS TLB
header outside the translated file. -/
def NUM_TLB : Nat := 64

/-- Modelled from the spec: the VALID bit of a TLB entry's low word, a constant of
the MIPS TLB header outside the translated file. -/
def TLBLO_VALID : Nat := 0x200

/-- Modelled from the spec: the DIRTY ("writable") bit of a TLB entry's low word, a
constant of the MIPS TLB header outside the translated file. -/
def TLBLO_DIRTY : Nat := 0x400

/-- Modelled from the spec: the high word written to mark slot `entryno` invalid, a
macro of the MIPS TLB header outside the translated file; each slot gets its
own address in the kernel window, which is never looked up in the TLB. -/
def TLBHI_INVALID (entryno : Nat) : Nat := (0x80000 + entryno) <<< 12

/-- Modelled from the spec: the low word written to mark a slot invalid (VALID
clear), a macro of the MIPS TLB header outside the translated file. -/
def TLBLO_INVALID : Nat := 0

/-- Modelled from the spec: the fault type codes, constants of the VM header
outside the translated file. -/
def VM_FAULT_READ : Int := 0

/-- Modelled from the spec: see `VM_FAULT_READ`. -/
def VM_FAULT_WRITE : Int := 1

/-- Modelled from the spec: see `VM_FAULT_READ`. -/
def VM_FAULT_READONLY : Int := 2

/-- The TLB: slot `i` holds the pair `(entryhi, entrylo)`. -/
abbrev TLB := Nat → Nat × Nat

/-- Modelled from the spec: the hardware primitive `tlb_write(ehi, elo, i)`. -/
def tlb_write (ehi elo i : Nat) (t : TLB) : TLB := fun j => if j = i then (ehi, elo) else t j

/-- Modelled from the spec: `curproc_getas()` yields the address space of the
current process, NULL when there is no process or it has none.  The argument is
the current process: `none` for no process, `some a` for a process whose
address space pointer is `a`. -/
def curproc_getas (cur : Option (Option addrspace)) : Option addrspace :=
  match cur with
  | none => none
  | some a => a

/-- A read of `pt[i]`: `none` when `pt` is NULL or `i` is past the vector. -/
def readEntry (pt : Option (List Nat)) (i : Nat) : Option Nat :=
  match pt with
  | none => none
  | some l => l[i]?

/-- The assertions of `vm_fault` on the address space (lines 235-244): `true` when
all of them pass, `false` when one fails or a page table cannot be read. -/
def fault_asserts (as : addrspace) : Bool :=
  decide (as.as_vbase1 ≠ 0) &&
  (match readEntry as.page_table1 0 with
    | none => false
    | some e => decide (e ≠ 0)) &&
  decide (as.as_npages1 ≠ 0) &&
  decide (as.as_vbase2 ≠ 0) &&
  (match readEntry as.page_table2 0 with
    | none => false
    | some e => decide (e ≠ 0)) &&
  decide (as.as_npages2 ≠ 0) &&
  (match readEntry as.page_table3 0 with
    | none => false
    | some e => decide (e ≠ 0)) &&
  decide (as.as_vbase1 &&& PAGE_FRAME = as.as_vbase1) &&
  decide (as.as_vbase2 &&& PAGE_FRAME = as.as_vbase2)

/-- The local `page` of `vm_fault`: `(faultaddress - base) / PAGE_SIZE`. -/
def fault_page (base faultaddress : Nat) : Nat := (faultaddress - base) / PAGE_SIZE

/-- The local `offset` of `vm_fault`: `(faultaddress - base) % PAGE_SIZE`. -/
def fault_offset (base faultaddress : Nat) : Nat := (faultaddress - base) % PAGE_SIZE

/-- The address decoding of `vm_fault` (lines 248-273) for the masked address
`faultaddress`.  The result is `none` when a page table read is out of range,
`some none` on the `EFAULT` path, and `some (some (paddr, text))` otherwise.
The range ends are 32-bit, so the sums wrap. -/
def fault_resolve (as : addrspace) (faultaddress : Nat) : Option (Option (Nat × Bool)) :=
  let vbase1 := as.as_vbase1
  let vtop1 := (vbase1 + as.as_npages1 * PAGE_SIZE) % 4294967296
  let vbase2 := as.as_vbase2
  let vtop2 := (vbase2 + as.as_npages2 * PAGE_SIZE) % 4294967296
  let stackbase := USERSTACK - DUMBVM_STACKPAGES * PAGE_SIZE
  let stacktop := USERSTACK
  if vbase1 ≤ faultaddress ∧ faultaddress < vtop1 then
    match readEntry as.page_table1 (fault_page vbase1 faultaddress) with
    | none => none
    | some e => some (some ((e + fault_offset vbase1 faultaddress) % 4294967296, true))
  else if vbase2 ≤ faultaddress ∧ faultaddress < vtop2 then
    match readEntry as.page_table2 (fault_page vbase2 faultaddress) with
    | none => none
    | some e => some (some ((e + fault_offset vbase2 faultaddress) % 4294967296, false))
  else if stackbase ≤ faultaddress ∧ faultaddress < stacktop then
    match readEntry as.page_table3 (fault_page stackbase faultaddress) with
    | none => none
    | some e => some (some ((e + fault_offset stackbase faultaddress) % 4294967296, false))
  else some none

/-- The low word `vm_fault` builds (lines 287-288 and 296-297). -/
def fault_elo (paddr : Nat) (text completed : Bool) : Nat :=
  let elo := paddr ||| TLBLO_DIRTY ||| TLBLO_VALID
  if text && completed then elo &&& (4294967295 - TLBLO_DIRTY) else elo

/-- The TLB scan of `vm_fault` (lines 281-293): at most `k` iterations starting at
slot `i`; the first slot whose VALID bit is clear is written.  The result is
`none` when the loop ends without writing. -/
def tlbFill (ehi elo : Nat) : Nat → Nat → TLB → Option TLB
  | 0, _, _ => none
  | k + 1, i, t =>
    if (t i).2 &&& TLBLO_VALID ≠ 0 then tlbFill ehi elo k (i + 1) t
    else some (tlb_write ehi elo i t)

/-- The function `vm_fault`.  `cur` is the current process (see `curproc_getas`),
`rnd` the slot the hardware picks for `tlb_random`.  The result is `none` when
an assertion fails. -/
def vm_fault (faulttype : Int) (faultaddress : Nat) (cur : Option (Option addrspace))
    (rnd : Nat) (t : TLB) : Option (Status × TLB) :=
  let faultaddress := faultaddress &&& PAGE_FRAME
  if faulttype = VM_FAULT_READONLY then some (Status.ok, t)
  else if faulttype = VM_FAULT_READ ∨ faulttype = VM_FAULT_WRITE then
    match cur with
    | none => some (Status.EFAULT, t)
    | some _ =>
      match curproc_getas cur with
      | none => some (Status.EFAULT, t)
      | some as =>
        if fault_asserts as = false then none
        else
          match fault_resolve as faultaddress with
          | none => none
          | some none => some (Status.EFAULT, t)
          | some (some (paddr, text)) =>
            if paddr &&& PAGE_FRAME ≠ paddr then none
            else
              let elo := fault_elo paddr text as.load_elf_completed
              match tlbFill faultaddress elo NUM_TLB 0 t with
              | some t1 => some (Status.ok, t1)
              | none => some (Status.ok, tlb_write faultaddress elo rnd t)
  else some (Status.EINVAL, t)

/-- The loop of `as_activate` (lines 363-365): `k` iterations starting at slot `i`. -/
def flushLoop : Nat → Nat → TLB → TLB
  | 0, _, t => t
  | k + 1, i, t => flushLoop k (i + 1) (tlb_write (TLBHI_INVALID i) TLBLO_INVALID i t)

/-- The function `as_activate`. -/
def as_activate (cur : Option (Option addrspace)) (t : TLB) : TLB :=
  match curproc_getas cur with
  | none => t
  | some _ => flushLoop NUM_TLB 0 t

/-- The function `as_complete_load`: it returns 0 and does nothing else. -/
def as_complete_load (as : addrspace) : Status × addrspace := (Status.ok, as)

/-- The address space of scenario S3 after `as_prepare_load` on the 32-frame
machine. -/
def as_p3 : addrspace :=
  { as_vbase1 := 0x00400000, as_npages1 := 3, as_vbase2 := 0x10000000, as_npages2 := 5,
    load_elf_completed := false,
    page_table1 := some [0x101000, 0x102000, 0x103000],
    page_table2 := some [0x104000, 0x105000, 0x106000, 0x107000, 0x108000],
    page_table3 := some [0x109000, 0x10a000, 0x10b000, 0x10c000, 0x10d000, 0x10e000,
      0x10f000, 0x110000, 0x111000, 0x112000, 0x113000, 0x114000] }

/-- A TLB in which every slot is valid. -/
def tlbFull : TLB := fun _ => (0, TLBLO_VALID)

/-- A TLB with every slot invalid. -/
def tlbEmpty : TLB := fun i => (TLBHI_INVALID i, TLBLO_INVALID)

/-- The first range of the fault handler, as the specification words it:
`[vbase1, vbase1 + npages1 * PAGE_SIZE)`, without 32-bit wrap. -/
def inRegion1 (as : addrspace) (va : Nat) : Prop :=
  as.as_vbase1 ≤ va ∧ va < as.as_vbase1 + as.as_npages1 * PAGE_SIZE

/-- The second range: `[vbase2, vbase2 + npages2 * PAGE_SIZE)`, without wrap. -/
def inRegion2 (as : addrspace) (va : Nat) : Prop :=
  as.as_vbase2 ≤ va ∧ va < as.as_vbase2 + as.as_npages2 * PAGE_SIZE

/-- The stack range: `[USERSTACK - 12 * PAGE_SIZE, USERSTACK)`. -/
def inStack (va : Nat) : Prop :=
  USERSTACK - 12 * PAGE_SIZE ≤ va ∧ va < USERSTACK

/-- A page table that holds `n` page-aligned 32-bit entries. -/
def tableAligned (pt : Option (List Nat)) (n : Nat) : Prop :=
  ∃ l, pt = some l ∧ l.length = n ∧ ∀ e ∈ l, e % 4096 = 0 ∧ e < 4294967296

/-- A page table that holds `n` non-zero page-aligned 32-bit entries. -/
def tablePrepared (pt : Option (List Nat)) (n : Nat) : Prop :=
  ∃ l, pt = some l ∧ l.length = n ∧ ∀ e ∈ l, e ≠ 0 ∧ e % 4096 = 0 ∧ e < 4294967296

/-- A well-formed prepared address space: two regions defined at non-zero
page-aligned bases that end below 2^32, and three page tables of the right
lengths filled with non-zero page-aligned frames. -/
structure PreparedAS (as : addrspace) : Prop where
  base1 : as.as_vbase1 ≠ 0 ∧ as.as_vbase1 % 4096 = 0
  size1 : as.as_npages1 ≠ 0 ∧ as.as_vbase1 + as.as_npages1 * PAGE_SIZE < 4294967296
  base2 : as.as_vbase2 ≠ 0 ∧ as.as_vbase2 % 4096 = 0
  size2 : as.as_npages2 ≠ 0 ∧ as.as_vbase2 + as.as_npages2 * PAGE_SIZE < 4294967296
  table1 : tablePrepared as.page_table1 as.as_npages1
  table2 : tablePrepared as.page_table2 as.as_npages2
  table3 : tablePrepared as.page_table3 DUMBVM_STACKPAGES

/-- The range the fault handler selects for the page `va`, with its page table
`l`, its base and the `text` flag: region 1 first, then region 2, then the
stack. -/
def faultRange (as : addrspace) (va : Nat) (l : List Nat) (base : Nat) (text : Bool) : Prop :=
  (inRegion1 as va ∧ as.page_table1 = some l ∧ base = as.as_vbase1 ∧ text = true) ∨
  (¬ inRegion1 as va ∧ inRegion2 as va ∧ as.page_table2 = some l ∧ base = as.as_vbase2 ∧
    text = false) ∨
  (¬ inRegion1 as va ∧ ¬ inRegion2 as va ∧ inStack va ∧ as.page_table3 = some l ∧
    base = USERSTACK - DUMBVM_STACKPAGES * PAGE_SIZE ∧ text = false)

/-- The coremap states reachable from the state `s0` that `vm_bootstrap` returned,
by calls of `alloc_kpages(n)` with `n ≥ 1` and of `free_kpages` that return. -/
inductive Reachable (s0 : VM) : VM → Prop where
  | boot : Reachable s0 s0
  | alloc (s : VM) (n : Int) (kva : Nat) (s1 : VM) :
      Reachable s0 s → 1 ≤ n → n < 2147483648 → alloc_kpages n s = some (kva, s1) →
      Reachable s0 s1
  | free (s : VM) (addr : Nat) (s1 : VM) :
      Reachable s0 s → free_kpages addr s = some s1 → Reachable s0 s1

/-- A machine just after bootstrap whose RAM is one frame: `0x100000` to
`0x101000`. -/
def m1 : VM := (vm_bootstrap (0x100000, 0x101000) ram0).getD ram0

/-- A 1024-frame machine just after bootstrap: RAM `0x100000` to `0x500000`,
the coremap takes two frames. -/
def m1024 : VM := (vm_bootstrap (0x100000, 0x500000) ram0).getD ram0

/-- The 8-frame machine after `alloc_kpages(3)`: frames 1 to 3 are taken, the
free frames are the last four of RAM. -/
def tail8 : VM := ((alloc_kpages 3 m8).map Prod.snd).getD m8

/-! ## as_destroy and as_copy -/

/-- One of the three loops of `as_destroy` (lines 331-339): `k` iterations
starting at index `i`, each one calling
`free_kpages(PADDR_TO_KVADDR(pt[i]))`.  The result is `none` when a call fails
its assertion or the table cannot be read. -/
def destroyLoop (pt : Option (List Nat)) : Nat → Nat → VM → Option VM
  | 0, _, s => some s
  | k + 1, i, s =>
    match readEntry pt i with
    | none => none
    | some e =>
      match free_kpages (PADDR_TO_KVADDR e) s with
      | none => none
      | some s1 => destroyLoop pt k (i + 1) s1

/-- The function `as_destroy`: the coremap state after the three loops.  The
`kfree` calls go to the external kernel heap and leave the coremap alone. -/
def as_destroy (as : addrspace) (s : VM) : Option VM :=
  match destroyLoop as.page_table1 as.as_npages1 0 s with
  | none => none
  | some s1 =>
    match destroyLoop as.page_table2 as.as_npages2 0 s1 with
    | none => none
    | some s2 => destroyLoop as.page_table3 DUMBVM_STACKPAGES 0 s2

/-- The number of coremap entries with a non-zero count. -/
def usedFrames (s : VM) : Nat :=
  ((Finset.range s.num_pages).filter (fun i => count s i ≠ 0)).card

/-- The 32-frame machine with frames 1 to 20 allocated one by one (count 1 each),
the frames `as_prepare_load` takes for the address space of scenario S3. -/
def own32 : VM :=
  { m32 with mem := fun x =>
      if countAddr m32 1 ≤ x ∧ x < countAddr m32 21 then 1 else m32.mem x }

/-- Modelled from the spec: the library routine `memmove(dst, src, len)` on the
word memory: the `len / 4` words from `src` on are copied to `dst` on, all of
them read before any is written. -/
def memmove (m : Mem) (dst src len : Nat) : Mem := fun x =>
  if dst / 4 ≤ x ∧ x < dst / 4 + len / 4 then m (src / 4 + (x - dst / 4)) else m x

/-- One of the three copy loops of `as_copy` (lines 515-529): `k` iterations
starting at index `i`, each one moving `PAGE_SIZE` bytes from the frame of
`oldpt[i]` to the frame of `newpt[i]`.  The result is `none` when a table
cannot be read. -/
def copyLoop (newpt oldpt : Option (List Nat)) : Nat → Nat → VM → Option VM
  | 0, _, s => some s
  | k + 1, i, s =>
    match readEntry newpt i with
    | none => none
    | some d =>
      match readEntry oldpt i with
      | none => none
      | some o =>
        copyLoop newpt oldpt k (i + 1)
          { s with mem := memmove s.mem (PADDR_TO_KVADDR d) (PADDR_TO_KVADDR o) PAGE_SIZE }

/-- The first part of `as_copy` (lines 488-503): the new address space from
`as_create` with the bases and sizes of `old` and two zeroed page tables. -/
def copy_init (old : addrspace) : addrspace :=
  { as_create with
    as_vbase1 := old.as_vbase1
    as_npages1 := old.as_npages1
    page_table1 := some (List.replicate old.as_npages1 0)
    as_vbase2 := old.as_vbase2
    as_npages2 := old.as_npages2
    page_table2 := some (List.replicate old.as_npages2 0) }

/-- The function `as_copy`: the status, the new address space (`*ret`, set only
on success) and the state after the call.  `fresh` is the content of the stack
vector that `as_prepare_load` gets from `kmalloc`; the `kmalloc` calls are taken
to succeed. -/
def as_copy (fresh : List Nat) (old : addrspace) (s : VM) :
    Option (Status × Option addrspace × VM) :=
  match as_prepare_load fresh (copy_init old) s with
  | none => none
  | some (st, new1, s1) =>
    if st ≠ Status.ok then
      match as_destroy new1 s1 with
      | none => none
      | some s2 => some (Status.ENOMEM, none, s2)
    else
      match copyLoop new1.page_table1 old.page_table1 new1.as_npages1 0 s1 with
      | none => none
      | some s2 =>
        match copyLoop new1.page_table2 old.page_table2 new1.as_npages2 0 s2 with
        | none => none
        | some s3 =>
          match copyLoop new1.page_table3 old.page_table3 DUMBVM_STACKPAGES 0 s3 with
          | none => none
          | some s4 => some (Status.ok, some new1, s4)

/-- The effect on memory of a run of page copies, given as the list of
`(destination, source)` physical addresses in the order of the calls. -/
def copyPairs : List (Nat × Nat) → Mem → Mem
  | [], m => m
  | (d, o) :: ps, m =>
    copyPairs ps (memmove m (PADDR_TO_KVADDR d) (PADDR_TO_KVADDR o) PAGE_SIZE)

/-- The frames at the physical addresses `a` and `b` share no word. -/
def frameDisjoint (a b : Nat) : Prop :=
  ∀ w1 w2, w1 < 1024 → w2 < 1024 → PADDR_TO_KVADDR a / 4 + w1 ≠ PADDR_TO_KVADDR b / 4 + w2

/-- The contents of the frames that are not among the first `k` free frames of
`s` are the same in `t` as in `s`. -/
def framesKept (s t : VM) (k : Nat) : Prop :=
  ∀ j, s.start_page ≤ j → j < s.num_pages → j ∉ (freeFrames s).take k →
    ∀ w, w < 1024 →
      t.mem (PADDR_TO_KVADDR (location s j) / 4 + w) =
        s.mem (PADDR_TO_KVADDR (location s j) / 4 + w)

/-- Byte `k` of the frame at physical address `pa`, read through the kernel
window; the machine is big-endian, so byte 0 of a word is its top byte. -/
def frameByte (m : Mem) (pa k : Nat) : Nat :=
  m (PADDR_TO_KVADDR pa / 4 + k / 4) / 256 ^ (3 - k % 4) % 256

/-- A 64-frame machine just after bootstrap: RAM `0x100000` to `0x140000`. -/
def m64 : VM := (vm_bootstrap (0x100000, 0x140000) ram0).getD ram0

/-- The 64-frame machine with frames 1 to 20 allocated one by one, the frames of
the prepared address space of S3, and the byte `0xAB` at offset 7 of the first
frame of region 1. -/
def own64 : VM :=
  { m64 with mem := fun x =>
      if countAddr m64 1 ≤ x ∧ x < countAddr m64 21 then 1
      else if x = PADDR_TO_KVADDR 0x101000 / 4 + 1 then 0xAB
      else m64.mem x }

/-- A machine before `vm_bootstrap` whose RAM holds zeros. -/
def ramz : VM := { ram0 with mem := fun _ => 0 }

/-- A 513-frame machine just after bootstrap from zero-filled RAM:
`0x100000` to `0x301000`, the coremap takes two frames (`start_page = 2`). -/
def z513 : VM := (vm_bootstrap (0x100000, 0x301000) ramz).getD ramz

/-- The 513-frame machine after `alloc_kpages(491)`: frames 2 to 492 are taken. -/
def low513 : VM := ((alloc_kpages 491 z513).map Prod.snd).getD z513

/-! ## Words, stores and loops -/

theorem toInt_toWord (v : Int) (h1 : -2147483648 ≤ v) (h2 : v < 2147483648) :
    toInt (toWord v) = v := by
  unfold toInt toWord
  split <;> omega

theorem wrapInt_eq (v : Int) (h1 : -2147483648 ≤ v) (h2 : v < 2147483648) :
    wrapInt v = v := toInt_toWord v h1 h2
theorem store_ne (m : Mem) (a v x : Nat) (h : x ≠ a) : store m a v x = m x := by
  simp [store, h]
theorem markInterior_apply (cnt : Nat) (k j : Nat) (m : Mem) (x : Nat) :
    markInterior cnt k j m x =
      if cnt / 4 + j ≤ x ∧ x < cnt / 4 + j + k then toWord (-1) else m x := by
  induction k generalizing j m with
  | zero =>
    rw [markInterior, if_neg]
    omega
  | succ k ih =>
    rw [markInterior, ih]
    by_cases hx : x = cnt / 4 + j
    · subst hx
      simp [store]
    · rw [store_ne _ _ _ _ hx]
      have : (cnt / 4 + (j + 1) ≤ x ∧ x < cnt / 4 + (j + 1) + k) ↔
          (cnt / 4 + j ≤ x ∧ x < cnt / 4 + j + (k + 1)) := by omega
      simp only [this]

theorem scanFree_miss (s : VM) (n : Int) (k i : Nat)
    (h : ∀ j, i ≤ j → j < i + k → count s j ≠ 0) : scanFree s n k i = (0, s.mem) := by
  induction k generalizing i with
  | zero => rfl
  | succ k ih =>
    rw [scanFree, if_neg (h i (le_refl i) (by omega))]
    exact ih (i + 1) (fun j h1 h2 => h j (by omega) (by omega))

theorem scanFree_hit (s : VM) (n : Int) (k i i0 : Nat) (h1 : i ≤ i0) (h2 : i0 < i + k)
    (h0 : count s i0 = 0) (hmin : ∀ j, i ≤ j → j < i0 → count s j ≠ 0) :
    scanFree s n k i =
      (i0, markInterior s.coremap_count (wrapInt ((i0 : Int) + n) - ((i0 : Int) + 1)).toNat (i0 + 1)
            (store s.mem (countAddr s i0) (toWord n))) := by
  induction k generalizing i with
  | zero => omega
  | succ k ih =>
    by_cases hi : i = i0
    · subst hi
      rw [scanFree, if_pos h0]
    · rw [scanFree, if_neg (hmin i (le_refl i) (by omega))]
      exact ih (i + 1) (by omega) (by omega) (fun j h3 h4 => hmin j (by omega) h4)

theorem Booted.laid (s : VM) (hs : Booted s) : Laid s :=
  ⟨hs.boot, hs.base, hs.layout, hs.pages, hs.last, hs.start⟩

theorem laid_num_pages_lt (s : VM) (hs : Laid s) : s.num_pages < 1048576 := by
  have h1 := hs.pages
  have h2 := hs.last
  unfold PAGE_SIZE at h1
  omega

theorem laid_start_pos (s : VM) (hs : Laid s) (h : 0 < s.num_pages) : 1 ≤ s.start_page := by
  have h1 := hs.start
  unfold ROUNDUP PAGE_SIZE at h1
  omega

theorem Booted.num_pages_lt (s : VM) (hs : Booted s) : s.num_pages < 1048576 := by
  have h1 := hs.pages
  have h2 := hs.last
  unfold PAGE_SIZE at h1
  omega

theorem Booted.start_pos (s : VM) (hs : Booted s) (h : 0 < s.num_pages) : 1 ≤ s.start_page := by
  have h1 := hs.start
  unfold ROUNDUP PAGE_SIZE at h1
  omega

theorem Booted.start_le (s : VM) (hs : Booted s) : s.start_page * 1024 < 2 * s.num_pages + 1024 := by
  have h1 := hs.start
  unfold ROUNDUP PAGE_SIZE at h1
  omega

theorem scanFree_hit_claimed (s : VM) (n : Int) (k i i0 : Nat) (hn : 1 ≤ n)
    (hsum : (i0 : Int) + n < 2147483648)
    (h1 : i ≤ i0) (h2 : i0 < i + k)
    (h0 : count s i0 = 0) (hmin : ∀ j, i ≤ j → j < i0 → count s j ≠ 0) :
    scanFree s n k i = (i0, claimed s n i0) := by
  rw [scanFree_hit s n k i i0 h1 h2 h0 hmin, wrapInt_eq _ (by omega) hsum]
  congr 1
  funext x
  rw [markInterior_apply]
  unfold claimed countAddr store
  by_cases hx : x = s.coremap_count / 4 + i0
  · subst hx
    rw [if_neg (by omega), if_pos rfl, if_pos rfl]
  · rw [if_neg hx, if_neg hx]
    have : (s.coremap_count / 4 + (i0 + 1) ≤ x ∧
        x < s.coremap_count / 4 + (i0 + 1) + ((i0 : Int) + n - ((i0 : Int) + 1)).toNat) ↔
        (s.coremap_count / 4 + i0 < x ∧ x < s.coremap_count / 4 + i0 + n.toNat) := by omega
    simp only [this]

theorem getppages_hit (s : VM) (n : Int) (i : Nat)
    (hb : s.bootstrapped = true) (hnp : s.num_pages < 2147483648)
    (hn : 1 ≤ n) (hn31 : n < 2147483648)
    (hlo : s.start_page ≤ i) (hhi : (i : Int) < (s.num_pages : Int) - n) (hpos : i ≠ 0)
    (h0 : count s i = 0) (hmin : ∀ j, s.start_page ≤ j → j < i → count s j ≠ 0) :
    getppages n s =
      some (location { s with mem := claimed s n i } i, { s with mem := claimed s n i }) := by
  unfold getppages
  rw [if_neg (by simp [hb]), wrapInt_eq _ (by omega) (by omega),
    scanFree_hit_claimed s n _ s.start_page i hn (by omega) hlo (by omega) h0 hmin]
  simp [hpos]

theorem count_claimed_head (s : VM) (n : Int) (i : Nat) (hn31 : n < 2147483648) (hn : 1 ≤ n) :
    count { s with mem := claimed s n i } i = n := by
  unfold count claimed countAddr
  simp only [if_true]
  exact toInt_toWord n (by omega) hn31

theorem count_claimed_interior (s : VM) (n : Int) (i j : Nat) (h1 : i < j)
    (h2 : (j : Int) < (i : Int) + n) :
    count { s with mem := claimed s n i } j = -1 := by
  unfold count claimed countAddr
  simp only
  rw [if_neg (by omega), if_pos (by omega)]
  decide

theorem mem_claimed_other (s : VM) (n : Int) (i x : Nat)
    (h : x < countAddr s i ∨ countAddr s i + n.toNat ≤ x) (hn : 1 ≤ n) :
    claimed s n i x = s.mem x := by
  unfold claimed
  rw [if_neg (by omega), if_neg (by omega)]

theorem count_claimed_other (s : VM) (n : Int) (i j : Nat) (hn : 1 ≤ n)
    (h : j < i ∨ (i : Int) + n ≤ (j : Int)) :
    count { s with mem := claimed s n i } j = count s j := by
  unfold count
  simp only
  rw [show countAddr { s with mem := claimed s n i } j = countAddr s j from rfl,
    mem_claimed_other s n i _ (by unfold countAddr; omega) hn]

theorem location_claimed (s : VM) (n : Int) (i j : Nat) (hn : 1 ≤ n)
    (hl : s.coremap_location = s.coremap_count + 4 * s.num_pages)
    (hhi : (i : Int) + n ≤ (s.num_pages : Int)) :
    location { s with mem := claimed s n i } j = location s j := by
  unfold location
  simp only
  rw [show locationAddr { s with mem := claimed s n i } j = locationAddr s j from rfl,
    mem_claimed_other s n i _ (by unfold countAddr locationAddr; omega) hn]

theorem alloc_kpages_hit (s : VM) (n : Int) (i : Nat)
    (hs : Booted s) (hn : 1 ≤ n) (hn31 : n < 2147483648)
    (hlo : s.start_page ≤ i) (hhi : (i : Int) < (s.num_pages : Int) - n)
    (h0 : count s i = 0) (hmin : ∀ j, s.start_page ≤ j → j < i → count s j ≠ 0) :
    alloc_kpages n s =
      some (PADDR_TO_KVADDR (location s i), { s with mem := claimed s n i }) := by
  have hnp := Booted.num_pages_lt s hs
  have hsp := Booted.start_pos s hs (by omega)
  have hloc := hs.locs i hlo (by omega)
  unfold alloc_kpages
  rw [getppages_hit s n i hs.boot (by omega) hn hn31 hlo hhi (by omega) h0 hmin]
  simp only
  rw [location_claimed s n i i hn hs.layout (by omega), if_neg]
  rw [hloc]
  unfold PAGE_SIZE
  omega

theorem store_same (m : Mem) (a v : Nat) : store m a v a = v := by
  simp [store]

theorem toInt_range (w : Nat) : -2147483648 ≤ toInt w ∧ toInt w < 2147483648 := by
  unfold toInt
  split <;> omega

theorem toInt_of_lt (w : Nat) (h : w < 2147483648) : toInt w = (w : Int) := by
  unfold toInt
  rw [Nat.mod_eq_of_lt (by omega), if_pos h]

theorem count_range (s : VM) (i : Nat) : -2147483648 ≤ count s i ∧ count s i < 2147483648 :=
  toInt_range _

theorem start_page_bounds (np : Nat) (h : 0 < np) (h2 : np ≤ 1048576) :
    1 ≤ ROUNDUP (np * 4 * 2) PAGE_SIZE / PAGE_SIZE ∧
    ROUNDUP (np * 4 * 2) PAGE_SIZE / PAGE_SIZE < 2147483648 ∧
    ROUNDUP (np * 4 * 2) PAGE_SIZE / PAGE_SIZE ≤ np := by
  unfold ROUNDUP PAGE_SIZE
  omega

theorem bootLoop_apply (cnt loc first N : Nat) (hl : loc / 4 = cnt / 4 + N) (k i : Nat)
    (hN : i + k ≤ N) (m : Mem) (x : Nat) :
    bootLoop cnt loc first k i m x =
      if cnt / 4 + i ≤ x ∧ x < cnt / 4 + i + k then 0
      else if loc / 4 + i ≤ x ∧ x < loc / 4 + i + k then
        (first + (x - loc / 4) * PAGE_SIZE) % 4294967296
      else m x := by
  induction k generalizing i m with
  | zero =>
    rw [bootLoop, if_neg (by omega), if_neg (by omega)]
  | succ k ih =>
    rw [bootLoop, ih (i + 1) (by omega)]
    by_cases h1 : cnt / 4 + i ≤ x ∧ x < cnt / 4 + i + (k + 1)
    · rw [if_pos h1]
      by_cases h2 : x = cnt / 4 + i
      · rw [if_neg (by omega), if_neg (by omega), store_ne _ _ _ _ (by omega), h2]
        simp [store]
      · rw [if_pos (by omega)]
    · rw [if_neg h1, if_neg (by omega)]
      by_cases h3 : loc / 4 + i ≤ x ∧ x < loc / 4 + i + (k + 1)
      · rw [if_pos h3]
        by_cases h4 : x = loc / 4 + i
        · rw [if_neg (by omega), h4]
          simp [store]
        · rw [if_pos (by omega)]
      · rw [if_neg h3, if_neg (by omega), store_ne _ _ _ _ (by omega),
          store_ne _ _ _ _ (by omega)]

theorem vm_bootstrap_again (r : Nat × Nat) (s : VM) (hb : s.bootstrapped = true) :
    vm_bootstrap r s = none := by
  unfold vm_bootstrap
  rw [if_pos hb]

theorem vm_bootstrap_post (first last : Nat) (s : VM) (hb : s.bootstrapped = false)
    (h1 : first ≤ last) (h2 : last < 4294967296) :
    ∃ s1, vm_bootstrap (first, last) s = some s1 ∧
      s1.num_pages = (last - first) / PAGE_SIZE ∧
      s1.start_page = (8 * s1.num_pages + PAGE_SIZE - 1) / PAGE_SIZE ∧
      s1.firstpaddr = first ∧ s1.lastpaddr = last ∧ s1.stealmem = s.stealmem ∧
      Booted s1 ∧
      (∀ i, s1.start_page ≤ i → i < s1.num_pages → count s1 i = 0) ∧
      (0 < s1.num_pages → count s1 0 = (s1.start_page : Int)) := by
  have hnp : (((last : Int) - (first : Int)) % 4294967296).toNat / PAGE_SIZE
      = (last - first) / PAGE_SIZE := by
    congr 1
    omega
  unfold vm_bootstrap
  rw [if_neg (by simp [hb])]
  simp only [hnp]
  refine ⟨_, rfl, ?_, ?_, rfl, rfl, rfl, ?_, ?_, ?_⟩
  · trivial
  · simp only [hnp]
    unfold ROUNDUP PAGE_SIZE
    omega
  · refine ⟨rfl, rfl, rfl, ?_, h2, rfl, ?_⟩
    · simp only [hnp]
      unfold PAGE_SIZE
      omega
    · intro i hi1 hi2
      simp only [hnp] at hi1 hi2 ⊢
      unfold location locationAddr
      simp only [hnp]
      rw [bootLoop_apply _ _ _ ((last - first) / PAGE_SIZE) (by omega) _ _ (by omega),
        if_neg (by omega), if_pos (by omega)]
      unfold PAGE_SIZE at hi2 ⊢
      omega
  · intro i hi1 hi2
    simp only [hnp] at hi1 hi2 ⊢
    unfold count countAddr
    simp only [hnp]
    rw [bootLoop_apply _ _ _ ((last - first) / PAGE_SIZE) (by omega) _ _ (by omega),
      if_pos (by omega)]
    rfl
  · intro hpos
    simp only [hnp] at hpos ⊢
    have hsp := start_page_bounds ((last - first) / PAGE_SIZE) hpos (by unfold PAGE_SIZE; omega)
    unfold count countAddr
    simp only [hnp]
    rw [bootLoop_apply _ _ _ ((last - first) / PAGE_SIZE) (by omega) _ _ (by omega),
      if_neg (by omega), if_neg (by omega), store_ne _ _ _ _ (by omega)]
    rw [Nat.add_zero, store_same]
    have h3 := hsp.2.1
    generalize ROUNDUP ((last - first) / PAGE_SIZE * 4 * 2) PAGE_SIZE / PAGE_SIZE = sp at h3 ⊢
    exact toInt_toWord _ (by omega) (by omega)

theorem toInt_zero : toInt 0 = 0 := by
  unfold toInt
  norm_num

theorem zeroRun_apply (cnt : Nat) (k i : Nat) (m : Mem) (x : Nat) :
    zeroRun cnt k i m x = if cnt / 4 + i ≤ x ∧ x < cnt / 4 + i + k then 0 else m x := by
  induction k generalizing i m with
  | zero =>
    rw [zeroRun, if_neg]
    omega
  | succ k ih =>
    rw [zeroRun, ih]
    by_cases hx : x = cnt / 4 + i
    · subst hx
      simp [store]
    · rw [store_ne _ _ _ _ hx]
      have : (cnt / 4 + (i + 1) ≤ x ∧ x < cnt / 4 + (i + 1) + k) ↔
          (cnt / 4 + i ≤ x ∧ x < cnt / 4 + i + (k + 1)) := by omega
      simp only [this]

theorem zeroRun_eq_released (s : VM) (i k : Nat) :
    zeroRun s.coremap_count k i s.mem = released s i k := by
  funext x
  rw [zeroRun_apply]
  rfl

theorem findPage_miss (s : VM) (addr : Nat) (k i : Nat)
    (h : ∀ j, i ≤ j → j < i + k → PADDR_TO_KVADDR (location s j) ≠ addr) :
    findPage s addr k i = (0, 0) := by
  induction k generalizing i with
  | zero => rfl
  | succ k ih =>
    rw [findPage, if_neg (h i (le_refl i) (by omega))]
    exact ih (i + 1) (fun j h1 h2 => h j (by omega) (by omega))

theorem findPage_hit (s : VM) (addr : Nat) (k i i0 : Nat) (h1 : i ≤ i0) (h2 : i0 < i + k)
    (h0 : PADDR_TO_KVADDR (location s i0) = addr)
    (hmin : ∀ j, i ≤ j → j < i0 → PADDR_TO_KVADDR (location s j) ≠ addr) :
    findPage s addr k i = (i0, count s i0) := by
  induction k generalizing i with
  | zero => omega
  | succ k ih =>
    by_cases hi : i = i0
    · subst hi
      rw [findPage, if_pos h0]
    · rw [findPage, if_neg (hmin i (le_refl i) (by omega))]
      exact ih (i + 1) (by omega) (by omega) (fun j h3 h4 => hmin j (by omega) h4)

/-- Either the search of `free_kpages` finds nothing, or it stops at the least
index in range whose location matches. -/
theorem findPage_cases (s : VM) (addr : Nat) (k i : Nat) :
    findPage s addr k i = (0, 0) ∨
    ∃ i0, i ≤ i0 ∧ i0 < i + k ∧ PADDR_TO_KVADDR (location s i0) = addr ∧
      (∀ j, i ≤ j → j < i0 → PADDR_TO_KVADDR (location s j) ≠ addr) ∧
      findPage s addr k i = (i0, count s i0) := by
  induction k generalizing i with
  | zero => exact Or.inl rfl
  | succ k ih =>
    by_cases h : PADDR_TO_KVADDR (location s i) = addr
    · exact Or.inr ⟨i, le_refl i, by omega, h, fun j h1 h2 => by omega, by rw [findPage, if_pos h]⟩
    · rcases ih (i + 1) with h1 | ⟨i0, h1, h2, h3, h4, h5⟩
      · exact Or.inl (by rw [findPage, if_neg h, h1])
      · refine Or.inr ⟨i0, by omega, by omega, h3, ?_, by rw [findPage, if_neg h, h5]⟩
        intro j hj1 hj2
        by_cases hji : j = i
        · rw [hji]; exact h
        · exact h4 j (by omega) hj2

/-- Either the scan of `getppages` finds nothing and leaves memory alone, or it
stops at the least index in range whose count is 0. -/
theorem scanFree_cases (s : VM) (n : Int) (k i : Nat) :
    scanFree s n k i = (0, s.mem) ∨
    ∃ i0, i ≤ i0 ∧ i0 < i + k ∧ count s i0 = 0 ∧ (∀ j, i ≤ j → j < i0 → count s j ≠ 0) ∧
      scanFree s n k i =
        (i0, markInterior s.coremap_count (wrapInt ((i0 : Int) + n) - ((i0 : Int) + 1)).toNat
              (i0 + 1) (store s.mem (countAddr s i0) (toWord n))) := by
  induction k generalizing i with
  | zero => exact Or.inl rfl
  | succ k ih =>
    by_cases h : count s i = 0
    · exact Or.inr ⟨i, le_refl i, by omega, h, fun j h1 h2 => by omega, by rw [scanFree, if_pos h]⟩
    · rcases ih (i + 1) with h1 | ⟨i0, h1, h2, h3, h4, h5⟩
      · exact Or.inl (by rw [scanFree, if_neg h, h1])
      · refine Or.inr ⟨i0, by omega, by omega, h3, ?_, by rw [scanFree, if_neg h, h5]⟩
        intro j hj1 hj2
        by_cases hji : j = i
        · rw [hji]; exact h
        · exact h4 j (by omega) hj2

theorem free_kpages_miss (s : VM) (addr : Nat)
    (h : ∀ j, s.start_page ≤ j → j < s.num_pages → PADDR_TO_KVADDR (location s j) ≠ addr) :
    free_kpages addr s = none := by
  unfold free_kpages
  rw [findPage_miss s addr _ _ (fun j h1 h2 => h j h1 (by omega))]
  rfl

theorem free_kpages_hit (s : VM) (addr : Nat) (i : Nat)
    (hlo : s.start_page ≤ i) (hhi : i < s.num_pages) (hpos : i ≠ 0)
    (h0 : PADDR_TO_KVADDR (location s i) = addr)
    (hmin : ∀ j, s.start_page ≤ j → j < i → PADDR_TO_KVADDR (location s j) ≠ addr)
    (hfit : (i : Int) + count s i < 2147483648) :
    free_kpages addr s = some { s with mem := released s i (count s i).toNat } := by
  have hr := count_range s i
  unfold free_kpages
  rw [findPage_hit s addr _ _ i hlo (by omega) h0 hmin]
  simp only [hpos, if_false]
  rw [wrapInt_eq _ (by omega) hfit,
    show (i : Int) + count s i - (i : Int) = count s i from by omega,
    zeroRun_eq_released]

theorem count_released_in (s : VM) (i k j : Nat) (h1 : i ≤ j) (h2 : j < i + k) :
    count { s with mem := released s i k } j = 0 := by
  unfold count released countAddr
  simp only
  rw [if_pos (by omega)]
  exact toInt_zero

theorem count_released_out (s : VM) (i k j : Nat) (h : j < i ∨ i + k ≤ j) :
    count { s with mem := released s i k } j = count s j := by
  unfold count released countAddr
  simp only
  rw [if_neg (by omega)]

theorem location_released (s : VM) (i k j : Nat)
    (hl : s.coremap_location = s.coremap_count + 4 * s.num_pages)
    (hfit : i + k ≤ s.num_pages) :
    location { s with mem := released s i k } j = location s j := by
  unfold location released countAddr locationAddr
  simp only
  rw [if_neg (by omega)]

theorem booted_claimed (s : VM) (n : Int) (i : Nat) (hs : Booted s) (hn : 1 ≤ n)
    (hhi : (i : Int) + n ≤ (s.num_pages : Int)) :
    Booted { s with mem := claimed s n i } :=
  ⟨hs.boot, hs.base, hs.layout, hs.pages, hs.last, hs.start,
    fun j h1 h2 => (location_claimed s n i j hn hs.layout hhi).trans (hs.locs j h1 h2)⟩

theorem booted_released (s : VM) (i k : Nat) (hs : Booted s) (hfit : i + k ≤ s.num_pages) :
    Booted { s with mem := released s i k } :=
  ⟨hs.boot, hs.base, hs.layout, hs.pages, hs.last, hs.start,
    fun j h1 h2 => (location_released s i k j hs.layout hfit).trans (hs.locs j h1 h2)⟩

theorem vm_bootstrap_zero (r : Nat × Nat) (s : VM) (hb : s.bootstrapped = false) :
    ∃ s1, vm_bootstrap r s = some s1 ∧
      ∀ i, s1.start_page ≤ i → i < s1.num_pages → count s1 i = 0 := by
  unfold vm_bootstrap
  rw [if_neg (by simp [hb])]
  refine ⟨_, rfl, ?_⟩
  intro i hi1 hi2
  simp only at hi1 hi2
  unfold count countAddr
  simp only
  generalize (((r.2 : Int) - (r.1 : Int)) % 4294967296).toNat / PAGE_SIZE = np at hi1 hi2 ⊢
  generalize ROUNDUP (np * 4 * 2) PAGE_SIZE / PAGE_SIZE = sp at hi1 hi2 ⊢
  rw [bootLoop_apply _ _ _ np (by omega) _ _ (by omega), if_pos (by omega)]
  exact toInt_zero

/-- The outcome of `getppages` after bootstrap: a panic, or the run headed at
the least free index in range is claimed. -/
theorem getppages_cases (s : VM) (n : Int) (hb : s.bootstrapped = true)
    (hnp : s.num_pages < 2147483648) (hn : 1 ≤ n) (hn31 : n < 2147483648) :
    getppages n s = none ∨
    ∃ i, s.start_page ≤ i ∧ (i : Int) < (s.num_pages : Int) - n ∧ i ≠ 0 ∧ count s i = 0 ∧
      (∀ j, s.start_page ≤ j → j < i → count s j ≠ 0) ∧
      getppages n s =
        some (location { s with mem := claimed s n i } i, { s with mem := claimed s n i }) := by
  rcases scanFree_cases s n
      (wrapInt ((s.num_pages : Int) - n) - (s.start_page : Int)).toNat s.start_page with
    h | ⟨i, h1, h2, h3, h4, _⟩
  · left
    unfold getppages
    rw [if_neg (by simp [hb]), h]
    rfl
  · rw [wrapInt_eq _ (by omega) (by omega)] at h2
    by_cases hi : i = 0
    · left
      unfold getppages
      rw [if_neg (by simp [hb]), wrapInt_eq _ (by omega) (by omega),
        scanFree_hit_claimed s n _ s.start_page i hn (by omega) h1 (by omega) h3 h4]
      simp [hi]
    · right
      exact ⟨i, h1, by omega, hi, h3, h4,
        getppages_hit s n i hb hnp hn hn31 h1 (by omega) hi h3 h4⟩

theorem headInv_claimed (s : VM) (n : Int) (i0 : Nat) (hs : HeadInv s) (hn : 1 ≤ n)
    (hn31 : n < 2147483648) (hlo : s.start_page ≤ i0)
    (hhi : (i0 : Int) + n ≤ (s.num_pages : Int)) (h0 : count s i0 = 0) :
    HeadInv { s with mem := claimed s n i0 } := by
  intro i hi1 hi2 hpos
  simp only at hi1 hi2
  by_cases hi : i = i0
  · subst hi
    rw [count_claimed_head s n i hn31 hn]
    exact ⟨fun j h1 h2 => count_claimed_interior s n i j h1 h2, hhi⟩
  · by_cases hin : i0 < i ∧ (i : Int) < (i0 : Int) + n
    · rw [count_claimed_interior s n i0 i hin.1 hin.2] at hpos
      omega
    · have hout : i < i0 ∨ (i0 : Int) + n ≤ (i : Int) := by omega
      rw [count_claimed_other s n i0 i hn hout] at hpos ⊢
      obtain ⟨h1, h2⟩ := hs i hi1 hi2 hpos
      refine ⟨?_, h2⟩
      intro j hj1 hj2
      by_cases hj : j = i0
      · have := h1 j hj1 hj2
        rw [hj, h0] at this
        omega
      · by_cases hjin : i0 < j ∧ (j : Int) < (i0 : Int) + n
        · exact count_claimed_interior s n i0 j hjin.1 hjin.2
        · rw [count_claimed_other s n i0 j hn (by omega)]
          exact h1 j hj1 hj2

theorem headInv_released (s : VM) (i0 : Nat) (hs : HeadInv s) (hlo : s.start_page ≤ i0)
    (hhi : i0 < s.num_pages) :
    HeadInv { s with mem := released s i0 (count s i0).toNat } := by
  intro i hi1 hi2 hpos
  simp only at hi1 hi2
  by_cases hin : i0 ≤ i ∧ i < i0 + (count s i0).toNat
  · rw [count_released_in s i0 _ i hin.1 hin.2] at hpos
    omega
  · rw [count_released_out s i0 _ i (by omega)] at hpos ⊢
    obtain ⟨h1, h2⟩ := hs i hi1 hi2 hpos
    refine ⟨?_, h2⟩
    intro j hj1 hj2
    by_cases hjin : i0 ≤ j ∧ j < i0 + (count s i0).toNat
    · exfalso
      have hc : 0 < count s i0 := by omega
      obtain ⟨h3, _⟩ := hs i0 hlo hhi hc
      by_cases hlt : i < i0
      · have := h1 i0 hlt (by omega)
        omega
      · have := h3 i (by omega) (by omega)
        omega
    · rw [count_released_out s i0 _ j (by omega)]
      exact h1 j hj1 hj2

/-- The outcome of `free_kpages`: a panic, or the entries from the least
matching index on are cleared. -/
theorem free_kpages_cases (s : VM) (addr : Nat) :
    free_kpages addr s = none ∨
    ∃ i, s.start_page ≤ i ∧ i < s.num_pages ∧ i ≠ 0 ∧ PADDR_TO_KVADDR (location s i) = addr ∧
      (∀ j, s.start_page ≤ j → j < i → PADDR_TO_KVADDR (location s j) ≠ addr) ∧
      ((i : Int) + count s i < 2147483648 →
        free_kpages addr s = some { s with mem := released s i (count s i).toNat }) := by
  rcases findPage_cases s addr (s.num_pages - s.start_page) s.start_page with
    h | ⟨i, h1, h2, h3, h4, h5⟩
  · left
    unfold free_kpages
    rw [h]
    rfl
  · by_cases hi : i = 0
    · left
      unfold free_kpages
      rw [h5]
      simp [hi]
    · right
      exact ⟨i, h1, by omega, hi, h3, h4,
        fun hfit => free_kpages_hit s addr i h1 (by omega) hi h3 h4 hfit⟩

theorem headInv_alloc_kpages (s : VM) (n : Int) (v : Nat) (s1 : VM) (hs : HeadInv s)
    (hnp : s.num_pages < 2147483648) (hn : 1 ≤ n) (hn31 : n < 2147483648)
    (h : alloc_kpages n s = some (v, s1)) : HeadInv s1 := by
  unfold alloc_kpages at h
  cases hb : s.bootstrapped with
  | false =>
    have hg : getppages n s = some (s.stealmem n, s) := by
      unfold getppages
      rw [if_pos hb]
    rw [hg] at h
    simp only at h
    split at h <;> (injection h with h; injection h with _ h; rw [← h]; exact hs)
  | true =>
    rcases getppages_cases s n hb hnp hn hn31 with hg | ⟨i, h1, h2, _, h4, _, hg⟩
    · rw [hg] at h
      simp at h
    · rw [hg] at h
      simp only at h
      split at h <;>
        (injection h with h; injection h with _ h; rw [← h]
         exact headInv_claimed s n i hs hn hn31 h1 (by omega) h4)

theorem headInv_free_kpages (s : VM) (kva : Nat) (s1 : VM) (hs : HeadInv s)
    (hnp : s.num_pages < 2147483648) (h : free_kpages kva s = some s1) : HeadInv s1 := by
  rcases free_kpages_cases s kva with hf | ⟨i, h1, h2, _, _, _, hf⟩
  · rw [hf] at h
    simp at h
  · have hr := count_range s i
    have hfit : (i : Int) + count s i < 2147483648 := by
      by_cases hc : 0 < count s i
      · have := (hs i h1 h2 hc).2
        omega
      · omega
    rw [hf hfit] at h
    injection h with h
    rw [← h]
    exact headInv_released s i hs h1 h2

theorem m8_booted : Booted m8 := by
  obtain ⟨s1, h, _, _, _, _, _, hb, _⟩ :=
    vm_bootstrap_post 0x100000 0x108000 ram0 rfl (by decide) (by decide)
  have : m8 = s1 := by
    unfold m8
    rw [h]
    rfl
  rw [this]
  exact hb

theorem used8_booted : Booted used8 := by
  have h := m8_booted
  refine ⟨h.boot, h.base, h.layout, h.pages, h.last, h.start, ?_⟩
  intro i h1 h2
  show location used8 i = m8.firstpaddr + i * PAGE_SIZE
  rw [← h.locs i h1 h2]
  have h3 : i < 8 := h2
  have h4 : 1 ≤ i := h1
  interval_cases i <;> rfl

theorem used8_no_free (j : Nat) (h1 : used8.start_page ≤ j)
    (h2 : (j : Int) < (used8.num_pages : Int) - 1) : count used8 j ≠ 0 := by
  have h3 : 1 ≤ j := h1
  have h4 : (used8.num_pages : Int) = 8 := by decide
  have h5 : j < 7 := by omega
  interval_cases j <;> decide

/-- C1. Post-bootstrap first-fit postcondition: in a bootstrapped coremap state,
for `n ≥ 1` (a C `int`), when `i` is the least index in
`[start_page, num_pages - n)` with `count[i] = 0`, `alloc_kpages(n)` returns
`PADDR_TO_KVADDR(location[i])`, sets `count[i] = n` and `count[j] = -1` for
`i < j < i + n`, and leaves every other count entry, every location entry and
every global unchanged. -/
theorem alloc_kpages_first_fit (s : VM) (n : Int) (i : Nat)
    (hs : Booted s) (hn : 1 ≤ n) (hn31 : n < 2147483648)
    (hlo : s.start_page ≤ i) (hhi : (i : Int) < (s.num_pages : Int) - n)
    (h0 : count s i = 0) (hmin : ∀ j, s.start_page ≤ j → j < i → count s j ≠ 0) :
    ∃ s1, alloc_kpages n s = some (PADDR_TO_KVADDR (location s i), s1) ∧
      count s1 i = n ∧
      (∀ j, i < j → (j : Int) < (i : Int) + n → count s1 j = -1) ∧
      (∀ j, j < i ∨ (i : Int) + n ≤ (j : Int) → count s1 j = count s j) ∧
      (∀ j, j < s.num_pages → location s1 j = location s j) ∧
      s1 = { s with mem := s1.mem } := by
  refine ⟨_, alloc_kpages_hit s n i hs hn hn31 hlo hhi h0 hmin, ?_, ?_, ?_, ?_, rfl⟩
  · exact count_claimed_head s n i hn31 hn
  · exact fun j h1 h2 => count_claimed_interior s n i j h1 h2
  · exact fun j h => count_claimed_other s n i j hn h
  · exact fun j _ => location_claimed s n i j hn hs.layout (by omega)

/-- Witness for C1: on the 8-frame machine just after bootstrap, `alloc_kpages(2)`
claims the run headed at index 1. -/
theorem alloc_kpages_first_fit_witness :
    ∃ s1, alloc_kpages 2 m8 = some (PADDR_TO_KVADDR (location m8 1), s1) ∧
      count s1 1 = 2 ∧
      (∀ j : Nat, 1 < j → (j : Int) < ((1 : Nat) : Int) + 2 → count s1 j = -1) ∧
      (∀ j : Nat, j < 1 ∨ ((1 : Nat) : Int) + 2 ≤ (j : Int) → count s1 j = count m8 j) ∧
      (∀ j, j < m8.num_pages → location s1 j = location m8 j) ∧
      s1 = { m8 with mem := s1.mem } :=
  alloc_kpages_first_fit m8 2 1 m8_booted (by decide) (by decide) (by decide) (by decide)
    (by decide) (fun j h1 h2 => absurd (Nat.lt_of_le_of_lt h1 h2) (by decide))

/-- C3 (the code diverges from the claim). In a coremap state (globals as
`vm_bootstrap` sets them, any content of the two arrays) in which no index in
`[start_page, num_pages - n)` has count 0, `alloc_kpages(n)` does not return 0:
the scan leaves `page = 0`, `KASSERT(page != 0)` fails and the kernel panics. -/
theorem alloc_kpages_oom_panics (s : VM) (n : Int) (hs : Laid s) (hn : 1 ≤ n)
    (hn31 : n < 2147483648)
    (hnone : ∀ j, s.start_page ≤ j → (j : Int) < (s.num_pages : Int) - n → count s j ≠ 0) :
    alloc_kpages n s = none := by
  have hnp := laid_num_pages_lt s hs
  unfold alloc_kpages getppages
  rw [if_neg (by simp [hs.boot]), wrapInt_eq _ (by omega) (by omega), scanFree_miss]
  · rfl
  · intro j h1 h2
    exact hnone j h1 (by omega)

/-- Failing input for C3: on the 8-frame machine with frames 1 to 6 allocated,
`alloc_kpages(1)` panics instead of returning 0. -/
theorem alloc_kpages_oom_panics_witness :
    (∀ j : Nat, used8.start_page ≤ j → (j : Int) < (used8.num_pages : Int) - 1 →
      count used8 j ≠ 0) ∧
    alloc_kpages 1 used8 = none :=
  ⟨used8_no_free, alloc_kpages_oom_panics used8 1 (Booted.laid used8 used8_booted) (by decide)
    (by decide) used8_no_free⟩

theorem used8_alloc : alloc_kpages 6 m8 = some (0x80101000, used8) := by
  have h := alloc_kpages_hit m8 6 1 m8_booted (by decide) (by decide) (by decide) (by decide)
    (by decide) (fun j h1 h2 => absurd (Nat.lt_of_le_of_lt h1 h2) (by decide))
  unfold used8
  rw [h]
  rfl

theorem used8_free :
    free_kpages 0x80101000 used8 = some { used8 with mem := released used8 1 6 } :=
  free_kpages_hit used8 0x80101000 1 (by decide) (by decide) (by decide) (by decide)
    (fun j h1 h2 => absurd (Nat.lt_of_le_of_lt h1 h2) (by decide)) (by decide)

/-- C6 (as amended). Bootstrap postcondition: for every `firstpaddr ≤ lastpaddr`
(32-bit), `vm_bootstrap` called with `bootstrapped` false sets
`num_pages = (lastpaddr - firstpaddr) / PAGE_SIZE`,
`start_page = ceil(8 * num_pages / PAGE_SIZE)`, `count[i] = 0` and
`location[i] = firstpaddr + i*PAGE_SIZE` for every `i` in
`[start_page, num_pages)`, and `bootstrapped = true`; when RAM holds at least
one page it also leaves `count[0] = start_page`.  Called with `bootstrapped`
already true it fails its assertion. -/
theorem vm_bootstrap_postcondition (first last : Nat) (s : VM) (h1 : first ≤ last)
    (h2 : last < 4294967296) :
    (s.bootstrapped = true → vm_bootstrap (first, last) s = none) ∧
    (s.bootstrapped = false →
      ∃ s1, vm_bootstrap (first, last) s = some s1 ∧
        s1.num_pages = (last - first) / PAGE_SIZE ∧
        s1.start_page = (8 * s1.num_pages + PAGE_SIZE - 1) / PAGE_SIZE ∧
        (PAGE_SIZE ≤ last - first → count s1 0 = (s1.start_page : Int)) ∧
        (∀ i, s1.start_page ≤ i → i < s1.num_pages →
          count s1 i = 0 ∧ location s1 i = first + i * PAGE_SIZE) ∧
        s1.bootstrapped = true) := by
  refine ⟨vm_bootstrap_again _ s, ?_⟩
  intro hb
  obtain ⟨s1, h, hnp, hsp, hf, _, _, hbt, hz, hc⟩ := vm_bootstrap_post first last s hb h1 h2
  refine ⟨s1, h, hnp, hsp, ?_, ?_, hbt.boot⟩
  · intro hp
    apply hc
    rw [hnp]
    exact Nat.div_pos hp (by decide)
  · intro i hi1 hi2
    refine ⟨hz i hi1 hi2, ?_⟩
    rw [hbt.locs i hi1 hi2, hf]

/-- Witness for C6 (as amended), scenario S1: RAM `[0x100000, 0x900000)` gives
`num_pages = 2048`, `start_page = 4`, `count[0] = 4` and `count[4..2048) = 0`. -/
theorem vm_bootstrap_postcondition_witness :
    ∃ s1, vm_bootstrap (0x100000, 0x900000) ram0 = some s1 ∧
      s1.num_pages = 2048 ∧ s1.start_page = 4 ∧ count s1 0 = 4 ∧
      (∀ i, 4 ≤ i → i < 2048 → count s1 i = 0 ∧ location s1 i = 0x100000 + i * 4096) ∧
      s1.bootstrapped = true := by
  obtain ⟨s1, h, hnp, hsp, hc, hz, hb⟩ :=
    (vm_bootstrap_postcondition 0x100000 0x900000 ram0 (by decide) (by decide)).2 rfl
  have hnp2 : s1.num_pages = 2048 := by rw [hnp]; decide
  have hsp2 : s1.start_page = 4 := by rw [hsp, hnp2]; decide
  refine ⟨s1, h, hnp2, hsp2, ?_, ?_, hb⟩
  · rw [hc (by decide), hsp2]
    rfl
  · intro i hi1 hi2
    exact hz i (by omega) (by omega)

/-- Counterexample to C6 as stated: with `firstpaddr = lastpaddr = 0x100000` (page
aligned, no page of RAM) `num_pages` and `start_page` are 0, the two coremap
arrays start at the same word, and the store to `coremap_location[0]`
overwrites `coremap_count[0]`, which ends as the `int` -2146435072 and not as
`start_page`. -/
theorem vm_bootstrap_no_ram_counterexample :
    0x100000 % PAGE_SIZE = 0 ∧
    (vm_bootstrap (0x100000, 0x100000) ram0).map
      (fun s1 => (s1.num_pages, s1.start_page, count s1 0)) = some (0, 0, -2146435072) :=
  ⟨by decide, by decide⟩

/-- C7. Coremap head/interior invariant: the predicate "for every `i` in
`[start_page, num_pages)` with `count[i] = k > 0`, `count[j] = -1` for all
`i < j < i + k` and `i + k ≤ num_pages`" holds after `vm_bootstrap`, and is
preserved by every `alloc_kpages(n)` with `n ≥ 1` that returns and by every
`free_kpages(kva)`, for arbitrary `kva`, that does not fail its assertion. -/
theorem head_interior_invariant :
    (∀ (r : Nat × Nat) (s : VM), s.bootstrapped = false →
      ∃ s1, vm_bootstrap r s = some s1 ∧ HeadInv s1) ∧
    (∀ (s : VM) (n : Int) (v : Nat) (s1 : VM), HeadInv s → s.num_pages < 2147483648 →
      1 ≤ n → n < 2147483648 → alloc_kpages n s = some (v, s1) → HeadInv s1) ∧
    (∀ (s : VM) (kva : Nat) (s1 : VM), HeadInv s → s.num_pages < 2147483648 →
      free_kpages kva s = some s1 → HeadInv s1) := by
  refine ⟨?_, headInv_alloc_kpages, headInv_free_kpages⟩
  intro r s hb
  obtain ⟨s1, h, hz⟩ := vm_bootstrap_zero r s hb
  refine ⟨s1, h, ?_⟩
  intro i hi1 hi2 hpos
  rw [hz i hi1 hi2] at hpos
  omega

/-- Witness for C7: the invariant holds on the 8-frame machine after bootstrap,
after `alloc_kpages(6)` on it, and after freeing that run again. -/
theorem head_interior_invariant_witness :
    HeadInv m8 ∧ HeadInv used8 ∧
    ∃ s1, free_kpages 0x80101000 used8 = some s1 ∧ HeadInv s1 := by
  have hm : HeadInv m8 := by
    obtain ⟨s1, h, hi⟩ := head_interior_invariant.1 (0x100000, 0x108000) ram0 rfl
    have : m8 = s1 := by
      unfold m8
      rw [h]
      rfl
    rw [this]
    exact hi
  have hu : HeadInv used8 :=
    head_interior_invariant.2.1 m8 6 0x80101000 used8 hm (by decide) (by decide) (by decide)
      used8_alloc
  exact ⟨hm, hu, _, used8_free,
    head_interior_invariant.2.2 used8 0x80101000 _ hu (by decide) used8_free⟩

/-- C2 (the code diverges from the claim). On the 8-frame machine just after
bootstrap, run `a = alloc_kpages(1)`, `b = alloc_kpages(1)`, `free_kpages(a)`,
`c = alloc_kpages(2)`.  Every free is of a live address, `b` is never freed,
and before the last call `count[1] = 0` but `count[2] = 1` (frame 2 is `b`'s).
The scan tests only `count[1]`, so `c` is the run of frames 1 and 2: it
returns `a`'s address again, overwrites `count[2]` with `-1`, and frame 2 is
now part of two live allocations. -/
theorem alloc_kpages_overlaps_live_run :
    (do
      let (a, s1) ← alloc_kpages 1 m8
      let (b, s2) ← alloc_kpages 1 s1
      let s3 ← free_kpages a s2
      let (c, s4) ← alloc_kpages 2 s3
      pure (a, b, c, PADDR_TO_KVADDR (location s4 2), count s3 1, count s3 2,
        count s4 1, count s4 2)) =
    some (0x80101000, 0x80102000, 0x80101000, 0x80102000, 0, 1, 2, -1) := by
  rfl

theorem kvaddr_injective (x y : Nat) (hx : x < 4294967296) (hy : y < 4294967296)
    (h : PADDR_TO_KVADDR x = PADDR_TO_KVADDR y) : x = y := by
  unfold PADDR_TO_KVADDR MIPS_KSEG0 at h
  omega

theorem vm_bootstrap_some (first last : Nat) (s0 s1 : VM) (h1 : first ≤ last)
    (h2 : last < 4294967296) (h : vm_bootstrap (first, last) s0 = some s1) :
    Booted s1 ∧ s1.firstpaddr = first ∧ s1.lastpaddr = last ∧
      s1.num_pages = (last - first) / PAGE_SIZE ∧
      (∀ i, s1.start_page ≤ i → i < s1.num_pages → count s1 i = 0) := by
  cases hb : s0.bootstrapped with
  | true =>
    rw [vm_bootstrap_again _ s0 hb] at h
    exact absurd h (by simp)
  | false =>
    obtain ⟨s, hs, hnp, _, hf, hl, _, hbt, hz, _⟩ := vm_bootstrap_post first last s0 hb h1 h2
    rw [hs] at h
    injection h with h
    subst h
    exact ⟨hbt, hf, hl, hnp, hz⟩

/-- C5. Reallocation after free: on a freshly bootstrapped coremap `s1` with at
least `n + m + 1` allocatable frames, for every `n ≥ 1` and `m ≥ 1`, the
sequence `a = alloc_kpages(n)`, `b = alloc_kpages(m)`, `free_kpages(a)`,
`c = alloc_kpages(n)` runs without a panic and yields `c = a` with `b ≠ a`;
`b` heads the run at index `ib`, whose `m` count and location entries are the
same after the free and after the re-allocation as they were before. -/
theorem realloc_after_free (first last : Nat) (s0 s1 : VM) (n m : Int)
    (h1 : first ≤ last) (h2 : last < 4294967296)
    (hboot : vm_bootstrap (first, last) s0 = some s1) (hn : 1 ≤ n) (hm : 1 ≤ m)
    (hroom : (s1.start_page : Int) + n + m + 1 ≤ (s1.num_pages : Int)) :
    ∃ a s2 b s3 s4 c s5,
      alloc_kpages n s1 = some (a, s2) ∧ alloc_kpages m s2 = some (b, s3) ∧
      free_kpages a s3 = some s4 ∧ alloc_kpages n s4 = some (c, s5) ∧
      c = a ∧ b ≠ a ∧
      ∃ ib, b = PADDR_TO_KVADDR (location s3 ib) ∧ count s3 ib = m ∧
        ∀ j, ib ≤ j → (j : Int) < (ib : Int) + m →
          count s4 j = count s3 j ∧ count s5 j = count s3 j ∧
          location s4 j = location s3 j ∧ location s5 j = location s3 j := by
  obtain ⟨hb1, hf, hl, _, hz⟩ := vm_bootstrap_some first last s0 s1 h1 h2 hboot
  have hnp := Booted.num_pages_lt s1 hb1
  -- first allocation: the run headed at start_page
  have hn31 : n < 2147483648 := by omega
  have hm31 : m < 2147483648 := by omega
  have ha := alloc_kpages_hit s1 n s1.start_page hb1 hn hn31 (le_refl _) (by omega)
    (hz _ (le_refl _) (by omega)) (fun j h3 h4 => by omega)
  have hb2 := booted_claimed s1 n s1.start_page hb1 hn (by omega)
  generalize hs2 : ({ s1 with mem := claimed s1 n s1.start_page } : VM) = s2 at ha hb2
  have e2 : s2.start_page = s1.start_page ∧ s2.num_pages = s1.num_pages ∧
      s2.firstpaddr = s1.firstpaddr := by
    rw [← hs2]
    exact ⟨rfl, rfl, rfl⟩
  have c2head : count s2 s1.start_page = n := by
    rw [← hs2]
    exact count_claimed_head s1 n _ hn31 hn
  have c2int : ∀ j, s1.start_page < j → (j : Int) < (s1.start_page : Int) + n →
      count s2 j = -1 := by
    rw [← hs2]
    exact fun j h3 h4 => count_claimed_interior s1 n _ j h3 h4
  have c2out : ∀ j : Nat, (s1.start_page : Int) + n ≤ (j : Int) → count s2 j = count s1 j := by
    rw [← hs2]
    exact fun j h3 => count_claimed_other s1 n _ j hn (Or.inr h3)
  have l2 : ∀ j, location s2 j = location s1 j := by
    rw [← hs2]
    exact fun j => location_claimed s1 n _ j hn hb1.layout (by omega)
  -- second allocation: the run headed right after the first
  obtain ⟨N, hN⟩ : ∃ N : Nat, n = (N : Int) := ⟨n.toNat, by omega⟩
  have hb' := alloc_kpages_hit s2 m (s1.start_page + N) hb2 hm hm31 (by omega) (by omega)
    (by rw [c2out _ (by omega)]; exact hz _ (by omega) (by omega))
    (fun j h3 h4 => by
      by_cases hj : j = s1.start_page
      · rw [hj, c2head]; omega
      · rw [c2int j (by omega) (by omega)]; omega)
  have hb3 := booted_claimed s2 m (s1.start_page + N) hb2 hm (by omega)
  have c3head := count_claimed_head s2 m (s1.start_page + N) hm31 hm
  have c3out : ∀ j : Nat, j < s1.start_page + N →
      count { s2 with mem := claimed s2 m (s1.start_page + N) } j = count s2 j :=
    fun j h3 => count_claimed_other s2 m _ j hm (Or.inl h3)
  have l3 : ∀ j, location { s2 with mem := claimed s2 m (s1.start_page + N) } j =
      location s2 j :=
    fun j => location_claimed s2 m _ j hm hb2.layout (by omega)
  generalize hs3 : ({ s2 with mem := claimed s2 m (s1.start_page + N) } : VM) = s3
    at hb' hb3 c3head c3out l3
  have e3 : s3.start_page = s1.start_page ∧ s3.num_pages = s1.num_pages := by
    rw [← hs3]
    exact ⟨e2.1, e2.2.1⟩
  -- the free of the first run
  have hsp := Booted.start_pos s1 hb1 (by omega)
  have hcnt3 : count s3 s1.start_page = (N : Int) := by
    rw [c3out _ (by omega), c2head, hN]
  have hfr := free_kpages_hit s3 (PADDR_TO_KVADDR (location s1 s1.start_page)) s1.start_page
    (by omega) (by omega) (by omega) (by rw [l3, l2]) (fun j h3 h4 => by omega)
    (by rw [hcnt3]; omega)
  rw [hcnt3, Int.toNat_ofNat] at hfr
  have hb4 := booted_released s3 s1.start_page N hb3 (by omega)
  have c4in := count_released_in s3 s1.start_page N
  have c4out := count_released_out s3 s1.start_page N
  have l4 := fun j => location_released s3 s1.start_page N j hb3.layout (by omega)
  generalize hs4 : ({ s3 with mem := released s3 s1.start_page N } : VM) = s4
    at hfr hb4 c4in c4out l4
  have e4 : s4.start_page = s1.start_page ∧ s4.num_pages = s1.num_pages := by
    rw [← hs4]
    exact e3
  -- the re-allocation
  have hc := alloc_kpages_hit s4 n s1.start_page hb4 hn hn31 (by omega) (by omega)
    (c4in _ (le_refl _) (by omega)) (fun j h3 h4 => by omega)
  have c5out := fun (j : Nat) (h : (s1.start_page : Int) + n ≤ (j : Int)) =>
    count_claimed_other s4 n s1.start_page j hn (Or.inr h)
  have l5 := fun j => location_claimed s4 n s1.start_page j hn hb4.layout (by omega)
  refine ⟨_, _, _, _, _, _, _, ha, hb', hfr, hc, ?_, ?_, s1.start_page + N, ?_, c3head, ?_⟩
  · rw [l4, l3, l2]
  · intro h
    have h5 := hb2.locs (s1.start_page + N) (by omega) (by omega)
    have h6 := hb1.locs s1.start_page (le_refl _) (by omega)
    have h7 := hb1.pages
    have h8 := hb1.last
    rw [e2.2.2] at h5
    unfold PAGE_SIZE at h5 h6 h7
    have := kvaddr_injective _ _ (by omega) (by omega) h
    omega
  · rw [l3]
  · intro j h3 h4
    exact ⟨c4out j (by omega), (c5out j (by omega)).trans (c4out j (by omega)),
      l4 j, (l5 j).trans (l4 j)⟩

/-- Witness for C5, scenario S2 on the machine of scenario S1: `n = 4`, `m = 1` on
RAM `[0x100000, 0x900000)`. -/
theorem realloc_after_free_witness :
    ∃ s1, vm_bootstrap (0x100000, 0x900000) ram0 = some s1 ∧
    ∃ a s2 b s3 s4 c s5,
      alloc_kpages 4 s1 = some (a, s2) ∧ alloc_kpages 1 s2 = some (b, s3) ∧
      free_kpages a s3 = some s4 ∧ alloc_kpages 4 s4 = some (c, s5) ∧
      c = a ∧ b ≠ a ∧
      ∃ ib, b = PADDR_TO_KVADDR (location s3 ib) ∧ count s3 ib = 1 ∧
        ∀ j, ib ≤ j → (j : Int) < (ib : Int) + 1 →
          count s4 j = count s3 j ∧ count s5 j = count s3 j ∧
          location s4 j = location s3 j ∧ location s5 j = location s3 j := by
  obtain ⟨s1, h, hnp, hsp, _⟩ := vm_bootstrap_post 0x100000 0x900000 ram0 rfl (by decide)
    (by decide)
  have hnp2 : s1.num_pages = 2048 := by rw [hnp]; decide
  have hsp2 : s1.start_page = 4 := by rw [hsp, hnp2]; decide
  exact ⟨s1, h, realloc_after_free 0x100000 0x900000 ram0 s1 4 1 (by decide) (by decide) h
    (by decide) (by decide) (by rw [hnp2, hsp2]; decide)⟩

theorem land_page_frame (x : Nat) (hx : x < 4294967296) :
    x &&& PAGE_FRAME = x / 4096 * 4096 := by
  have e1 : PAGE_FRAME = (2 ^ 20 - 1) <<< 12 := by decide
  have e2 : x / 4096 * 4096 = (x >>> 12) <<< 12 := by
    rw [Nat.shiftLeft_eq, Nat.shiftRight_eq_div_pow]
  rw [e1, e2]
  apply Nat.eq_of_testBit_eq
  intro i
  simp only [Nat.testBit_and, Nat.testBit_shiftLeft, Nat.testBit_shiftRight,
    Nat.testBit_two_pow_sub_one]
  by_cases h12 : 12 ≤ i
  · have e3 : 12 + (i - 12) = i := by omega
    rw [e3]
    by_cases h32 : i < 32
    · simp [h12, show i - 12 < 20 by omega]
    · have hlt : x < 2 ^ i :=
        Nat.lt_of_lt_of_le hx (by
          have : (4294967296 : Nat) = 2 ^ 32 := by norm_num
          rw [this]
          exact Nat.pow_le_pow_right (by norm_num) (by omega))
      simp [Nat.testBit_lt_two_pow hlt]
  · simp [h12]

theorem land_page_offset (x : Nat) : x &&& (4294967295 - PAGE_FRAME) = x % 4096 := by
  have e1 : 4294967295 - PAGE_FRAME = 2 ^ 12 - 1 := by decide
  rw [e1, Nat.and_pow_two_sub_one_eq_mod]

theorem define_region_npages (vaddr sz : Nat) (hsum : vaddr + sz + PAGE_SIZE < 4294967296) :
    region_npages vaddr sz = (sz + vaddr % PAGE_SIZE + PAGE_SIZE - 1) / PAGE_SIZE := by
  unfold region_npages
  simp only
  rw [land_page_offset, land_page_frame _ (Nat.mod_lt _ (by decide))]
  unfold PAGE_SIZE at *
  omega

/-- C8. Region rounding: for an address space with region 1 undefined and 32-bit
`vaddr`, `size` with `vaddr + size + PAGE_SIZE` not overflowing,
`as_define_region` returns 0, sets `vbase1` to `vaddr` rounded down to a page
boundary and `npages1 = ceil((size + vaddr mod PAGE_SIZE) / PAGE_SIZE)`; the
range `[vbase1, vbase1 + npages1*PAGE_SIZE)` has page-aligned ends, covers
`[vaddr, vaddr + size)`, and lies inside every page-aligned range `[a, b)` with
`a ≤ vaddr` and `vaddr + size ≤ b`; `page_table1` is a vector of `npages1`
zeros; the other fields, and the whole coremap state, are unchanged, and the
`r`, `w`, `x` arguments do not affect the result. -/
theorem as_define_region_rounding (as : addrspace) (vaddr sz : Nat) (r w x : Int) (s : VM)
    (h1 : as.as_vbase1 = 0) (hsum : vaddr + sz + PAGE_SIZE < 4294967296) :
    ∃ as1, as_define_region as vaddr sz r w x s = (Status.ok, as1, s) ∧
      as1.as_vbase1 = vaddr / PAGE_SIZE * PAGE_SIZE ∧
      as1.as_npages1 = (sz + vaddr % PAGE_SIZE + PAGE_SIZE - 1) / PAGE_SIZE ∧
      as1.as_vbase1 % PAGE_SIZE = 0 ∧
      as1.as_vbase1 ≤ vaddr ∧ vaddr + sz ≤ as1.as_vbase1 + as1.as_npages1 * PAGE_SIZE ∧
      (∀ a b, a % PAGE_SIZE = 0 → b % PAGE_SIZE = 0 → a ≤ vaddr → vaddr + sz ≤ b →
        a ≤ as1.as_vbase1 ∧ as1.as_vbase1 + as1.as_npages1 * PAGE_SIZE ≤ b) ∧
      as1.page_table1 = some (List.replicate as1.as_npages1 0) ∧
      as1 = { as with as_vbase1 := as1.as_vbase1, as_npages1 := as1.as_npages1,
                      page_table1 := as1.page_table1 } ∧
      ∀ r1 w1 x1, as_define_region as vaddr sz r1 w1 x1 s = as_define_region as vaddr sz r w x s := by
  have hv : vaddr &&& PAGE_FRAME = vaddr / PAGE_SIZE * PAGE_SIZE :=
    land_page_frame vaddr (by omega)
  have hn := define_region_npages vaddr sz hsum
  refine ⟨_, by unfold as_define_region; rw [if_pos h1], hv, hn, ?_, ?_, ?_, ?_, ?_, rfl, ?_⟩
  · simp only [hv]
    exact Nat.mul_mod_left _ _
  · simp only [hv]
    unfold PAGE_SIZE
    omega
  · simp only [hv, hn]
    unfold PAGE_SIZE
    omega
  · intro a b ha hb hav hvb
    simp only [hv, hn]
    unfold PAGE_SIZE at *
    omega
  · simp only [hn]
  · intro r1 w1 x1
    rfl

/-- Witness for C8, scenario S3: `(0x00400000, 0x3000)` on a fresh address space
gives `vbase1 = 0x00400000` and `npages1 = 3`. -/
theorem as_define_region_rounding_witness :
    ∃ as1, as_define_region as_create 0x00400000 0x3000 1 0 1 m8 = (Status.ok, as1, m8) ∧
      as1.as_vbase1 = 0x00400000 ∧ as1.as_npages1 = 3 ∧
      as1.page_table1 = some [0, 0, 0] := by
  obtain ⟨as1, h, hv, hn, _, _, _, _, hp, _⟩ :=
    as_define_region_rounding as_create 0x00400000 0x3000 1 0 1 m8 rfl (by decide)
  have hn3 : as1.as_npages1 = 3 := by rw [hn]; decide
  refine ⟨as1, h, by rw [hv]; decide, hn3, ?_⟩
  rw [hp, hn3]
  rfl

theorem land_page_frame_pos (vaddr : Nat) (h1 : PAGE_SIZE ≤ vaddr) (h2 : vaddr < 4294967296) :
    vaddr &&& PAGE_FRAME ≠ 0 := by
  rw [land_page_frame vaddr h2]
  unfold PAGE_SIZE at h1
  omega

theorem as_define_region_first (as : addrspace) (vaddr sz : Nat) (r w x : Int) (s : VM)
    (h1 : as.as_vbase1 = 0) :
    as_define_region as vaddr sz r w x s =
      (Status.ok, { as with as_vbase1 := vaddr &&& PAGE_FRAME, as_npages1 := region_npages vaddr sz,
                            page_table1 := some (List.replicate (region_npages vaddr sz) 0) }, s) := by
  unfold as_define_region
  rw [if_pos h1]

theorem as_define_region_second (as : addrspace) (vaddr sz : Nat) (r w x : Int) (s : VM)
    (h1 : as.as_vbase1 ≠ 0) (h2 : as.as_vbase2 = 0) :
    as_define_region as vaddr sz r w x s =
      (Status.ok, { as with as_vbase2 := vaddr &&& PAGE_FRAME, as_npages2 := region_npages vaddr sz,
                            page_table2 := some (List.replicate (region_npages vaddr sz) 0) }, s) := by
  unfold as_define_region
  rw [if_neg h1, if_pos h2]

theorem as_define_region_third (as : addrspace) (vaddr sz : Nat) (r w x : Int) (s : VM)
    (h1 : as.as_vbase1 ≠ 0) (h2 : as.as_vbase2 ≠ 0) :
    as_define_region as vaddr sz r w x s = (Status.EUNIMP, as, s) := by
  unfold as_define_region
  rw [if_neg h1, if_neg h2]

/-- C9 (as amended). Region slot order: starting from a freshly created address
space, when the first two calls are given 32-bit addresses `v1, v2 ≥ PAGE_SIZE`
(so that the page-rounded base is not 0), for all other argument values the
first `as_define_region` call fills region 1 and returns 0, the second fills
region 2, returns 0 and leaves region 1 unchanged, and the third returns
`EUNIMP` and leaves the address space unchanged. -/
theorem as_define_region_slot_order (v1 z1 v2 z2 v3 z3 : Nat) (r1 w1 x1 r2 w2 x2 r3 w3 x3 : Int)
    (s : VM) (h1 : PAGE_SIZE ≤ v1) (h1' : v1 < 4294967296)
    (h2 : PAGE_SIZE ≤ v2) (h2' : v2 < 4294967296) :
    ∃ as1 as2,
      as_define_region as_create v1 z1 r1 w1 x1 s = (Status.ok, as1, s) ∧
      as1 = { as_create with as_vbase1 := v1 &&& PAGE_FRAME, as_npages1 := region_npages v1 z1,
                             page_table1 := some (List.replicate (region_npages v1 z1) 0) } ∧
      as_define_region as1 v2 z2 r2 w2 x2 s = (Status.ok, as2, s) ∧
      as2 = { as1 with as_vbase2 := v2 &&& PAGE_FRAME, as_npages2 := region_npages v2 z2,
                       page_table2 := some (List.replicate (region_npages v2 z2) 0) } ∧
      as_define_region as2 v3 z3 r3 w3 x3 s = (Status.EUNIMP, as2, s) := by
  have e1 := land_page_frame_pos v1 h1 h1'
  have e2 := land_page_frame_pos v2 h2 h2'
  exact ⟨_, _, as_define_region_first as_create v1 z1 r1 w1 x1 s rfl, rfl,
    as_define_region_second _ v2 z2 r2 w2 x2 s e1 rfl, rfl,
    as_define_region_third _ v3 z3 r3 w3 x3 s e1 e2⟩

/-- Witness for C9 (as amended), scenario S3: regions at `0x00400000` and
`0x10000000`, then a third call. -/
theorem as_define_region_slot_order_witness :
    ∃ as1 as2,
      as_define_region as_create 0x00400000 0x3000 1 0 1 m8 = (Status.ok, as1, m8) ∧
      as_define_region as1 0x10000000 0x5000 1 1 0 m8 = (Status.ok, as2, m8) ∧
      as_define_region as2 0x20000000 0x1000 1 1 1 m8 = (Status.EUNIMP, as2, m8) ∧
      as2.as_vbase1 = 0x00400000 ∧ as2.as_npages1 = 3 ∧
      as2.as_vbase2 = 0x10000000 ∧ as2.as_npages2 = 5 := by
  obtain ⟨as1, as2, h1, e1, h2, e2, h3⟩ :=
    as_define_region_slot_order 0x00400000 0x3000 0x10000000 0x5000 0x20000000 0x1000
      1 0 1 1 1 0 1 1 1 m8 (by decide) (by decide) (by decide) (by decide)
  refine ⟨as1, as2, h1, h2, h3, ?_, ?_, ?_, ?_⟩ <;> (rw [e2, e1]; decide)

/-- Counterexample to C9 as stated: when the first call is given `vaddr = 0x10`
(page-rounded base 0) region 1 still counts as undefined, so the second call
overwrites region 1 instead of filling region 2, and the third call fills
region 2 and returns 0 instead of `EUNIMP`. -/
theorem as_define_region_zero_base_counterexample :
    (as_define_region as_create 0x10 0x100 1 1 1 m8).1 = Status.ok ∧
    (as_define_region as_create 0x10 0x100 1 1 1 m8).2.1.as_npages1 = 1 ∧
    (as_define_region (as_define_region as_create 0x10 0x100 1 1 1 m8).2.1
      0x10000000 0x5000 1 1 0 m8).2.1.as_npages1 = 5 ∧
    (as_define_region (as_define_region as_create 0x10 0x100 1 1 1 m8).2.1
      0x10000000 0x5000 1 1 0 m8).2.1.as_vbase2 = 0 ∧
    (as_define_region (as_define_region (as_define_region as_create 0x10 0x100 1 1 1 m8).2.1
      0x10000000 0x5000 1 1 0 m8).2.1 0x20000000 0x1000 1 1 1 m8).1 = Status.ok := by
  decide

theorem mem_freeFrom (s : VM) (k i j : Nat) :
    j ∈ freeFrom s k i ↔ i ≤ j ∧ j < i + k ∧ count s j = 0 := by
  induction k generalizing i with
  | zero =>
    simp only [freeFrom, List.not_mem_nil, false_iff]
    omega
  | succ k ih =>
    rw [freeFrom]
    by_cases h : count s i = 0
    · rw [if_pos h, List.mem_cons, ih]
      constructor
      · rintro (h1 | ⟨h1, h2, h3⟩)
        · subst h1
          exact ⟨le_refl _, by omega, h⟩
        · exact ⟨by omega, by omega, h3⟩
      · rintro ⟨h1, h2, h3⟩
        by_cases hji : j = i
        · exact Or.inl hji
        · exact Or.inr ⟨by omega, by omega, h3⟩
    · rw [if_neg h, ih]
      constructor
      · rintro ⟨h1, h2, h3⟩
        exact ⟨by omega, by omega, h3⟩
      · rintro ⟨h1, h2, h3⟩
        by_cases hji : j = i
        · rw [hji] at h3
          exact absurd h3 h
        · exact ⟨by omega, by omega, h3⟩

theorem freeFrom_pairwise (s : VM) (k i : Nat) : (freeFrom s k i).Pairwise (· < ·) := by
  induction k generalizing i with
  | zero => exact List.Pairwise.nil
  | succ k ih =>
    rw [freeFrom]
    by_cases h : count s i = 0
    · rw [if_pos h]
      refine List.Pairwise.cons ?_ (ih (i + 1))
      intro j hj
      have := (mem_freeFrom s k (i + 1) j).1 hj
      omega
    · rw [if_neg h]
      exact ih (i + 1)

theorem freeFrom_congr (s t : VM) (k i : Nat)
    (h : ∀ j, i ≤ j → j < i + k → count t j = count s j) :
    freeFrom t k i = freeFrom s k i := by
  induction k generalizing i with
  | zero => rfl
  | succ k ih =>
    rw [freeFrom, freeFrom, h i (le_refl i) (by omega),
      ih (i + 1) (fun j h1 h2 => h j (by omega) (by omega))]

/-- The head of the free list is where the scan of `getppages` stops, and the
tail is the free list of the rest of the range. -/
theorem freeFrom_cons (s : VM) (k i i0 : Nat) (rest : List Nat)
    (h : freeFrom s k i = i0 :: rest) :
    i ≤ i0 ∧ i0 < i + k ∧ count s i0 = 0 ∧ (∀ j, i ≤ j → j < i0 → count s j ≠ 0) ∧
      rest = freeFrom s (i + k - (i0 + 1)) (i0 + 1) := by
  induction k generalizing i with
  | zero => simp [freeFrom] at h
  | succ k ih =>
    rw [freeFrom] at h
    by_cases hc : count s i = 0
    · rw [if_pos hc] at h
      injection h with h1 h2
      subst h1
      refine ⟨le_refl _, by omega, hc, fun j h3 h4 => by omega, ?_⟩
      rw [← h2]
      congr 1
      omega
    · rw [if_neg hc] at h
      obtain ⟨h1, h2, h3, h4, h5⟩ := ih (i + 1) h
      refine ⟨by omega, by omega, h3, ?_, ?_⟩
      · intro j hj1 hj2
        by_cases hji : j = i
        · rw [hji]
          exact hc
        · exact h4 j (by omega) hj2
      · rw [h5]
        congr 1
        omega

/-- After the head `i0` of the free list stops being free, with every other
count in range as before, the free list is the old tail. -/
theorem freeFrom_after (s t : VM) (k i i0 : Nat) (rest : List Nat)
    (h : freeFrom s k i = i0 :: rest) (h0 : count t i0 ≠ 0)
    (hsame : ∀ j, i ≤ j → j < i + k → j ≠ i0 → count t j = count s j) :
    freeFrom t k i = rest := by
  induction k generalizing i with
  | zero => simp [freeFrom] at h
  | succ k ih =>
    rw [freeFrom] at h
    by_cases hc : count s i = 0
    · rw [if_pos hc] at h
      injection h with h1 h2
      subst h1
      rw [freeFrom, if_neg h0, ← h2]
      exact freeFrom_congr s t k (i + 1) (fun j h3 h4 => hsame j (by omega) (by omega) (by omega))
    · rw [if_neg hc] at h
      have hi : i ≠ i0 := by
        intro hi
        have := (freeFrom_cons s k (i + 1) i0 rest h).1
        omega
      rw [freeFrom, hsame i (le_refl i) (by omega) hi, if_neg hc]
      exact ih (i + 1) h (fun j h3 h4 h5 => hsame j (by omega) (by omega) h5)

/-- The words of an allocatable frame lie outside the coremap arrays. -/
theorem frame_word_ne_coremap (first last np sp j w c : Nat)
    (h1 : first + np * 4096 ≤ last) (h2 : last < 4294967296)
    (h3 : sp = (np * 4 * 2 + 4096 - 1) / 4096 * 4096 / 4096)
    (h4 : sp ≤ j) (h5 : j < np) (h6 : w < 1024) (h7 : c < 2 * np) :
    (first + j * 4096 + 2147483648) % 4294967296 / 4 + w ≠
      (first + 2147483648) % 4294967296 / 4 + c := by
  omega

/-- The words of two different allocatable frames are different. -/
theorem frame_word_ne_frame (first last np j1 j2 w1 w2 : Nat)
    (h1 : first + np * 4096 ≤ last) (h2 : last < 4294967296)
    (h4 : j1 < np) (h5 : j2 < np) (h6 : w1 < 1024) (h7 : w2 < 1024) (h8 : j1 ≠ j2) :
    (first + j1 * 4096 + 2147483648) % 4294967296 / 4 + w1 ≠
      (first + j2 * 4096 + 2147483648) % 4294967296 / 4 + w2 := by
  omega

theorem zero_region_mem (pa : Nat) (s : VM) (x : Nat) :
    (as_zero_region pa 1 s).mem x =
      if PADDR_TO_KVADDR pa / 4 ≤ x ∧ x < PADDR_TO_KVADDR pa / 4 + 1024 then 0 else s.mem x := by
  rfl

/-- The numeric facts of a bootstrapped state, in the form the arithmetic of
frame addresses needs. -/
theorem Booted.numeric (s : VM) (hs : Booted s) :
    s.coremap_count = (2147483648 + s.firstpaddr) % 4294967296 ∧
    s.coremap_location = s.coremap_count + 4 * s.num_pages ∧
    s.firstpaddr + s.num_pages * 4096 ≤ s.lastpaddr ∧ s.lastpaddr < 4294967296 ∧
    s.start_page = (s.num_pages * 4 * 2 + 4096 - 1) / 4096 * 4096 / 4096 ∧
    ∀ i, s.start_page ≤ i → i < s.num_pages → location s i = s.firstpaddr + i * 4096 :=
  ⟨hs.base, hs.layout, hs.pages, hs.last, hs.start, hs.locs⟩

/-- Clearing an allocatable frame leaves the coremap arrays alone. -/
theorem zero_region_coremap (s : VM) (hs : Booted s) (i0 c : Nat) (h1 : s.start_page ≤ i0)
    (h2 : i0 < s.num_pages) (hc : c < 2 * s.num_pages) (m : Mem) :
    (as_zero_region (location s i0) 1 { s with mem := m }).mem (s.coremap_count / 4 + c) =
      m (s.coremap_count / 4 + c) := by
  obtain ⟨e1, _, e3, e4, e5, e6⟩ := Booted.numeric s hs
  rw [zero_region_mem, e6 i0 h1 h2, e1]
  unfold PADDR_TO_KVADDR MIPS_KSEG0
  have := frame_word_ne_coremap s.firstpaddr s.lastpaddr s.num_pages s.start_page i0
    (s.coremap_count / 4 + c - (s.firstpaddr + i0 * 4096 + 2147483648) % 4294967296 / 4) c
    e3 e4 e5 h1 h2
  rw [if_neg]
  rw [e1] at this
  omega

theorem freeFrames_cons (s : VM) (i0 : Nat) (rest : List Nat) (h : freeFrames s = i0 :: rest) :
    s.start_page ≤ i0 ∧ i0 + 1 < s.num_pages ∧ count s i0 = 0 ∧
      (∀ j, s.start_page ≤ j → j < i0 → count s j ≠ 0) := by
  obtain ⟨h1, h2, h3, h4, _⟩ := freeFrom_cons s _ _ i0 rest h
  exact ⟨h1, by omega, h3, h4⟩

theorem mem_freeFrames (s : VM) (j : Nat) (h : j ∈ freeFrames s) :
    s.start_page ≤ j ∧ j + 1 < s.num_pages ∧ count s j = 0 := by
  obtain ⟨h1, h2, h3⟩ := (mem_freeFrom s _ _ j).1 h
  exact ⟨h1, by omega, h3⟩

theorem count_zero_region (s : VM) (hs : Booted s) (i0 j : Nat) (m : Mem)
    (h1 : s.start_page ≤ i0) (h2 : i0 < s.num_pages) (hj : j < s.num_pages) :
    count (as_zero_region (location s i0) 1 { s with mem := m }) j =
      count { s with mem := m } j :=
  congrArg toInt (zero_region_coremap s hs i0 j h1 h2 (by omega) m)

theorem location_zero_region (s : VM) (hs : Booted s) (i0 j : Nat) (m : Mem)
    (h1 : s.start_page ≤ i0) (h2 : i0 < s.num_pages) (hj : j < s.num_pages) :
    location (as_zero_region (location s i0) 1 { s with mem := m }) j =
      location { s with mem := m } j := by
  have h := zero_region_coremap s hs i0 (s.num_pages + j) h1 h2 (by omega) m
  have e : s.coremap_location / 4 + j = s.coremap_count / 4 + (s.num_pages + j) := by
    have := hs.layout
    omega
  show (as_zero_region (location s i0) 1 { s with mem := m }).mem (s.coremap_location / 4 + j) =
    m (s.coremap_location / 4 + j)
  rw [e, h]

/-- One round of `as_prepare_load`: `getppages(1)` hands out the first free
frame, and after the zero-fill the state is `Filled` by one frame. -/
theorem prepare_step (s : VM) (i0 : Nat) (rest : List Nat) (hs : Booted s)
    (hf : freeFrames s = i0 :: rest) :
    getppages 1 s = some (location s i0, { s with mem := claimed s 1 i0 }) ∧
    location s i0 ≠ 0 ∧
    Filled s (as_zero_region (location s i0) 1 { s with mem := claimed s 1 i0 }) 1 := by
  obtain ⟨h1, h2, h3, h4⟩ := freeFrames_cons s i0 rest hf
  have hnp := Booted.num_pages_lt s hs
  have hsp := Booted.start_pos s hs (by omega)
  obtain ⟨e1, e2, e3, e4, e5, e6⟩ := Booted.numeric s hs
  have hg := getppages_hit s 1 i0 hs.boot (by omega) (by decide) (by decide) h1 (by omega)
    (by omega) h3 h4
  rw [location_claimed s 1 i0 i0 (by decide) hs.layout (by omega)] at hg
  have hne : location s i0 ≠ 0 := by
    rw [e6 i0 h1 (by omega)]
    omega
  have hcnt : ∀ j, j < s.num_pages →
      count (as_zero_region (location s i0) 1 { s with mem := claimed s 1 i0 }) j =
        count { s with mem := claimed s 1 i0 } j :=
    fun j hj => count_zero_region s hs i0 j _ h1 (by omega) hj
  have hloc : ∀ j, j < s.num_pages →
      location (as_zero_region (location s i0) 1 { s with mem := claimed s 1 i0 }) j =
        location s j :=
    fun j hj => (location_zero_region s hs i0 j _ h1 (by omega) hj).trans
      (location_claimed s 1 i0 j (by decide) hs.layout (by omega))
  have htake : (freeFrames s).take 1 = [i0] := by
    rw [hf]
    rfl
  refine ⟨hg, hne, ?_, rfl, ?_, ?_, ?_, ?_, ?_⟩
  · exact ⟨hs.boot, hs.base, hs.layout, hs.pages, hs.last, hs.start,
      fun j hj1 hj2 => (hloc j hj2).trans (hs.locs j hj1 hj2)⟩
  · rw [hf]
    exact Nat.succ_le_succ (Nat.zero_le _)
  · rw [hf]
    show freeFrom _ _ _ = rest
    refine freeFrom_after s _ _ _ i0 rest hf ?_ ?_
    · rw [hcnt i0 (by omega), count_claimed_head s 1 i0 (by decide) (by decide)]
      decide
    · intro j hj1 hj2 hj3
      have hj4 : j < s.num_pages := by
        have hj5 : j < s.start_page + (s.num_pages - 1 - s.start_page) := hj2
        omega
      rw [hcnt j hj4, count_claimed_other s 1 i0 j (by decide) (by omega)]
  · intro j hj
    rw [htake, List.mem_singleton] at hj
    subst hj
    refine ⟨by rw [hcnt j (by omega), count_claimed_head s 1 j (by decide) (by decide)], ?_⟩
    intro w hw
    rw [zero_region_mem, if_pos ⟨by omega, by omega⟩]
  · intro j hj1 hj2
    rw [htake, List.mem_singleton] at hj2
    rw [hcnt j hj1, count_claimed_other s 1 i0 j (by decide) (by omega)]
  · intro j hj1 hj2 hz w hw
    rw [zero_region_mem]
    split
    · rfl
    · show claimed s 1 i0 _ = 0
      rw [mem_claimed_other s 1 i0 _ ?_ (by decide)]
      · exact hz w hw
      · have := frame_word_ne_coremap s.firstpaddr s.lastpaddr s.num_pages s.start_page j w i0
          e3 e4 e5 hj1 hj2 hw (by omega)
        rw [e6 j hj1 hj2]
        unfold countAddr PADDR_TO_KVADDR MIPS_KSEG0
        rw [e1]
        have e7 : (1 : Int).toNat = 1 := rfl
        rw [e7]
        clear hg hcnt hloc hz
        omega

theorem Filled.fields (s t : VM) (k : Nat) (h : Filled s t k) :
    t.num_pages = s.num_pages ∧ t.start_page = s.start_page ∧ t.firstpaddr = s.firstpaddr := by
  have hg := h.globals
  refine ⟨?_, ?_, ?_⟩ <;> (rw [hg])

/-- The location entries of allocatable frames are the same in the two states of
a `Filled` pair. -/
theorem Filled.location_eq (s t : VM) (k : Nat) (hs : Booted s) (h : Filled s t k) (j : Nat)
    (h1 : s.start_page ≤ j) (h2 : j < s.num_pages) : location t j = location s j := by
  obtain ⟨e1, e2, e3⟩ := Filled.fields s t k h
  rw [h.booted.locs j (by omega) (by omega), hs.locs j h1 h2, e3]

theorem filled_refl (s : VM) (hs : Booted s) : Filled s s 0 :=
  ⟨hs, rfl, Nat.zero_le _, rfl, fun j hj => absurd hj (by simp), fun _ _ _ => rfl,
    fun _ _ _ h => h⟩

theorem filled_trans (s t u : VM) (a b : Nat) (hs : Booted s) (h1 : Filled s t a)
    (h2 : Filled t u b) : Filled s u (a + b) := by
  obtain ⟨e1, e2, e3⟩ := Filled.fields s t a h1
  have hb := h2.enough
  rw [h1.free, List.length_drop] at hb
  have ha := h1.enough
  have htk : (freeFrames s).take (a + b) =
      (freeFrames s).take a ++ (freeFrames t).take b := by
    rw [List.take_add, h1.free]
  refine ⟨h2.booted, ?_, by omega, ?_, ?_, ?_, ?_⟩
  · have g1 := h1.globals
    have g2 := h2.globals
    rw [g2]
    rw [g1]
  · rw [h2.free, h1.free, List.drop_drop]
  · intro j hj
    rw [htk, List.mem_append] at hj
    rcases hj with hj | hj
    · obtain ⟨c1, z1⟩ := h1.taken j hj
      obtain ⟨m1, m2, _⟩ := mem_freeFrames s j (List.mem_of_mem_take hj)
      have hnot : j ∉ (freeFrames t).take b := by
        intro hjt
        have := (mem_freeFrames t j (List.mem_of_mem_take hjt)).2.2
        omega
      refine ⟨by rw [h2.others j (by omega) hnot, c1], ?_⟩
      have := h2.keep j (by omega) (by omega)
        (by rw [Filled.location_eq s t a hs h1 j m1 (by omega)]; exact z1)
      rw [Filled.location_eq s t a hs h1 j m1 (by omega)] at this
      exact this
    · obtain ⟨c1, z1⟩ := h2.taken j hj
      obtain ⟨m1, m2, _⟩ := mem_freeFrames t j (List.mem_of_mem_take hj)
      rw [Filled.location_eq s t a hs h1 j (by omega) (by omega)] at z1
      exact ⟨c1, z1⟩
  · intro j hj hnot
    rw [htk, List.mem_append, not_or] at hnot
    rw [h2.others j (by omega) hnot.2, h1.others j hj hnot.1]
  · intro j hj1 hj2 hz
    have := h2.keep j (by omega) (by omega)
      (by rw [Filled.location_eq s t a hs h1 j hj1 hj2]; exact h1.keep j hj1 hj2 hz)
    rw [Filled.location_eq s t a hs h1 j hj1 hj2] at this
    exact this

/-- A loop of `as_prepare_load` that finds enough free frames fills slots
`i .. i + k - 1` of the page table with the locations of the first `k` free
frames, in order, and leaves the state `Filled` by `k` frames. -/
theorem prepareLoop_filled (k : Nat) : ∀ (i : Nat) (l : List Nat) (s : VM), Booted s →
    k ≤ (freeFrames s).length → i + k ≤ l.length →
    ∃ l1 t, prepareLoop k i (some l) s = some (Status.ok, some l1, t) ∧ Filled s t k ∧
      l1.length = l.length ∧ (∀ p, p < i → l1[p]? = l[p]?) ∧
      (∀ q, q < k → l1[i + q]? = ((freeFrames s).map (location s))[q]?) := by
  induction k with
  | zero =>
    intro i l s hs _ _
    exact ⟨l, s, rfl, filled_refl s hs, rfl, fun _ _ => rfl, fun q hq => absurd hq (by omega)⟩
  | succ k ih =>
    intro i l s hs hk hl
    obtain ⟨i0, rest, hf⟩ : ∃ i0 rest, freeFrames s = i0 :: rest := by
      cases hfr : freeFrames s with
      | nil => rw [hfr] at hk; simp at hk
      | cons a r => exact ⟨a, r, rfl⟩
    obtain ⟨hg, hne, hfill⟩ := prepare_step s i0 rest hs hf
    have hrest : freeFrames
        (as_zero_region (location s i0) 1 { s with mem := claimed s 1 i0 }) = rest := by
      rw [hfill.free, hf]
      rfl
    have hk2 : k ≤ rest.length := by
      rw [hf] at hk
      simpa using hk
    obtain ⟨l1, t, hrun, hft, hlen, hpre, hnew⟩ :=
      ih (i + 1) (l.set i (location s i0)) _ hfill.booted (by rw [hrest]; exact hk2)
        (by rw [List.length_set]; omega)
    refine ⟨l1, t, ?_, ?_, ?_, ?_, ?_⟩
    · rw [prepareLoop, hg]
      simp only
      rw [if_pos (by omega), if_neg hne]
      exact hrun
    · have := filled_trans s _ t 1 k hs hfill hft
      rw [Nat.add_comm] at this
      exact this
    · rw [hlen, List.length_set]
    · intro p hp
      rw [hpre p (by omega), List.getElem?_set_ne (by omega)]
    · intro q hq
      cases q with
      | zero =>
        rw [Nat.add_zero, hpre i (by omega), List.getElem?_set_self (by omega), hf,
          List.map_cons, List.getElem?_cons_zero]
      | succ q =>
        have h1 := hnew q (by omega)
        rw [show i + (q + 1) = i + 1 + q from by omega, h1, hrest, hf, List.map_cons,
          List.getElem?_cons_succ]
        congr 1
        apply List.map_congr_left
        intro j hj
        obtain ⟨m1, m2, _⟩ := mem_freeFrames s j (by rw [hf]; exact List.mem_cons_of_mem _ hj)
        exact Filled.location_eq s _ 1 hs hfill j m1 (by omega)

/-- A list of length `k` that agrees with `g` on its first `k` positions is the
first `k` elements of `g`. -/
theorem eq_take_of_getElem? (l g : List Nat) (k : Nat) (hl : l.length = k) (hk : k ≤ g.length)
    (h : ∀ q, q < k → l[q]? = g[q]?) : l = g.take k := by
  apply List.ext_getElem?
  intro q
  by_cases hq : q < k
  · rw [h q hq, List.getElem?_take_of_lt hq]
  · rw [List.getElem?_eq_none (by omega), List.getElem?_eq_none (by
      rw [List.length_take]
      omega)]

/-- A loop of `as_prepare_load` over a whole table. -/
theorem prepareLoop_table (k : Nat) (l : List Nat) (s : VM) (hs : Booted s)
    (hk : k ≤ (freeFrames s).length) (hl : l.length = k) :
    ∃ t, prepareLoop k 0 (some l) s =
        some (Status.ok, some (((freeFrames s).take k).map (location s)), t) ∧
      Filled s t k := by
  obtain ⟨l1, t, hrun, hft, hlen, _, hnew⟩ := prepareLoop_filled k 0 l s hs hk (by omega)
  have : l1 = ((freeFrames s).map (location s)).take k :=
    eq_take_of_getElem? l1 _ k (by omega) (by rw [List.length_map]; exact hk)
      (fun q hq => by
        have := hnew q hq
        rw [Nat.zero_add] at this
        exact this)
  rw [this, ← List.map_take] at hrun
  exact ⟨t, hrun, hft⟩

theorem m32_booted : Booted m32 := by
  obtain ⟨s1, h, _, _, _, _, _, hb, _⟩ :=
    vm_bootstrap_post 0x100000 0x120000 ram0 rfl (by decide) (by decide)
  have : m32 = s1 := by
    unfold m32
    rw [h]
    rfl
  rw [this]
  exact hb

theorem take_freeFrames_nodup (s : VM) (n : Nat) : ((freeFrames s).take n).Nodup :=
  ((freeFrom_pairwise s _ _).sublist (List.take_sublist n _)).imp (fun h => Nat.ne_of_lt h)

/-- C10 (amended). `as_prepare_load` postcondition: for an address space whose
two page
tables are allocated with `npages1` and `npages2` slots (both regions defined)
and a bootstrapped coremap with at least `npages1 + npages2 + 12` free frames,
that is indices in `[start_page, num_pages - 1)` with count 0,
`as_prepare_load` returns 0; the `npages1`, `npages2` and 12 entries of the
three page tables are, in order, `location[i]` for the frames `i` of a list
`js`; every such frame had count 0 before the call and has count 1 after it,
its location is non-zero and every word of it is zero; and the entries are
pairwise distinct. -/
theorem as_prepare_load_postcondition (fresh : List Nat) (as : addrspace) (s : VM)
    (l1 l2 : List Nat) (hs : Booted s)
    (h1 : as.page_table1 = some l1) (hl1 : l1.length = as.as_npages1)
    (h2 : as.page_table2 = some l2) (hl2 : l2.length = as.as_npages2)
    (hfresh : fresh.length = DUMBVM_STACKPAGES)
    (hfree : as.as_npages1 + as.as_npages2 + DUMBVM_STACKPAGES ≤ (freeFrames s).length) :
    ∃ (js t1 t2 t3 : List Nat) (s1 : VM),
      as_prepare_load fresh as s =
        some (Status.ok,
          { as with page_table1 := some t1, page_table2 := some t2, page_table3 := some t3 },
          s1) ∧
      t1.length = as.as_npages1 ∧ t2.length = as.as_npages2 ∧
      t3.length = DUMBVM_STACKPAGES ∧
      t1 ++ t2 ++ t3 = js.map (location s) ∧ (t1 ++ t2 ++ t3).Nodup ∧
      ∀ i ∈ js, s.start_page ≤ i ∧ i + 1 < s.num_pages ∧ count s i = 0 ∧ count s1 i = 1 ∧
        location s i ≠ 0 ∧ frameZero s1 (location s i) := by
  have hsp : ∀ j ∈ freeFrames s, 1 ≤ s.start_page := fun j hj =>
    Booted.start_pos s hs (by have := mem_freeFrames s j hj; omega)
  -- region 1
  obtain ⟨u1, r1, f1⟩ := prepareLoop_table as.as_npages1 l1 s hs (by omega) hl1
  -- region 2
  have hfr1 := f1.free
  obtain ⟨u2, r2, f2⟩ := prepareLoop_table as.as_npages2 l2 u1 f1.booted
    (by rw [hfr1, List.length_drop]; omega) hl2
  have f12 := filled_trans s u1 u2 _ _ hs f1 f2
  -- stack
  have hfr2 := f12.free
  obtain ⟨u3, r3, f3⟩ := prepareLoop_table DUMBVM_STACKPAGES fresh u2 f2.booted
    (by rw [hfr2, List.length_drop]; omega) hfresh
  have f123 := filled_trans s u2 u3 _ _ hs f12 f3
  -- the three tables in terms of the locations of `s`
  have e2 : ((freeFrames u1).take as.as_npages2).map (location u1) =
      (((freeFrames s).drop as.as_npages1).take as.as_npages2).map (location s) := by
    rw [hfr1]
    apply List.map_congr_left
    intro j hj
    obtain ⟨m1, m2, _⟩ := mem_freeFrames s j (List.mem_of_mem_drop (List.mem_of_mem_take hj))
    exact Filled.location_eq s u1 _ hs f1 j m1 (by omega)
  have e3 : ((freeFrames u2).take DUMBVM_STACKPAGES).map (location u2) =
      (((freeFrames s).drop (as.as_npages1 + as.as_npages2)).take DUMBVM_STACKPAGES).map
        (location s) := by
    rw [hfr2]
    apply List.map_congr_left
    intro j hj
    obtain ⟨m1, m2, _⟩ := mem_freeFrames s j (List.mem_of_mem_drop (List.mem_of_mem_take hj))
    exact Filled.location_eq s u2 _ hs f12 j m1 (by omega)
  rw [e2] at r2
  rw [e3] at r3
  have hall : ((freeFrames s).take as.as_npages1).map (location s) ++
      (((freeFrames s).drop as.as_npages1).take as.as_npages2).map (location s) ++
      (((freeFrames s).drop (as.as_npages1 + as.as_npages2)).take DUMBVM_STACKPAGES).map
        (location s) =
      ((freeFrames s).take (as.as_npages1 + as.as_npages2 + DUMBVM_STACKPAGES)).map
        (location s) := by
    rw [List.take_add, List.take_add, List.map_append, List.map_append]
  have hmem : ∀ i ∈ (freeFrames s).take (as.as_npages1 + as.as_npages2 + DUMBVM_STACKPAGES),
      s.start_page ≤ i ∧ i + 1 < s.num_pages ∧ count s i = 0 ∧ count u3 i = 1 ∧
        location s i ≠ 0 ∧ frameZero u3 (location s i) := by
    intro i hi
    obtain ⟨m1, m2, m3⟩ := mem_freeFrames s i (List.mem_of_mem_take hi)
    obtain ⟨c1, z1⟩ := f123.taken i hi
    refine ⟨m1, m2, m3, c1, ?_, z1⟩
    have := hsp i (List.mem_of_mem_take hi)
    rw [hs.locs i m1 (by omega)]
    unfold PAGE_SIZE
    omega
  refine ⟨(freeFrames s).take (as.as_npages1 + as.as_npages2 + DUMBVM_STACKPAGES),
    _, _, _, u3, ?_, ?_, ?_, ?_, hall, ?_, hmem⟩
  · unfold as_prepare_load
    rw [h1, r1]
    simp only [ne_eq, not_true_eq_false, if_false]
    rw [h2, r2]
    simp only [ne_eq, not_true_eq_false, if_false]
    rw [r3]
    simp only [ne_eq, not_true_eq_false, if_false]
  · rw [List.length_map, List.length_take]
    omega
  · rw [List.length_map, List.length_take, List.length_drop]
    omega
  · rw [List.length_map, List.length_take, List.length_drop]
    omega
  · rw [hall]
    refine List.Nodup.map_on ?_ (take_freeFrames_nodup s _)
    intro x hx y hy hxy
    obtain ⟨x1, x2, _⟩ := mem_freeFrames s x (List.mem_of_mem_take hx)
    obtain ⟨y1, y2, _⟩ := mem_freeFrames s y (List.mem_of_mem_take hy)
    rw [hs.locs x x1 (by omega), hs.locs y y1 (by omega)] at hxy
    unfold PAGE_SIZE at hxy
    omega

/-- Witness for C10 (as amended): the address space of scenario S3 (3 and 5
pages) on the
32-frame machine just after bootstrap, which has 30 free frames. -/
theorem as_prepare_load_postcondition_witness :
    ∃ (js t1 t2 t3 : List Nat) (s1 : VM),
      as_prepare_load (List.replicate 12 0) as_s3 m32 =
        some (Status.ok,
          { as_s3 with page_table1 := some t1, page_table2 := some t2, page_table3 := some t3 },
          s1) ∧
      t1.length = as_s3.as_npages1 ∧ t2.length = as_s3.as_npages2 ∧
      t3.length = DUMBVM_STACKPAGES ∧
      t1 ++ t2 ++ t3 = js.map (location m32) ∧ (t1 ++ t2 ++ t3).Nodup ∧
      ∀ i ∈ js, m32.start_page ≤ i ∧ i + 1 < m32.num_pages ∧ count m32 i = 0 ∧
        count s1 i = 1 ∧ location m32 i ≠ 0 ∧ frameZero s1 (location m32 i) :=
  as_prepare_load_postcondition (List.replicate 12 0) as_s3 m32 [0, 0, 0] [0, 0, 0, 0, 0]
    m32_booted (by decide) (by decide) (by decide) (by decide) (by decide) (by decide)

/-! ## TLB entries -/

theorem masked_lt (x : Nat) : x &&& PAGE_FRAME < 4294967296 :=
  Nat.lt_of_le_of_lt Nat.and_le_right (by decide)

theorem masked_idem (x : Nat) : (x &&& PAGE_FRAME) &&& PAGE_FRAME = x &&& PAGE_FRAME := by
  rw [Nat.and_assoc, Nat.and_self]

theorem masked_aligned (x : Nat) : (x &&& PAGE_FRAME) % 4096 = 0 := by
  have h := land_page_frame (x &&& PAGE_FRAME) (masked_lt x)
  rw [masked_idem] at h
  omega

theorem aligned_of_land (x : Nat) (h : x &&& PAGE_FRAME = x) : x % 4096 = 0 ∧ x < 4294967296 := by
  have h1 := masked_aligned x
  have h2 := masked_lt x
  rw [h] at h1 h2
  exact ⟨h1, h2⟩

theorem land_of_aligned (x : Nat) (h : x % 4096 = 0) (hlt : x < 4294967296) :
    x &&& PAGE_FRAME = x := by
  rw [land_page_frame x hlt]
  omega

/-- Bit `i` of a page-aligned word plus a 12-bit flag field. -/
theorem testBit_frame_flags (q c i : Nat) (hc : c < 4096) :
    (4096 * q + c).testBit i = if i < 12 then c.testBit i else q.testBit (i - 12) := by
  have h := Nat.testBit_mul_pow_two_add q (show c < 2 ^ 12 from hc) i
  have e : (2 : Nat) ^ 12 = 4096 := by norm_num
  rw [e] at h
  exact h

theorem lor_flags (q c : Nat) (hc : c < 4096) : 4096 * q ||| c = 4096 * q + c := by
  apply Nat.eq_of_testBit_eq
  intro i
  rw [Nat.testBit_or, testBit_frame_flags q c i hc]
  have h0 := testBit_frame_flags q 0 i (by decide)
  rw [Nat.add_zero] at h0
  rw [h0]
  by_cases hi : i < 12
  · simp [hi]
  · have hlt : c < 2 ^ i :=
      Nat.lt_of_lt_of_le hc (by
        have : (4096 : Nat) = 2 ^ 12 := by norm_num
        rw [this]
        exact Nat.pow_le_pow_right (by norm_num) (by omega))
    simp [hi, Nat.testBit_lt_two_pow hlt]

theorem land_flags (q c d : Nat) (hc : c < 4096) (hd : d < 4096) :
    (4096 * q + c) &&& d = c &&& d := by
  apply Nat.eq_of_testBit_eq
  intro i
  rw [Nat.testBit_and, Nat.testBit_and, testBit_frame_flags q c i hc]
  by_cases hi : i < 12
  · simp [hi]
  · have hlt : d < 2 ^ i :=
      Nat.lt_of_lt_of_le hd (by
        have : (4096 : Nat) = 2 ^ 12 := by norm_num
        rw [this]
        exact Nat.pow_le_pow_right (by norm_num) (by omega))
    have hlt2 : c < 2 ^ i :=
      Nat.lt_of_lt_of_le hc (by
        have : (4096 : Nat) = 2 ^ 12 := by norm_num
        rw [this]
        exact Nat.pow_le_pow_right (by norm_num) (by omega))
    simp [hi, Nat.testBit_lt_two_pow hlt, Nat.testBit_lt_two_pow hlt2]

/-- Clearing DIRTY in the low word of a page-aligned frame leaves `paddr | VALID`. -/
theorem elo_clear_dirty (pa : Nat) (h : pa % 4096 = 0) (hlt : pa < 4294967296) :
    (pa ||| TLBLO_DIRTY ||| TLBLO_VALID) &&& (4294967295 - TLBLO_DIRTY) = pa ||| TLBLO_VALID := by
  obtain ⟨q, rfl⟩ : ∃ q, pa = 4096 * q := ⟨pa / 4096, by omega⟩
  have hq : q < 2 ^ 20 := by norm_num; omega
  rw [Nat.or_assoc, lor_flags q _ (by decide), lor_flags q _ (by decide)]
  have em : 4294967295 - TLBLO_DIRTY = 4096 * (2 ^ 20 - 1) + 3071 := by decide
  rw [em]
  apply Nat.eq_of_testBit_eq
  intro i
  rw [Nat.testBit_and, testBit_frame_flags q _ i (by decide),
    testBit_frame_flags (2 ^ 20 - 1) 3071 i (by decide),
    testBit_frame_flags q _ i (by decide)]
  by_cases hi : i < 12
  · rw [if_pos hi, if_pos hi, if_pos hi]
    interval_cases i <;> decide
  · rw [if_neg hi, if_neg hi, if_neg hi, Nat.testBit_two_pow_sub_one]
    by_cases h20 : i - 12 < 20
    · simp [h20]
    · have hlt2 : q < 2 ^ (i - 12) :=
        Nat.lt_of_lt_of_le hq (Nat.pow_le_pow_right (by norm_num) (by omega))
      simp [Nat.testBit_lt_two_pow hlt2]

/-- The low word `vm_fault` builds for a page-aligned frame: VALID is always set,
DIRTY is clear exactly for text after a completed load. -/
theorem fault_elo_spec (pa : Nat) (text completed : Bool) (h : pa % 4096 = 0)
    (hlt : pa < 4294967296) :
    fault_elo pa text completed =
        (if text = true ∧ completed = true then pa ||| TLBLO_VALID
         else pa ||| TLBLO_VALID ||| TLBLO_DIRTY) ∧
      fault_elo pa text completed &&& TLBLO_VALID = TLBLO_VALID ∧
      (fault_elo pa text completed &&& TLBLO_DIRTY = 0 ↔ (text = true ∧ completed = true)) ∧
      (fault_elo pa text completed &&& TLBLO_DIRTY = TLBLO_DIRTY ↔
        ¬ (text = true ∧ completed = true)) ∧
      fault_elo pa text completed &&& PAGE_FRAME = pa := by
  have key : fault_elo pa text completed =
      (if text = true ∧ completed = true then pa ||| TLBLO_VALID
       else pa ||| TLBLO_VALID ||| TLBLO_DIRTY) := by
    unfold fault_elo
    by_cases hc : text = true ∧ completed = true
    · rw [if_pos hc]
      have hb : (text && completed) = true := by simp [hc.1, hc.2]
      simp only [hb, if_true]
      exact elo_clear_dirty pa h hlt
    · rw [if_neg hc]
      have hb : (text && completed) = false := by
        cases text <;> cases completed <;> simp at hc ⊢
      simp only [hb]
      rw [if_neg (by decide), Nat.or_assoc, Nat.or_assoc, Nat.or_comm TLBLO_DIRTY]
  refine ⟨key, ?_⟩
  rw [key]
  obtain ⟨q, rfl⟩ : ∃ q, pa = 4096 * q := ⟨pa / 4096, by omega⟩
  have hPF : ∀ c, c < 4096 → (4096 * q + c) &&& PAGE_FRAME = 4096 * q := by
    intro c hc
    rw [land_page_frame _ (by omega)]
    omega
  by_cases hc : text = true ∧ completed = true
  · rw [if_pos hc, lor_flags q _ (by decide), land_flags q _ _ (by decide) (by decide),
      land_flags q _ _ (by decide) (by decide)]
    refine ⟨by decide, ?_, ?_, hPF _ (by decide)⟩
    · exact ⟨fun _ => hc, fun _ => by decide⟩
    · exact ⟨fun hh => absurd hh (by decide), fun hh => absurd hc hh⟩
  · rw [if_neg hc, Nat.or_assoc, lor_flags q _ (by decide),
      land_flags q _ _ (by decide) (by decide), land_flags q _ _ (by decide) (by decide)]
    refine ⟨by decide, ?_, ?_, hPF _ (by decide)⟩
    · exact ⟨fun hh => absurd hh (by decide), fun hh => absurd hh hc⟩
    · exact ⟨fun _ => hc, fun _ => by decide⟩

theorem tlbFill_miss (ehi elo : Nat) (t : TLB) :
    ∀ (k i : Nat), (∀ j, i ≤ j → j < i + k → (t j).2 &&& TLBLO_VALID ≠ 0) →
      tlbFill ehi elo k i t = none := by
  intro k
  induction k with
  | zero => intro i _; rfl
  | succ k ih =>
    intro i h
    unfold tlbFill
    rw [if_pos (h i (Nat.le_refl i) (by omega))]
    exact ih (i + 1) (fun j h1 h2 => h j (by omega) (by omega))

theorem tlbFill_hit (ehi elo : Nat) (t : TLB) (j0 : Nat) (hj0 : (t j0).2 &&& TLBLO_VALID = 0) :
    ∀ (k i : Nat), i ≤ j0 → j0 < i + k → (∀ j, i ≤ j → j < j0 → (t j).2 &&& TLBLO_VALID ≠ 0) →
      tlbFill ehi elo k i t = some (tlb_write ehi elo j0 t) := by
  intro k
  induction k with
  | zero => intro i h1 h2 _; omega
  | succ k ih =>
    intro i h1 h2 h
    unfold tlbFill
    by_cases e : i = j0
    · subst e
      rw [if_neg (by rw [hj0]; exact fun hh => hh rfl)]
    · rw [if_pos (h i (Nat.le_refl i) (by omega))]
      exact ih (i + 1) (by omega) (by omega) (fun j a b => h j (by omega) b)

/-- The scan either writes some slot or leaves the choice to `tlb_random`. -/
theorem tlbFill_cases (t : TLB) :
    ∀ (k i : Nat),
      (∃ j0, i ≤ j0 ∧ j0 < i + k ∧ (t j0).2 &&& TLBLO_VALID = 0 ∧
        (∀ j, i ≤ j → j < j0 → (t j).2 &&& TLBLO_VALID ≠ 0)) ∨
      (∀ j, i ≤ j → j < i + k → (t j).2 &&& TLBLO_VALID ≠ 0) := by
  intro k
  induction k with
  | zero => intro i; right; intro j h1 h2; omega
  | succ k ih =>
    intro i
    by_cases hv : (t i).2 &&& TLBLO_VALID = 0
    · left
      exact ⟨i, Nat.le_refl i, by omega, hv, fun j a b => by omega⟩
    · rcases ih (i + 1) with ⟨j0, a, b, c, d⟩ | h
      · left
        refine ⟨j0, by omega, by omega, c, fun j a1 b1 => ?_⟩
        by_cases e : j = i
        · rw [e]; exact hv
        · exact d j (by omega) b1
      · right
        intro j a b
        by_cases e : j = i
        · rw [e]; exact hv
        · exact h j (by omega) (by omega)

theorem flushLoop_apply :
    ∀ (k i : Nat) (t : TLB) (j : Nat),
      flushLoop k i t j =
        if i ≤ j ∧ j < i + k then (TLBHI_INVALID j, TLBLO_INVALID) else t j := by
  intro k
  induction k with
  | zero =>
    intro i t j
    unfold flushLoop
    rw [if_neg (by omega)]
  | succ k ih =>
    intro i t j
    unfold flushLoop
    rw [ih]
    by_cases e : j = i
    · subst e
      rw [if_neg (by omega), if_pos (by omega)]
      unfold tlb_write
      rw [if_pos rfl]
    · unfold tlb_write
      by_cases hin : i ≤ j ∧ j < i + (k + 1)
      · rw [if_pos (by omega), if_pos hin]
      · rw [if_neg (by omega), if_neg hin, if_neg e]

theorem tablePrepared_read (pt : Option (List Nat)) (n i : Nat) (h : tablePrepared pt n)
    (hi : i < n) :
    ∃ e, readEntry pt i = some e ∧ e ≠ 0 ∧ e % 4096 = 0 ∧ e < 4294967296 := by
  obtain ⟨l, hl, hlen, hall⟩ := h
  have hi2 : i < l.length := by omega
  refine ⟨l[i], ?_, hall _ (List.getElem_mem hi2)⟩
  rw [hl]
  unfold readEntry
  exact List.getElem?_eq_getElem hi2

theorem prepared_asserts (as : addrspace) (hw : PreparedAS as) : fault_asserts as = true := by
  obtain ⟨e1, r1, n1, -, -⟩ :=
    tablePrepared_read _ _ 0 hw.table1 (Nat.pos_of_ne_zero hw.size1.1)
  obtain ⟨e2, r2, n2, -, -⟩ :=
    tablePrepared_read _ _ 0 hw.table2 (Nat.pos_of_ne_zero hw.size2.1)
  obtain ⟨e3, r3, n3, -, -⟩ :=
    tablePrepared_read _ _ 0 hw.table3 (by decide)
  have a1 := land_of_aligned _ hw.base1.2 (by have := hw.size1.2; omega)
  have a2 := land_of_aligned _ hw.base2.2 (by have := hw.size2.2; omega)
  unfold fault_asserts
  rw [r1, r2, r3]
  simp [hw.base1.1, hw.base2.1, hw.size1.1, hw.size2.1, n1, n2, n3, a1, a2]

theorem tablePrepared.aligned {pt : Option (List Nat)} {n : Nat} (h : tablePrepared pt n) :
    tableAligned pt n := by
  obtain ⟨l, a, b, c⟩ := h
  exact ⟨l, a, b, fun e he => (c e he).2⟩

theorem page_index_bound (base va n : Nat) (hb : base % 4096 = 0) (hv : va % 4096 = 0)
    (h1 : base ≤ va) (h2 : va < base + n * 4096) :
    (va - base) / 4096 < n ∧ (va - base) % 4096 = 0 := by
  omega

theorem tableAligned_read (pt : Option (List Nat)) (n i : Nat) (h : tableAligned pt n)
    (hi : i < n) :
    ∃ l e, pt = some l ∧ l[i]? = some e ∧ readEntry pt i = some e ∧ e % 4096 = 0 ∧
      e < 4294967296 := by
  obtain ⟨l, hl, hlen, hall⟩ := h
  have hi2 : i < l.length := by omega
  have hg : l[i]? = some l[i] := List.getElem?_eq_getElem hi2
  refine ⟨l, l[i], hl, hg, ?_, hall _ (List.getElem_mem hi2)⟩
  rw [hl]
  unfold readEntry
  exact hg

theorem fault_resolve_out (as : addrspace) (va : Nat) (h1 : ¬ inRegion1 as va)
    (h2 : ¬ inRegion2 as va) (h3 : ¬ inStack va) : fault_resolve as va = some none := by
  unfold inRegion1 at h1
  unfold inRegion2 at h2
  unfold inStack at h3
  unfold fault_resolve
  have m1 := Nat.mod_le (as.as_vbase1 + as.as_npages1 * PAGE_SIZE) 4294967296
  have m2 := Nat.mod_le (as.as_vbase2 + as.as_npages2 * PAGE_SIZE) 4294967296
  simp only
  rw [if_neg (fun h => h1 ⟨h.1, Nat.lt_of_lt_of_le h.2 m1⟩),
    if_neg (fun h => h2 ⟨h.1, Nat.lt_of_lt_of_le h.2 m2⟩),
    if_neg (show ¬ (USERSTACK - DUMBVM_STACKPAGES * PAGE_SIZE ≤ va ∧ va < USERSTACK) from h3)]

theorem fault_resolve_one (as : addrspace) (va : Nat) (hb : as.as_vbase1 % 4096 = 0)
    (hs : as.as_vbase1 + as.as_npages1 * PAGE_SIZE < 4294967296)
    (ht : tableAligned as.page_table1 as.as_npages1) (hv : va % 4096 = 0)
    (hin : inRegion1 as va) :
    fault_page as.as_vbase1 va < as.as_npages1 ∧ fault_offset as.as_vbase1 va = 0 ∧
      ∃ l pa, as.page_table1 = some l ∧ l[fault_page as.as_vbase1 va]? = some pa ∧
        pa % 4096 = 0 ∧ pa < 4294967296 ∧ fault_resolve as va = some (some (pa, true)) := by
  unfold inRegion1 at hin
  have hidx := page_index_bound as.as_vbase1 va as.as_npages1 hb hv hin.1
    (by unfold PAGE_SIZE at hin; exact hin.2)
  have hp : fault_page as.as_vbase1 va < as.as_npages1 := hidx.1
  have ho : fault_offset as.as_vbase1 va = 0 := hidx.2
  obtain ⟨l, pa, hl, hg, hr, hal, hlt⟩ := tableAligned_read _ _ _ ht hp
  refine ⟨hp, ho, l, pa, hl, hg, hal, hlt, ?_⟩
  unfold fault_resolve
  simp only
  rw [if_pos ⟨hin.1, by rw [Nat.mod_eq_of_lt hs]; exact hin.2⟩, hr, ho]
  simp only [Nat.add_zero, Nat.mod_eq_of_lt hlt]

theorem fault_resolve_two (as : addrspace) (va : Nat) (hb : as.as_vbase2 % 4096 = 0)
    (hs : as.as_vbase2 + as.as_npages2 * PAGE_SIZE < 4294967296)
    (ht : tableAligned as.page_table2 as.as_npages2) (hv : va % 4096 = 0)
    (hout : ¬ inRegion1 as va) (hin : inRegion2 as va) :
    fault_page as.as_vbase2 va < as.as_npages2 ∧ fault_offset as.as_vbase2 va = 0 ∧
      ∃ l pa, as.page_table2 = some l ∧ l[fault_page as.as_vbase2 va]? = some pa ∧
        pa % 4096 = 0 ∧ pa < 4294967296 ∧ fault_resolve as va = some (some (pa, false)) := by
  unfold inRegion1 at hout
  unfold inRegion2 at hin
  have hidx := page_index_bound as.as_vbase2 va as.as_npages2 hb hv hin.1
    (by unfold PAGE_SIZE at hin; exact hin.2)
  have hp : fault_page as.as_vbase2 va < as.as_npages2 := hidx.1
  have ho : fault_offset as.as_vbase2 va = 0 := hidx.2
  obtain ⟨l, pa, hl, hg, hr, hal, hlt⟩ := tableAligned_read _ _ _ ht hp
  refine ⟨hp, ho, l, pa, hl, hg, hal, hlt, ?_⟩
  have m1 := Nat.mod_le (as.as_vbase1 + as.as_npages1 * PAGE_SIZE) 4294967296
  unfold fault_resolve
  simp only
  rw [if_neg (fun h => hout ⟨h.1, Nat.lt_of_lt_of_le h.2 m1⟩),
    if_pos ⟨hin.1, by rw [Nat.mod_eq_of_lt hs]; exact hin.2⟩, hr, ho]
  simp only [Nat.add_zero, Nat.mod_eq_of_lt hlt]

theorem fault_resolve_stack (as : addrspace) (va : Nat)
    (ht : tableAligned as.page_table3 DUMBVM_STACKPAGES) (hv : va % 4096 = 0)
    (hout1 : ¬ inRegion1 as va) (hout2 : ¬ inRegion2 as va) (hin : inStack va) :
    fault_page (USERSTACK - DUMBVM_STACKPAGES * PAGE_SIZE) va < DUMBVM_STACKPAGES ∧
      fault_offset (USERSTACK - DUMBVM_STACKPAGES * PAGE_SIZE) va = 0 ∧
      ∃ l pa, as.page_table3 = some l ∧
        l[fault_page (USERSTACK - DUMBVM_STACKPAGES * PAGE_SIZE) va]? = some pa ∧
        pa % 4096 = 0 ∧ pa < 4294967296 ∧ fault_resolve as va = some (some (pa, false)) := by
  unfold inRegion1 at hout1
  unfold inRegion2 at hout2
  have hin2 : USERSTACK - DUMBVM_STACKPAGES * PAGE_SIZE ≤ va ∧ va < USERSTACK := hin
  have e : USERSTACK - DUMBVM_STACKPAGES * PAGE_SIZE = 2147434496 := by decide
  have e2 : USERSTACK = 2147434496 + DUMBVM_STACKPAGES * 4096 := by decide
  have hidx := page_index_bound (USERSTACK - DUMBVM_STACKPAGES * PAGE_SIZE) va
    DUMBVM_STACKPAGES (by rw [e]) hv hin2.1 (by rw [e, ← e2]; exact hin2.2)
  have hp : fault_page (USERSTACK - DUMBVM_STACKPAGES * PAGE_SIZE) va < DUMBVM_STACKPAGES :=
    hidx.1
  have ho : fault_offset (USERSTACK - DUMBVM_STACKPAGES * PAGE_SIZE) va = 0 := hidx.2
  obtain ⟨l, pa, hl, hg, hr, hal, hlt⟩ := tableAligned_read _ _ _ ht hp
  refine ⟨hp, ho, l, pa, hl, hg, hal, hlt, ?_⟩
  have m1 := Nat.mod_le (as.as_vbase1 + as.as_npages1 * PAGE_SIZE) 4294967296
  have m2 := Nat.mod_le (as.as_vbase2 + as.as_npages2 * PAGE_SIZE) 4294967296
  unfold fault_resolve
  simp only
  rw [if_neg (fun h => hout1 ⟨h.1, Nat.lt_of_lt_of_le h.2 m1⟩),
    if_neg (fun h => hout2 ⟨h.1, Nat.lt_of_lt_of_le h.2 m2⟩), if_pos hin2, hr, ho]
  simp only [Nat.add_zero, Nat.mod_eq_of_lt hlt]

theorem fault_type_rw (faulttype : Int)
    (hft : faulttype = VM_FAULT_READ ∨ faulttype = VM_FAULT_WRITE) :
    faulttype ≠ VM_FAULT_READONLY := by
  rcases hft with h | h <;> rw [h] <;> decide

/-- Past the checks, `vm_fault` writes the scan's slot or the random one. -/
theorem vm_fault_resolved (as : addrspace) (faulttype : Int) (fa rnd : Nat) (t : TLB)
    (pa : Nat) (text : Bool)
    (hft : faulttype = VM_FAULT_READ ∨ faulttype = VM_FAULT_WRITE)
    (ha : fault_asserts as = true)
    (hr : fault_resolve as (fa &&& PAGE_FRAME) = some (some (pa, text)))
    (hal : pa % 4096 = 0) (hlt : pa < 4294967296) :
    vm_fault faulttype fa (some (some as)) rnd t =
      some (Status.ok,
        (tlbFill (fa &&& PAGE_FRAME) (fault_elo pa text as.load_elf_completed) NUM_TLB 0 t).getD
          (tlb_write (fa &&& PAGE_FRAME) (fault_elo pa text as.load_elf_completed) rnd t)) := by
  unfold vm_fault
  simp only [curproc_getas]
  rw [if_neg (fault_type_rw faulttype hft), if_pos hft, if_neg (by rw [ha]; decide), hr]
  simp only
  rw [if_neg (fun h => h (land_of_aligned pa hal hlt))]
  generalize tlbFill (fa &&& PAGE_FRAME) (fault_elo pa text as.load_elf_completed) NUM_TLB 0 t = r
  cases r <;> rfl

theorem as_p3_prepared : PreparedAS as_p3 :=
  { base1 := by decide
    size1 := by decide
    base2 := by decide
    size2 := by decide
    table1 := ⟨_, rfl, rfl, by decide⟩
    table2 := ⟨_, rfl, rfl, by decide⟩
    table3 := ⟨_, rfl, rfl, by decide⟩ }

/-- A read or write fault on a page of a prepared address space gets past every
check: the handler ends in the TLB scan with the selected table's entry. -/
theorem vm_fault_prepared (as : addrspace) (faulttype : Int) (fa rnd : Nat) (t : TLB)
    (hw : PreparedAS as) (hft : faulttype = VM_FAULT_READ ∨ faulttype = VM_FAULT_WRITE)
    (hin : inRegion1 as (fa &&& PAGE_FRAME) ∨ inRegion2 as (fa &&& PAGE_FRAME) ∨
      inStack (fa &&& PAGE_FRAME)) :
    ∃ (l : List Nat) (base : Nat) (text : Bool) (pa : Nat),
      faultRange as (fa &&& PAGE_FRAME) l base text ∧
      l[fault_page base (fa &&& PAGE_FRAME)]? = some pa ∧ pa % 4096 = 0 ∧ pa < 4294967296 ∧
      vm_fault faulttype fa (some (some as)) rnd t =
        some (Status.ok,
          (tlbFill (fa &&& PAGE_FRAME) (fault_elo pa text as.load_elf_completed)
            NUM_TLB 0 t).getD
            (tlb_write (fa &&& PAGE_FRAME) (fault_elo pa text as.load_elf_completed) rnd t)) := by
  have ha := prepared_asserts as hw
  have hv := masked_aligned fa
  by_cases h1 : inRegion1 as (fa &&& PAGE_FRAME)
  · obtain ⟨-, -, l, pa, hl, hg, hal, hlt, hr⟩ :=
      fault_resolve_one as _ hw.base1.2 hw.size1.2 hw.table1.aligned hv h1
    exact ⟨l, _, true, pa, Or.inl ⟨h1, hl, rfl, rfl⟩, hg, hal, hlt,
      vm_fault_resolved as faulttype fa rnd t pa true hft ha hr hal hlt⟩
  · by_cases h2 : inRegion2 as (fa &&& PAGE_FRAME)
    · obtain ⟨-, -, l, pa, hl, hg, hal, hlt, hr⟩ :=
        fault_resolve_two as _ hw.base2.2 hw.size2.2 hw.table2.aligned hv h1 h2
      exact ⟨l, _, false, pa, Or.inr (Or.inl ⟨h1, h2, hl, rfl, rfl⟩), hg, hal, hlt,
        vm_fault_resolved as faulttype fa rnd t pa false hft ha hr hal hlt⟩
    · have h3 : inStack (fa &&& PAGE_FRAME) := by
        rcases hin with h | h | h
        · exact absurd h h1
        · exact absurd h h2
        · exact h
      obtain ⟨-, -, l, pa, hl, hg, hal, hlt, hr⟩ :=
        fault_resolve_stack as _ hw.table3.aligned hv h1 h2 h3
      exact ⟨l, _, false, pa, Or.inr (Or.inr ⟨h1, h2, h3, hl, rfl, rfl⟩), hg, hal, hlt,
        vm_fault_resolved as faulttype fa rnd t pa false hft ha hr hal hlt⟩

theorem tlb_write_same (ehi elo i : Nat) (t : TLB) : tlb_write ehi elo i t i = (ehi, elo) := by
  unfold tlb_write
  rw [if_pos rfl]

theorem tlb_write_ne (ehi elo i j : Nat) (t : TLB) (h : j ≠ i) :
    tlb_write ehi elo i t j = t j := by
  unfold tlb_write
  rw [if_neg h]

/-- A read or write fault on an address space that fails one of the handler's
assertions panics, wherever the address lies. -/
theorem vm_fault_unprepared (as : addrspace) (faulttype : Int) (fa rnd : Nat) (t : TLB)
    (hft : faulttype = VM_FAULT_READ ∨ faulttype = VM_FAULT_WRITE)
    (ha : fault_asserts as = false) :
    vm_fault faulttype fa (some (some as)) rnd t = none := by
  unfold vm_fault
  simp only [curproc_getas]
  rw [if_neg (fault_type_rw faulttype hft), if_pos hft, if_pos ha]

/-- Counterexample for C12 as stated: with the address space of scenario S3
before `as_prepare_load` as the current one (its first page-table entry is
still 0), `vm_fault(READ, 0x70000000)`, whose page lies in none of the three
ranges, fails an assertion instead of returning EFAULT. -/
theorem vm_fault_unprepared_counterexample :
    ¬ inRegion1 as_s3 (0x70000000 &&& PAGE_FRAME) ∧
    ¬ inRegion2 as_s3 (0x70000000 &&& PAGE_FRAME) ∧ ¬ inStack (0x70000000 &&& PAGE_FRAME) ∧
    vm_fault VM_FAULT_READ 0x70000000 (some (some as_s3)) 0 tlbEmpty = none :=
  ⟨by unfold inRegion1; decide, by unfold inRegion2; decide, by unfold inStack; decide,
    vm_fault_unprepared as_s3 VM_FAULT_READ 0x70000000 0 tlbEmpty (Or.inl rfl) (by decide)⟩

/-- C12 (amended). Fault classification: `vm_fault` returns 0 for fault type
READONLY, EINVAL for a type other than READONLY, READ and WRITE, EFAULT for
READ or WRITE when there is no current process or no current address space,
and EFAULT for READ or WRITE when the current address space passes the
handler's assertions and the page-masked address lies in none of the three
ranges; the TLB is unchanged in all four cases. -/
theorem vm_fault_classification (faulttype : Int) (fa rnd : Nat)
    (cur : Option (Option addrspace)) (t : TLB) :
    (faulttype = VM_FAULT_READONLY → vm_fault faulttype fa cur rnd t = some (Status.ok, t)) ∧
    (faulttype ≠ VM_FAULT_READONLY → faulttype ≠ VM_FAULT_READ → faulttype ≠ VM_FAULT_WRITE →
      vm_fault faulttype fa cur rnd t = some (Status.EINVAL, t)) ∧
    (faulttype = VM_FAULT_READ ∨ faulttype = VM_FAULT_WRITE → cur = none ∨ cur = some none →
      vm_fault faulttype fa cur rnd t = some (Status.EFAULT, t)) ∧
    (faulttype = VM_FAULT_READ ∨ faulttype = VM_FAULT_WRITE →
      ∀ as, cur = some (some as) → fault_asserts as = true →
        ¬ inRegion1 as (fa &&& PAGE_FRAME) → ¬ inRegion2 as (fa &&& PAGE_FRAME) →
        ¬ inStack (fa &&& PAGE_FRAME) →
        vm_fault faulttype fa cur rnd t = some (Status.EFAULT, t)) := by
  refine ⟨?_, ?_, ?_, ?_⟩
  · intro h
    unfold vm_fault
    simp only
    rw [if_pos h]
  · intro h1 h2 h3
    unfold vm_fault
    simp only
    rw [if_neg h1, if_neg (fun h => h.elim h2 h3)]
  · intro hft hc
    unfold vm_fault
    simp only
    rw [if_neg (fault_type_rw faulttype hft), if_pos hft]
    rcases hc with h | h
    · rw [h]
    · rw [h]
      rfl
  · intro hft as hc ha h1 h2 h3
    rw [hc]
    unfold vm_fault
    simp only [curproc_getas]
    rw [if_neg (fault_type_rw faulttype hft), if_pos hft, if_neg (by rw [ha]; decide),
      fault_resolve_out as _ h1 h2 h3]

/-- Witness for C12 (as amended): `vm_fault(READ, 0x70000000)` on the prepared
address space of S3, whose three ranges do not contain the address, returns
EFAULT and leaves a TLB of valid entries as it was. -/
theorem vm_fault_classification_witness :
    vm_fault VM_FAULT_READ 0x70000000 (some (some as_p3)) 7 tlbFull =
      some (Status.EFAULT, tlbFull) :=
  (vm_fault_classification VM_FAULT_READ 0x70000000 7 (some (some as_p3)) tlbFull).2.2.2
    (Or.inl rfl) as_p3 rfl (prepared_asserts as_p3 as_p3_prepared)
    (by unfold inRegion1; decide) (by unfold inRegion2; decide) (by unfold inStack; decide)

/-- C13. TLB fill: for a well-formed prepared address space, a READ or WRITE
fault whose page `va = faultaddress & PAGE_FRAME` lies in region 1, region 2 or
the stack makes `vm_fault` return 0.  With `pa` the selected table's entry at
index `(va - base) / PAGE_SIZE`, the low word is `pa | VALID | DIRTY`, with
DIRTY cleared exactly when the range is region 1 and `load_elf_completed` is
true.  If some slot has VALID clear the lowest such slot receives `(va, elo)`
and every other slot is unchanged; if every slot is valid the pair goes to
the slot `tlb_random` picks. -/
theorem vm_fault_tlb_fill (as : addrspace) (faulttype : Int) (fa rnd : Nat) (t : TLB)
    (hw : PreparedAS as) (hft : faulttype = VM_FAULT_READ ∨ faulttype = VM_FAULT_WRITE)
    (hin : inRegion1 as (fa &&& PAGE_FRAME) ∨ inRegion2 as (fa &&& PAGE_FRAME) ∨
      inStack (fa &&& PAGE_FRAME)) :
    ∃ (l : List Nat) (base : Nat) (text : Bool) (pa elo : Nat) (t1 : TLB),
      faultRange as (fa &&& PAGE_FRAME) l base text ∧
      l[((fa &&& PAGE_FRAME) - base) / PAGE_SIZE]? = some pa ∧
      elo = (if text = true ∧ as.load_elf_completed = true then pa ||| TLBLO_VALID
             else pa ||| TLBLO_VALID ||| TLBLO_DIRTY) ∧
      elo &&& TLBLO_VALID = TLBLO_VALID ∧
      (elo &&& TLBLO_DIRTY = 0 ↔ (text = true ∧ as.load_elf_completed = true)) ∧
      elo &&& PAGE_FRAME = pa ∧
      vm_fault faulttype fa (some (some as)) rnd t = some (Status.ok, t1) ∧
      (∀ j0, j0 < NUM_TLB → (t j0).2 &&& TLBLO_VALID = 0 →
        (∀ j, j < j0 → (t j).2 &&& TLBLO_VALID ≠ 0) →
        t1 j0 = (fa &&& PAGE_FRAME, elo) ∧ ∀ j, j ≠ j0 → t1 j = t j) ∧
      ((∀ j, j < NUM_TLB → (t j).2 &&& TLBLO_VALID ≠ 0) →
        t1 = tlb_write (fa &&& PAGE_FRAME) elo rnd t) := by
  obtain ⟨l, base, text, pa, hsel, hg, hal, hlt, hvm⟩ :=
    vm_fault_prepared as faulttype fa rnd t hw hft hin
  obtain ⟨e1, e2, e3, -, e5⟩ := fault_elo_spec pa text as.load_elf_completed hal hlt
  refine ⟨l, base, text, pa, fault_elo pa text as.load_elf_completed, _, hsel, hg, e1, e2, e3,
    e5, hvm, ?_, ?_⟩
  · intro j0 hj0 hclear hbelow
    rw [tlbFill_hit _ _ t j0 hclear NUM_TLB 0 (Nat.zero_le _) (by omega)
      (fun j _ hj => hbelow j hj)]
    exact ⟨tlb_write_same _ _ _ _, fun j hj => tlb_write_ne _ _ _ _ _ hj⟩
  · intro hall
    rw [tlbFill_miss _ _ t NUM_TLB 0 (fun j _ hj => hall j (by omega))]
    rfl

/-- Witness for C13: scenario S4, `vm_fault(READ, 0x00400abc)` on the prepared
address space of S3 with an all-invalid TLB. -/
theorem vm_fault_tlb_fill_witness :
    ∃ (l : List Nat) (base : Nat) (text : Bool) (pa elo : Nat) (t1 : TLB),
      faultRange as_p3 (0x00400abc &&& PAGE_FRAME) l base text ∧
      l[((0x00400abc &&& PAGE_FRAME) - base) / PAGE_SIZE]? = some pa ∧
      elo = (if text = true ∧ as_p3.load_elf_completed = true then pa ||| TLBLO_VALID
             else pa ||| TLBLO_VALID ||| TLBLO_DIRTY) ∧
      elo &&& TLBLO_VALID = TLBLO_VALID ∧
      (elo &&& TLBLO_DIRTY = 0 ↔ (text = true ∧ as_p3.load_elf_completed = true)) ∧
      elo &&& PAGE_FRAME = pa ∧
      vm_fault VM_FAULT_READ 0x00400abc (some (some as_p3)) 0 tlbEmpty = some (Status.ok, t1) ∧
      (∀ j0, j0 < NUM_TLB → (tlbEmpty j0).2 &&& TLBLO_VALID = 0 →
        (∀ j, j < j0 → (tlbEmpty j).2 &&& TLBLO_VALID ≠ 0) →
        t1 j0 = (0x00400abc &&& PAGE_FRAME, elo) ∧ ∀ j, j ≠ j0 → t1 j = tlbEmpty j) ∧
      ((∀ j, j < NUM_TLB → (tlbEmpty j).2 &&& TLBLO_VALID ≠ 0) →
        t1 = tlb_write (0x00400abc &&& PAGE_FRAME) elo 0 tlbEmpty) :=
  vm_fault_tlb_fill as_p3 VM_FAULT_READ 0x00400abc 0 tlbEmpty as_p3_prepared (Or.inl rfl)
    (Or.inl (by unfold inRegion1; decide))

/-- C11. `as_complete_load` returns 0 and leaves the address space as it was, so
`load_elf_completed` keeps the value `false` that `as_create` gave it; on the
prepared address space of S3 a WRITE fault at `0x00400abc` (region 1) after
`as_complete_load` installs `(0x00400000, 0x101600)` in slot 0, a low word with
DIRTY set. -/
theorem as_complete_load_leaves_flag :
    (∀ as : addrspace, as_complete_load as = (Status.ok, as)) ∧
    as_create.load_elf_completed = false ∧
    (as_complete_load as_p3).2.load_elf_completed = false ∧
    inRegion1 (as_complete_load as_p3).2 (0x00400abc &&& PAGE_FRAME) ∧
    (vm_fault VM_FAULT_WRITE 0x00400abc (some (some (as_complete_load as_p3).2)) 0
        tlbEmpty).map (fun r => (r.1, r.2 0)) = some (Status.ok, (0x00400000, 0x101600)) ∧
    0x101600 &&& TLBLO_DIRTY = TLBLO_DIRTY := by
  refine ⟨fun _ => rfl, rfl, rfl, by unfold inRegion1; decide, by decide, by decide⟩

/-- C19. Fault decoding stays in bounds: for an address space with page-aligned
bases, ranges that end below 2^32 and page tables of page-aligned entries, and
every fault address whose masked page lies in one of the three ranges, the
index `(va - base) / PAGE_SIZE` is below the selected table's length, the
offset is 0, the table read succeeds and the physical address passes the
alignment assertion. -/
theorem fault_decode_in_bounds (as : addrspace) (fa : Nat)
    (hb1 : as.as_vbase1 % 4096 = 0) (hb2 : as.as_vbase2 % 4096 = 0)
    (hs1 : as.as_vbase1 + as.as_npages1 * PAGE_SIZE < 4294967296)
    (hs2 : as.as_vbase2 + as.as_npages2 * PAGE_SIZE < 4294967296)
    (ht1 : tableAligned as.page_table1 as.as_npages1)
    (ht2 : tableAligned as.page_table2 as.as_npages2)
    (ht3 : tableAligned as.page_table3 DUMBVM_STACKPAGES)
    (hin : inRegion1 as (fa &&& PAGE_FRAME) ∨ inRegion2 as (fa &&& PAGE_FRAME) ∨
      inStack (fa &&& PAGE_FRAME)) :
    ∃ (l : List Nat) (base : Nat) (text : Bool) (pa : Nat),
      faultRange as (fa &&& PAGE_FRAME) l base text ∧
      fault_page base (fa &&& PAGE_FRAME) < l.length ∧
      (inRegion1 as (fa &&& PAGE_FRAME) → l.length = as.as_npages1) ∧
      (¬ inRegion1 as (fa &&& PAGE_FRAME) → inRegion2 as (fa &&& PAGE_FRAME) →
        l.length = as.as_npages2) ∧
      (¬ inRegion1 as (fa &&& PAGE_FRAME) → ¬ inRegion2 as (fa &&& PAGE_FRAME) →
        l.length = DUMBVM_STACKPAGES) ∧
      fault_offset base (fa &&& PAGE_FRAME) = 0 ∧
      l[fault_page base (fa &&& PAGE_FRAME)]? = some pa ∧
      fault_resolve as (fa &&& PAGE_FRAME) = some (some (pa, text)) ∧
      pa &&& PAGE_FRAME = pa := by
  have hv := masked_aligned fa
  have len : ∀ (pt : Option (List Nat)) (n : Nat) (l : List Nat), tableAligned pt n →
      pt = some l → l.length = n := by
    intro pt n l h hl
    obtain ⟨l2, a, b, -⟩ := h
    rw [hl] at a
    rw [Option.some.inj a]
    exact b
  by_cases h1 : inRegion1 as (fa &&& PAGE_FRAME)
  · obtain ⟨hp, ho, l, pa, hl, hg, hal, hlt, hr⟩ :=
      fault_resolve_one as _ hb1 hs1 ht1 hv h1
    have hlen := len _ _ l ht1 hl
    refine ⟨l, _, true, pa, Or.inl ⟨h1, hl, rfl, rfl⟩, by rw [hlen]; exact hp,
      fun _ => hlen, fun h => absurd h1 h, fun h => absurd h1 h, ho, hg, hr,
      land_of_aligned pa hal hlt⟩
  · by_cases h2 : inRegion2 as (fa &&& PAGE_FRAME)
    · obtain ⟨hp, ho, l, pa, hl, hg, hal, hlt, hr⟩ :=
        fault_resolve_two as _ hb2 hs2 ht2 hv h1 h2
      have hlen := len _ _ l ht2 hl
      refine ⟨l, _, false, pa, Or.inr (Or.inl ⟨h1, h2, hl, rfl, rfl⟩), by rw [hlen]; exact hp,
        fun h => absurd h h1, fun _ _ => hlen, fun _ h => absurd h2 h, ho, hg, hr,
        land_of_aligned pa hal hlt⟩
    · have h3 : inStack (fa &&& PAGE_FRAME) := by
        rcases hin with h | h | h
        · exact absurd h h1
        · exact absurd h h2
        · exact h
      obtain ⟨hp, ho, l, pa, hl, hg, hal, hlt, hr⟩ :=
        fault_resolve_stack as _ ht3 hv h1 h2 h3
      have hlen := len _ _ l ht3 hl
      refine ⟨l, _, false, pa, Or.inr (Or.inr ⟨h1, h2, h3, hl, rfl, rfl⟩),
        by rw [hlen]; exact hp, fun h => absurd h h1, fun _ h => absurd h h2, fun _ _ => hlen,
        ho, hg, hr, land_of_aligned pa hal hlt⟩

/-- Witness for C19: the fault address `0x7ffff123` (last stack page) on the
prepared address space of S3. -/
theorem fault_decode_in_bounds_witness :
    ∃ (l : List Nat) (base : Nat) (text : Bool) (pa : Nat),
      faultRange as_p3 (0x7ffff123 &&& PAGE_FRAME) l base text ∧
      fault_page base (0x7ffff123 &&& PAGE_FRAME) < l.length ∧
      (inRegion1 as_p3 (0x7ffff123 &&& PAGE_FRAME) → l.length = as_p3.as_npages1) ∧
      (¬ inRegion1 as_p3 (0x7ffff123 &&& PAGE_FRAME) → inRegion2 as_p3 (0x7ffff123 &&& PAGE_FRAME) →
        l.length = as_p3.as_npages2) ∧
      (¬ inRegion1 as_p3 (0x7ffff123 &&& PAGE_FRAME) → ¬ inRegion2 as_p3 (0x7ffff123 &&& PAGE_FRAME) →
        l.length = DUMBVM_STACKPAGES) ∧
      fault_offset base (0x7ffff123 &&& PAGE_FRAME) = 0 ∧
      l[fault_page base (0x7ffff123 &&& PAGE_FRAME)]? = some pa ∧
      fault_resolve as_p3 (0x7ffff123 &&& PAGE_FRAME) = some (some (pa, text)) ∧
      pa &&& PAGE_FRAME = pa :=
  fault_decode_in_bounds as_p3 0x7ffff123 (by decide) (by decide) (by decide) (by decide)
    as_p3_prepared.table1.aligned as_p3_prepared.table2.aligned as_p3_prepared.table3.aligned
    (Or.inr (Or.inr (by unfold inStack; decide)))

theorem as_activate_some (as : addrspace) (t : TLB) :
    as_activate (some (some as)) t = flushLoop NUM_TLB 0 t := rfl

theorem as_activate_slot (as : addrspace) (t : TLB) (j : Nat) :
    as_activate (some (some as)) t j =
      if j < NUM_TLB then (TLBHI_INVALID j, TLBLO_INVALID) else t j := by
  rw [as_activate_some, flushLoop_apply]
  by_cases h : j < NUM_TLB
  · rw [if_pos ⟨Nat.zero_le _, by omega⟩, if_pos h]
  · rw [if_neg (by omega), if_neg h]

/-- Counterexample for C16 as stated: with the address space of scenario S3
before `as_prepare_load` as the current one, a READ fault at `0x00400000`, the
first page of region 1, right after `as_activate` fails an assertion instead
of returning 0. -/
theorem as_activate_unprepared_counterexample :
    inRegion1 as_s3 (0x00400000 &&& PAGE_FRAME) ∧
    vm_fault VM_FAULT_READ 0x00400000 (some (some as_s3)) 0
      (as_activate (some (some as_s3)) tlbFull) = none :=
  ⟨by unfold inRegion1; decide,
    vm_fault_unprepared as_s3 VM_FAULT_READ 0x00400000 0 _ (Or.inl rfl) (by decide)⟩

/-- C16 (amended). Activation flushes and is idempotent: with a current address
space, `as_activate` leaves every slot `i < NUM_TLB` equal to
`(TLBHI_INVALID(i), TLBLO_INVALID())`, so no slot has VALID set, and a second
call leaves the TLB identical; a READ or WRITE fault on an in-range page of a
well-formed prepared address space right afterwards returns 0 and puts its
entry in slot 0, every other slot staying invalid.  Without a current address
space `as_activate` leaves the TLB unchanged. -/
theorem as_activate_flushes (as : addrspace) (faulttype : Int) (fa rnd : Nat) (t : TLB)
    (hw : PreparedAS as) (hft : faulttype = VM_FAULT_READ ∨ faulttype = VM_FAULT_WRITE)
    (hin : inRegion1 as (fa &&& PAGE_FRAME) ∨ inRegion2 as (fa &&& PAGE_FRAME) ∨
      inStack (fa &&& PAGE_FRAME)) :
    (∀ i, i < NUM_TLB →
      as_activate (some (some as)) t i = (TLBHI_INVALID i, TLBLO_INVALID)) ∧
    (∀ i, i < NUM_TLB → (as_activate (some (some as)) t i).2 &&& TLBLO_VALID = 0) ∧
    as_activate (some (some as)) (as_activate (some (some as)) t) =
      as_activate (some (some as)) t ∧
    (∃ (l : List Nat) (base : Nat) (text : Bool) (pa elo : Nat) (t1 : TLB),
      faultRange as (fa &&& PAGE_FRAME) l base text ∧
      l[((fa &&& PAGE_FRAME) - base) / PAGE_SIZE]? = some pa ∧
      elo = (if text = true ∧ as.load_elf_completed = true then pa ||| TLBLO_VALID
             else pa ||| TLBLO_VALID ||| TLBLO_DIRTY) ∧
      vm_fault faulttype fa (some (some as)) rnd (as_activate (some (some as)) t) =
        some (Status.ok, t1) ∧
      t1 0 = (fa &&& PAGE_FRAME, elo) ∧
      ∀ j, 0 < j → j < NUM_TLB → t1 j = (TLBHI_INVALID j, TLBLO_INVALID)) ∧
    as_activate none t = t ∧ as_activate (some none) t = t := by
  have slot : ∀ i, i < NUM_TLB →
      as_activate (some (some as)) t i = (TLBHI_INVALID i, TLBLO_INVALID) := by
    intro i hi
    rw [as_activate_slot, if_pos hi]
  have clear : ∀ i, i < NUM_TLB → (as_activate (some (some as)) t i).2 &&& TLBLO_VALID = 0 := by
    intro i hi
    rw [slot i hi]
    show TLBLO_INVALID &&& TLBLO_VALID = 0
    decide
  refine ⟨slot, clear, ?_, ?_, rfl, rfl⟩
  · funext j
    rw [as_activate_slot, as_activate_slot]
    by_cases h : j < NUM_TLB
    · rw [if_pos h, if_pos h]
    · rw [if_neg h, if_neg h]
  · obtain ⟨l, base, text, pa, hsel, hg, hal, hlt, hvm⟩ :=
      vm_fault_prepared as faulttype fa rnd (as_activate (some (some as)) t) hw hft hin
    obtain ⟨e1, -⟩ := fault_elo_spec pa text as.load_elf_completed hal hlt
    refine ⟨l, base, text, pa, fault_elo pa text as.load_elf_completed, _, hsel, hg, e1, hvm,
      ?_, ?_⟩
    · rw [tlbFill_hit _ _ _ 0 (clear 0 (by decide)) NUM_TLB 0 (Nat.le_refl 0) (by decide)
        (fun j a b => by omega)]
      exact tlb_write_same _ _ _ _
    · intro j hj hlt2
      rw [tlbFill_hit _ _ _ 0 (clear 0 (by decide)) NUM_TLB 0 (Nat.le_refl 0) (by decide)
        (fun j a b => by omega)]
      show tlb_write _ _ 0 _ j = _
      rw [tlb_write_ne _ _ _ _ _ (by omega)]
      exact slot j hlt2

/-- Witness for C16 (as amended): activation on a TLB whose slots are all valid,
followed by a WRITE fault at `0x10000040` (region 2) on the prepared address
space of S3. -/
theorem as_activate_flushes_witness :
    (∀ i, i < NUM_TLB →
      as_activate (some (some as_p3)) tlbFull i = (TLBHI_INVALID i, TLBLO_INVALID)) ∧
    (∀ i, i < NUM_TLB → (as_activate (some (some as_p3)) tlbFull i).2 &&& TLBLO_VALID = 0) ∧
    as_activate (some (some as_p3)) (as_activate (some (some as_p3)) tlbFull) =
      as_activate (some (some as_p3)) tlbFull ∧
    (∃ (l : List Nat) (base : Nat) (text : Bool) (pa elo : Nat) (t1 : TLB),
      faultRange as_p3 (0x10000040 &&& PAGE_FRAME) l base text ∧
      l[((0x10000040 &&& PAGE_FRAME) - base) / PAGE_SIZE]? = some pa ∧
      elo = (if text = true ∧ as_p3.load_elf_completed = true then pa ||| TLBLO_VALID
             else pa ||| TLBLO_VALID ||| TLBLO_DIRTY) ∧
      vm_fault VM_FAULT_WRITE 0x10000040 (some (some as_p3)) 5
          (as_activate (some (some as_p3)) tlbFull) = some (Status.ok, t1) ∧
      t1 0 = (0x10000040 &&& PAGE_FRAME, elo) ∧
      ∀ j, 0 < j → j < NUM_TLB → t1 j = (TLBHI_INVALID j, TLBLO_INVALID)) ∧
    as_activate none tlbFull = tlbFull ∧ as_activate (some none) tlbFull = tlbFull :=
  as_activate_flushes as_p3 VM_FAULT_WRITE 0x10000040 5 tlbFull as_p3_prepared (Or.inr rfl)
    (Or.inr (Or.inl (by unfold inRegion2; decide)))

/-! ## Reserved prefix and tail frame -/

/-- The loop of `vm_bootstrap` starts at `start_page`: the count entries strictly
between index 0 and `start_page` keep the word RAM held before the call. -/
theorem vm_bootstrap_below_start (r : Nat × Nat) (s : VM) (hb : s.bootstrapped = false) :
    ∃ s1, vm_bootstrap r s = some s1 ∧
      ∀ j, 0 < j → j < s1.start_page → s1.start_page ≤ s1.num_pages →
        count s1 j = toInt (s.mem (PADDR_TO_KVADDR r.1 / 4 + j)) := by
  unfold vm_bootstrap
  rw [if_neg (by simp [hb])]
  refine ⟨_, rfl, ?_⟩
  intro j hj1 hj2 hle
  simp only at hj2 hle
  unfold count countAddr
  simp only
  generalize (((r.2 : Int) - (r.1 : Int)) % 4294967296).toNat / PAGE_SIZE = np at hj2 hle ⊢
  generalize ROUNDUP (np * 4 * 2) PAGE_SIZE / PAGE_SIZE = sp at hj2 hle ⊢
  rw [bootLoop_apply _ _ _ np (by omega) _ _ (by omega), if_neg (by omega), if_neg (by omega),
    store_ne _ _ _ _ (by omega), store_ne _ _ _ _ (by omega)]

theorem m1024_eq : vm_bootstrap (0x100000, 0x500000) ram0 = some m1024 := by
  obtain ⟨s1, h, -⟩ := vm_bootstrap_below_start (0x100000, 0x500000) ram0 rfl
  unfold m1024
  rw [h]
  rfl

/-- C18. After `vm_bootstrap` the count entries strictly between index 0 and
`start_page` are not set to `-1`: they keep the word RAM held before the call.
On the 1024-frame machine booted from RAM filled with `0xdeadbeef`,
`start_page = 2`, `count[0] = 2` and `count[1] = -559038737`. -/
theorem vm_bootstrap_interior_unset :
    (∀ (r : Nat × Nat) (s : VM), s.bootstrapped = false →
      ∃ s1, vm_bootstrap r s = some s1 ∧
        ∀ j, 0 < j → j < s1.start_page → s1.start_page ≤ s1.num_pages →
          count s1 j = toInt (s.mem (PADDR_TO_KVADDR r.1 / 4 + j))) ∧
    vm_bootstrap (0x100000, 0x500000) ram0 = some m1024 ∧
    m1024.num_pages = 1024 ∧ m1024.start_page = 2 ∧ count m1024 0 = 2 ∧
    count m1024 1 = -559038737 ∧ count m1024 1 ≠ -1 := by
  have hnp : m1024.num_pages = 1024 := by decide
  have hsp : m1024.start_page = 2 := by decide
  have h1 : count m1024 1 = -559038737 := by
    obtain ⟨s1, h, hj⟩ := vm_bootstrap_below_start (0x100000, 0x500000) ram0 rfl
    rw [m1024_eq] at h
    rw [← Option.some.inj h] at hj
    rw [hj 1 (by decide) (by rw [hsp]; decide) (by rw [hsp, hnp]; decide)]
    decide
  have h0 : count m1024 0 = 2 := by
    obtain ⟨s1, h, _, _, _, _, _, _, _, hc⟩ :=
      vm_bootstrap_post 0x100000 0x500000 ram0 rfl (by decide) (by decide)
    rw [m1024_eq] at h
    rw [← Option.some.inj h] at hc
    rw [hc (by rw [hnp]; decide), hsp]
    rfl
  refine ⟨vm_bootstrap_below_start, m1024_eq, hnp, hsp, h0, h1, ?_⟩
  rw [h1]
  decide

/-- A post-bootstrap `alloc_kpages(n)` that returns has claimed the run headed at
the first free index below `num_pages - n`. -/
theorem alloc_kpages_step (s : VM) (n : Int) (v : Nat) (s1 : VM) (hs : Booted s)
    (hn : 1 ≤ n) (hn31 : n < 2147483648) (h : alloc_kpages n s = some (v, s1)) :
    ∃ i, s.start_page ≤ i ∧ (i : Int) < (s.num_pages : Int) - n ∧ count s i = 0 ∧
      (∀ j, s.start_page ≤ j → j < i → count s j ≠ 0) ∧
      v = PADDR_TO_KVADDR (location s i) ∧ s1 = { s with mem := claimed s n i } := by
  have hnp := hs.num_pages_lt
  rcases getppages_cases s n hs.boot (by omega) hn hn31 with hg | ⟨i, h1, h2, _, h4, h5, _⟩
  · unfold alloc_kpages at h
    rw [hg] at h
    simp at h
  · rw [alloc_kpages_hit s n i hs hn hn31 h1 h2 h4 h5] at h
    injection h with h
    injection h with ha hb
    exact ⟨i, h1, h2, h4, h5, ha.symm, hb.symm⟩

/-- A post-bootstrap `alloc_kpages(n)` fails its assertion when no entry below
`num_pages - n` is free, whatever the entries from `num_pages - n` on hold. -/
theorem alloc_kpages_miss (s : VM) (n : Int) (hs : Booted s) (hn : 1 ≤ n)
    (hn31 : n < 2147483648)
    (hall : ∀ i, s.start_page ≤ i → (i : Int) < (s.num_pages : Int) - n → count s i ≠ 0) :
    alloc_kpages n s = none := by
  have hnp := hs.num_pages_lt
  rcases getppages_cases s n hs.boot (by omega) hn hn31 with hg | ⟨i, h1, h2, _, h4, _, _⟩
  · unfold alloc_kpages
    rw [hg]
  · exact absurd h4 (hall i h1 h2)

/-- A `free_kpages` that returns has cleared the run headed at some allocatable
index, and the run ends inside the coremap. -/
theorem free_kpages_step (s : VM) (kva : Nat) (s1 : VM) (hs : Booted s) (hh : HeadInv s)
    (h : free_kpages kva s = some s1) :
    ∃ i, s.start_page ≤ i ∧ i < s.num_pages ∧ PADDR_TO_KVADDR (location s i) = kva ∧
      i + (count s i).toNat ≤ s.num_pages ∧
      s1 = { s with mem := released s i (count s i).toNat } := by
  rcases free_kpages_cases s kva with hf | ⟨i, h1, h2, _, h4, _, hf⟩
  · rw [hf] at h
    simp at h
  · have hr := count_range s i
    have hfit : (i : Int) + count s i ≤ (s.num_pages : Int) ∨ count s i ≤ 0 := by
      by_cases hc : 0 < count s i
      · exact Or.inl (hh i h1 h2 hc).2
      · exact Or.inr (by omega)
    have hnp := hs.num_pages_lt
    rw [hf (by omega)] at h
    injection h with h
    exact ⟨i, h1, h2, h4, by omega, h.symm⟩

/-- What every state reachable from a bootstrapped coremap of at least two frames
keeps: the layout, the head/interior invariant, and a free last frame. -/
theorem reachable_inv (s0 s : VM) (hb0 : Booted s0) (hh0 : HeadInv s0)
    (hnp : 2 ≤ s0.num_pages) (h0 : count s0 (s0.num_pages - 1) = 0) (hr : Reachable s0 s) :
    Booted s ∧ HeadInv s ∧ s.num_pages = s0.num_pages ∧ s.start_page = s0.start_page ∧
      count s (s.num_pages - 1) = 0 := by
  induction hr with
  | boot => exact ⟨hb0, hh0, rfl, rfl, h0⟩
  | alloc s n kva s1 _ hn hn31 ha ih =>
    obtain ⟨hb, hh, e1, e2, hc⟩ := ih
    obtain ⟨i, h1, h2, h3, _, _, hs1⟩ := alloc_kpages_step s n kva s1 hb hn hn31 ha
    have hlt := hb.num_pages_lt
    refine ⟨?_, headInv_alloc_kpages s n kva s1 hh (by omega) hn hn31 ha, ?_, ?_, ?_⟩
    · rw [hs1]
      exact booted_claimed s n i hb hn (by omega)
    · rw [hs1]
      exact e1
    · rw [hs1]
      exact e2
    · rw [hs1]
      show count { s with mem := claimed s n i } (s.num_pages - 1) = 0
      rw [count_claimed_other s n i _ hn (Or.inr (by omega))]
      exact hc
  | free s addr s1 _ hf ih =>
    obtain ⟨hb, hh, e1, e2, hc⟩ := ih
    obtain ⟨i, h1, h2, _, h3, hs1⟩ := free_kpages_step s addr s1 hb hh hf
    have hlt := hb.num_pages_lt
    refine ⟨?_, headInv_free_kpages s addr s1 hh (by omega) hf, ?_, ?_, ?_⟩
    · rw [hs1]
      exact booted_released s i _ hb h3
    · rw [hs1]
      exact e1
    · rw [hs1]
      exact e2
    · rw [hs1]
      show count { s with mem := released s i (count s i).toNat } (s.num_pages - 1) = 0
      by_cases hin : s.num_pages - 1 < i + (count s i).toNat
      · exact count_released_in s i _ _ (by omega) hin
      · rw [count_released_out s i _ _ (Or.inr (by omega))]
        exact hc

theorem m8_eq : vm_bootstrap (0x100000, 0x108000) ram0 = some m8 := by
  obtain ⟨s1, h, -⟩ := vm_bootstrap_zero (0x100000, 0x108000) ram0 rfl
  unfold m8
  rw [h]
  rfl

theorem m1_eq : vm_bootstrap (0x100000, 0x101000) ram0 = some m1 := by
  obtain ⟨s1, h, -⟩ := vm_bootstrap_zero (0x100000, 0x101000) ram0 rfl
  unfold m1
  rw [h]
  rfl

theorem tail8_alloc : alloc_kpages 3 m8 = some (0x80101000, tail8) := by
  have h := alloc_kpages_hit m8 3 1 m8_booted (by decide) (by decide) (by decide) (by decide)
    (by decide) (fun j h1 h2 => absurd (Nat.lt_of_le_of_lt h1 h2) (by decide))
  unfold tail8
  rw [h]
  rfl

/-- Counterexample for C20 as stated: on a RAM of one frame the state right after
`vm_bootstrap` has `num_pages = 1` and `count[num_pages - 1] = count[0] = 1`,
the coremap's own start page count, not 0. -/
theorem tail_frame_single_counterexample :
    vm_bootstrap (0x100000, 0x101000) ram0 = some m1 ∧ Reachable m1 m1 ∧
    m1.num_pages = 1 ∧ m1.start_page = 1 ∧ count m1 (m1.num_pages - 1) = 1 :=
  ⟨m1_eq, Reachable.boot, by decide, by decide, by decide⟩

/-- C20 (amended). Tail frame is never allocated: when `vm_bootstrap` finds at
least two frames of RAM, every coremap state reachable by `alloc_kpages(n)`
with `n ≥ 1` and `free_kpages` calls has `count[num_pages - 1] = 0`; every
allocation that succeeds in such a state is headed at an `i` with
`i + n ≤ num_pages - 1`; and `alloc_kpages(n)` fails its assertion whenever no
index in `[start_page, num_pages - n)` is free, whatever the last `n` entries
hold. -/
theorem tail_frame_never_allocated (first last : Nat) (r0 s0 s : VM) (h1 : first ≤ last)
    (h2 : last < 4294967296) (hb : vm_bootstrap (first, last) r0 = some s0)
    (hnp : 2 ≤ s0.num_pages) (hr : Reachable s0 s) :
    s.num_pages = s0.num_pages ∧ count s (s.num_pages - 1) = 0 ∧
    (∀ (n : Int) (kva : Nat) (s1 : VM), 1 ≤ n → n < 2147483648 →
      alloc_kpages n s = some (kva, s1) →
      ∃ i, s.start_page ≤ i ∧ (i : Int) + n ≤ (s.num_pages : Int) - 1 ∧ count s i = 0 ∧
        kva = PADDR_TO_KVADDR (location s i) ∧ count s1 i = n ∧
        count s1 (s1.num_pages - 1) = 0) ∧
    (∀ (n : Int), 1 ≤ n → n < 2147483648 →
      (∀ i, s.start_page ≤ i → (i : Int) < (s.num_pages : Int) - n → count s i ≠ 0) →
      alloc_kpages n s = none) := by
  obtain ⟨hb0, _, _, _, hz⟩ := vm_bootstrap_some first last r0 s0 h1 h2 hb
  have hh0 : HeadInv s0 := by
    intro i hi1 hi2 hpos
    rw [hz i hi1 hi2] at hpos
    omega
  have hsl := hb0.start_le
  have h0 : count s0 (s0.num_pages - 1) = 0 := hz _ (by omega) (by omega)
  obtain ⟨hbs, _, e1, _, hc⟩ := reachable_inv s0 s hb0 hh0 hnp h0 hr
  refine ⟨e1, hc, ?_, ?_⟩
  · intro n kva s1 hn hn31 ha
    obtain ⟨i, a1, a2, a3, _, a5, a6⟩ := alloc_kpages_step s n kva s1 hbs hn hn31 ha
    obtain ⟨_, _, _, _, hc1⟩ :=
      reachable_inv s0 s1 hb0 hh0 hnp h0 (Reachable.alloc s n kva s1 hr hn hn31 ha)
    have hhead : count s1 i = n := by
      rw [a6]
      exact count_claimed_head s n i hn31 hn
    exact ⟨i, a1, by omega, a3, a5, hhead, hc1⟩
  · intro n hn hn31 hall
    exact alloc_kpages_miss s n hbs hn hn31 hall

/-- Witness for C20: the 8-frame machine after `alloc_kpages(3)`. -/
theorem tail_frame_never_allocated_witness :
    tail8.num_pages = m8.num_pages ∧ count tail8 (tail8.num_pages - 1) = 0 ∧
    (∀ (n : Int) (kva : Nat) (s1 : VM), 1 ≤ n → n < 2147483648 →
      alloc_kpages n tail8 = some (kva, s1) →
      ∃ i, tail8.start_page ≤ i ∧ (i : Int) + n ≤ (tail8.num_pages : Int) - 1 ∧
        count tail8 i = 0 ∧
        kva = PADDR_TO_KVADDR (location tail8 i) ∧ count s1 i = n ∧
        count s1 (s1.num_pages - 1) = 0) ∧
    (∀ (n : Int), 1 ≤ n → n < 2147483648 →
      (∀ i, tail8.start_page ≤ i → (i : Int) < (tail8.num_pages : Int) - n →
        count tail8 i ≠ 0) →
      alloc_kpages n tail8 = none) :=
  tail_frame_never_allocated 0x100000 0x108000 ram0 m8 tail8 (by decide) (by decide) m8_eq
    (by decide) (Reachable.alloc m8 3 0x80101000 tail8 Reachable.boot (by decide) (by decide)
      tail8_alloc)

/-- On the 8-frame machine with frames 1 to 3 taken, the last four frames are
free and `alloc_kpages(4)` still fails its assertion. -/
theorem tail8_last_run_refused :
    (∀ j, 4 ≤ j → j < 8 → count tail8 j = 0) ∧ alloc_kpages 4 tail8 = none := by
  have hb : Booted tail8 := by
    have h := m8_booted
    refine ⟨h.boot, h.base, h.layout, h.pages, h.last, h.start, ?_⟩
    intro i h1 h2
    show location tail8 i = m8.firstpaddr + i * PAGE_SIZE
    rw [← h.locs i h1 h2]
    have h3 : i < 8 := h2
    have h4 : 1 ≤ i := h1
    interval_cases i <;> rfl
  refine ⟨fun j h1 h2 => by interval_cases j <;> decide, ?_⟩
  refine alloc_kpages_miss tail8 4 hb (by decide) (by decide) ?_
  intro i h1 h2
  have h3 : 1 ≤ i := h1
  have h4 : (tail8.num_pages : Int) = 8 := by decide
  have h5 : i < 4 := by omega
  interval_cases i <;> decide

/-! ## as_destroy -/

/-- No allocatable frame has physical address 0, so `free_kpages` on the kernel
address of a zero page-table entry fails its assertion. -/
theorem free_kpages_zero_entry (s : VM) (hs : Booted s) :
    free_kpages (PADDR_TO_KVADDR 0) s = none := by
  apply free_kpages_miss
  intro j h1 h2 h
  have hnp := Booted.num_pages_lt s hs
  have hsp := Booted.start_pos s hs (by omega)
  have hl := hs.locs j h1 h2
  have hp := hs.pages
  have hlast := hs.last
  unfold PAGE_SIZE at hl hp
  have := kvaddr_injective (location s j) 0 (by rw [hl]; omega) (by decide) h
  omega

/-- C17. `as_destroy` does not skip zero entries: it calls `free_kpages` on every
entry of the three page tables, and on a bootstrapped coremap the call for an
entry 0 fails its assertion.  So an address space whose first region is
defined (`npages1 > 0`) and whose first entry is still 0 makes `as_destroy`
panic; the address space of scenario S3 before `as_prepare_load`, on the
32-frame machine, is an instance. -/
theorem as_destroy_zero_entry_panics :
    (∀ (as : addrspace) (s : VM) (l : List Nat), Booted s → as.page_table1 = some l →
      l[0]? = some 0 → 0 < as.as_npages1 → as_destroy as s = none) ∧
    as_s3.page_table1 = some [0, 0, 0] ∧ as_s3.as_npages1 = 3 ∧
    as_s3.page_table3 = none ∧ Booted m32 ∧ as_destroy as_s3 m32 = none := by
  have general : ∀ (as : addrspace) (s : VM) (l : List Nat), Booted s →
      as.page_table1 = some l → l[0]? = some 0 → 0 < as.as_npages1 →
      as_destroy as s = none := by
    intro as s l hs hl h0 hn
    obtain ⟨k, hk⟩ : ∃ k, as.as_npages1 = k + 1 := ⟨as.as_npages1 - 1, by omega⟩
    unfold as_destroy
    rw [hk, hl]
    unfold destroyLoop readEntry
    simp only [h0, free_kpages_zero_entry s hs]
  exact ⟨general, by decide, by decide, by decide, m32_booted,
    general as_s3 m32 [0, 0, 0] m32_booted (by decide) (by decide) (by decide)⟩

/-- Freeing the frame of index `j0`, whose count is 1, clears that entry only. -/
theorem free_kpages_single (s : VM) (j0 : Nat) (hs : Booted s) (h1 : s.start_page ≤ j0)
    (h2 : j0 < s.num_pages) (hc : count s j0 = 1) :
    free_kpages (PADDR_TO_KVADDR (location s j0)) s =
      some { s with mem := released s j0 1 } := by
  have hnp := Booted.num_pages_lt s hs
  have hsp := Booted.start_pos s hs (by omega)
  have hp := hs.pages
  have hlast := hs.last
  unfold PAGE_SIZE at hp
  have hf := free_kpages_hit s _ j0 h1 h2 (by omega) rfl (by
    intro j a b h
    have e1 := hs.locs j a (by omega)
    have e2 := hs.locs j0 h1 h2
    unfold PAGE_SIZE at e1 e2
    have := kvaddr_injective (location s j) (location s j0) (by rw [e1]; omega)
      (by rw [e2]; omega) h
    omega) (by rw [hc]; omega)
  rw [hc] at hf
  exact hf

/-- One loop of `as_destroy` over a table whose entries from `i` on are the
locations of the distinct frames `js`, each with count 1: every call succeeds
and exactly the entries `js` are cleared. -/
theorem destroyLoop_owned (l : List Nat) :
    ∀ (js : List Nat) (i : Nat) (s : VM), Booted s → i + js.length ≤ l.length →
      (∀ q, q < js.length → l[i + q]? = (js.map (location s))[q]?) → js.Nodup →
      (∀ j ∈ js, s.start_page ≤ j ∧ j < s.num_pages ∧ count s j = 1) →
      ∃ s1, destroyLoop (some l) js.length i s = some s1 ∧ Booted s1 ∧
        s1 = { s with mem := s1.mem } ∧ (∀ j ∈ js, count s1 j = 0) ∧
        (∀ j, j ∉ js → count s1 j = count s j) ∧ (∀ j, location s1 j = location s j) := by
  intro js
  induction js with
  | nil =>
    intro i s hs _ _ _ _
    exact ⟨s, rfl, hs, rfl, fun j hj => absurd hj (List.not_mem_nil j), fun _ _ => rfl,
      fun _ => rfl⟩
  | cons j0 js ih =>
    intro i s hs hlen hl hnd hown
    obtain ⟨o1, o2, o3⟩ := hown j0 (List.mem_cons_self _ _)
    have hnd2 := List.nodup_cons.1 hnd
    have hhead : l[i]? = some (location s j0) := by
      have := hl 0 (by simp)
      simpa using this
    have hfree := free_kpages_single s j0 hs o1 o2 o3
    have hb1 : Booted { s with mem := released s j0 1 } := booted_released s j0 1 hs (by omega)
    have hloc : ∀ j, location { s with mem := released s j0 1 } j = location s j :=
      fun j => location_released s j0 1 j hs.layout (by omega)
    obtain ⟨s1, r1, b1, g1, c1, d1, e1⟩ := ih (i + 1) { s with mem := released s j0 1 } hb1
      (by simp only [List.length_cons] at hlen; omega)
      (by
        intro q hq
        have := hl (q + 1) (by simp only [List.length_cons]; omega)
        rw [show i + 1 + q = i + (q + 1) by omega, this]
        simp only [List.map_cons, List.getElem?_cons_succ]
        rw [List.map_congr_left (fun j _ => hloc j)])
      hnd2.2
      (by
        intro j hj
        obtain ⟨a, b, c⟩ := hown j (List.mem_cons_of_mem _ hj)
        refine ⟨a, b, ?_⟩
        have hne : j ≠ j0 := fun h => hnd2.1 (h ▸ hj)
        rw [count_released_out s j0 1 j (by omega)]
        exact c)
    refine ⟨s1, ?_, b1, ?_, ?_, ?_, ?_⟩
    · show destroyLoop (some l) (js.length + 1) i s = some s1
      unfold destroyLoop readEntry
      simp only [hhead, hfree]
      exact r1
    · rw [g1]
    · intro j hj
      rcases List.mem_cons.1 hj with h | h
      · rw [h, d1 j0 hnd2.1]
        exact count_released_in s j0 1 j0 (Nat.le_refl _) (by omega)
      · exact c1 j h
    · intro j hj
      have hne : j ≠ j0 := fun h => hj (h ▸ List.mem_cons_self _ _)
      rw [d1 j (fun h => hj (List.mem_cons_of_mem _ h)),
        count_released_out s j0 1 j (by omega)]
    · intro j
      rw [e1 j, hloc j]

theorem destroyLoop_table (js : List Nat) (s : VM) (hs : Booted s) (hnd : js.Nodup)
    (hown : ∀ j ∈ js, s.start_page ≤ j ∧ j < s.num_pages ∧ count s j = 1) :
    ∃ s1, destroyLoop (some (js.map (location s))) js.length 0 s = some s1 ∧ Booted s1 ∧
      s1 = { s with mem := s1.mem } ∧ (∀ j ∈ js, count s1 j = 0) ∧
      (∀ j, j ∉ js → count s1 j = count s j) ∧ (∀ j, location s1 j = location s j) :=
  destroyLoop_owned (js.map (location s)) js 0 s hs (by simp)
    (fun q _ => by rw [Nat.zero_add]) hnd hown

/-- Clearing the counts of the distinct used frames `js` lowers the number of
used frames by `js.length`. -/
theorem usedFrames_released (s s1 : VM) (js : List Nat) (hnp : s1.num_pages = s.num_pages)
    (hnd : js.Nodup) (hin : ∀ j ∈ js, j < s.num_pages ∧ count s j ≠ 0)
    (h0 : ∀ j ∈ js, count s1 j = 0) (hout : ∀ j, j ∉ js → count s1 j = count s j) :
    usedFrames s1 + js.length = usedFrames s := by
  unfold usedFrames
  rw [hnp, ← List.toFinset_card_of_nodup hnd, ← Finset.card_union_of_disjoint]
  · congr 1
    ext j
    simp only [Finset.mem_union, Finset.mem_filter, Finset.mem_range, List.mem_toFinset]
    by_cases hj : j ∈ js
    · have := hin j hj
      have := h0 j hj
      tauto
    · rw [hout j hj]
      tauto
  · rw [Finset.disjoint_left]
    intro j hj hj2
    simp only [Finset.mem_filter, List.mem_toFinset] at hj hj2
    exact hj.2 (h0 j hj2)

/-- A memory that agrees with a bootstrapped state on the location array is
bootstrapped too. -/
theorem booted_with (s : VM) (m : Mem) (hs : Booted s)
    (h : ∀ j, s.start_page ≤ j → j < s.num_pages → m (locationAddr s j) = s.mem (locationAddr s j)) :
    Booted { s with mem := m } :=
  ⟨hs.boot, hs.base, hs.layout, hs.pages, hs.last, hs.start,
    fun j h1 h2 => (h j h1 h2).trans (hs.locs j h1 h2)⟩

theorem own32_booted : Booted own32 := by
  apply booted_with m32 _ m32_booted
  intro j h1 h2
  have hl := m32_booted.layout
  have hnp : m32.num_pages = 32 := by decide
  rw [hnp] at hl
  have : ¬ (countAddr m32 1 ≤ locationAddr m32 j ∧ locationAddr m32 j < countAddr m32 21) := by
    unfold countAddr locationAddr
    omega
  simp only [this, if_false]

theorem own32_count (j : Nat) (h1 : 1 ≤ j) (h2 : j < 21) : count own32 j = 1 := by
  show toInt (if countAddr m32 1 ≤ countAddr m32 j ∧ countAddr m32 j < countAddr m32 21 then 1
    else m32.mem (countAddr m32 j)) = 1
  rw [if_pos (by unfold countAddr; omega)]
  rfl

/-- C15. Destroy releases exactly the owned frames: when the three page tables
hold the locations of pairwise distinct allocatable frames, each with count 1
(as after a successful `as_prepare_load`), no `free_kpages` call inside
`as_destroy` fails its assertion, the count of each of the
`npages1 + npages2 + 12` frames becomes 0, every other count entry, every
location entry and every global is unchanged, and the number of entries with a
non-zero count drops by exactly `npages1 + npages2 + 12`. -/
theorem as_destroy_releases (as : addrspace) (s : VM) (js1 js2 js3 : List Nat) (hs : Booted s)
    (h1 : as.page_table1 = some (js1.map (location s))) (hl1 : js1.length = as.as_npages1)
    (h2 : as.page_table2 = some (js2.map (location s))) (hl2 : js2.length = as.as_npages2)
    (h3 : as.page_table3 = some (js3.map (location s)))
    (hl3 : js3.length = DUMBVM_STACKPAGES)
    (hnd : (js1 ++ js2 ++ js3).Nodup)
    (hown : ∀ j ∈ js1 ++ js2 ++ js3, s.start_page ≤ j ∧ j < s.num_pages ∧ count s j = 1) :
    ∃ s1, as_destroy as s = some s1 ∧
      (∀ j ∈ js1 ++ js2 ++ js3, count s1 j = 0) ∧
      (∀ j, j ∉ js1 ++ js2 ++ js3 → count s1 j = count s j) ∧
      (∀ j, location s1 j = location s j) ∧ s1 = { s with mem := s1.mem } ∧
      usedFrames s1 + (as.as_npages1 + as.as_npages2 + DUMBVM_STACKPAGES) = usedFrames s := by
  obtain ⟨hnd12, hnd3, hdis3⟩ := List.nodup_append.1 hnd
  obtain ⟨hnd1, hnd2, hdis2⟩ := List.nodup_append.1 hnd12
  have m1 : ∀ j, j ∈ js1 → j ∈ js1 ++ js2 ++ js3 := fun j h =>
    List.mem_append_left _ (List.mem_append_left _ h)
  have m2 : ∀ j, j ∈ js2 → j ∈ js1 ++ js2 ++ js3 := fun j h =>
    List.mem_append_left _ (List.mem_append_right _ h)
  have m3 : ∀ j, j ∈ js3 → j ∈ js1 ++ js2 ++ js3 := fun j h => List.mem_append_right _ h
  -- region 1
  obtain ⟨u1, r1, b1, g1, c1, d1, e1⟩ :=
    destroyLoop_table js1 s hs hnd1 (fun j hj => hown j (m1 j hj))
  -- region 2
  have n12 : ∀ j, j ∈ js2 → j ∉ js1 := fun j hj hj1 => hdis2 hj1 hj
  have f2 : u1.start_page = s.start_page ∧ u1.num_pages = s.num_pages := by
    rw [g1]
    exact ⟨rfl, rfl⟩
  obtain ⟨u2, r2, b2, g2, c2, d2, e2⟩ :=
    destroyLoop_table js2 u1 b1 hnd2 (fun j hj => by
      obtain ⟨a, b, c⟩ := hown j (m2 j hj)
      rw [f2.1, f2.2, d1 j (n12 j hj)]
      exact ⟨a, b, c⟩)
  rw [List.map_congr_left (fun j _ => e1 j)] at r2
  -- stack
  have n31 : ∀ j, j ∈ js3 → j ∉ js1 := fun j hj hj1 => hdis3 (List.mem_append_left _ hj1) hj
  have n32 : ∀ j, j ∈ js3 → j ∉ js2 := fun j hj hj2 => hdis3 (List.mem_append_right _ hj2) hj
  have f3 : u2.start_page = s.start_page ∧ u2.num_pages = s.num_pages := by
    rw [g2]
    exact f2
  obtain ⟨u3, r3, b3, g3, c3, d3, e3⟩ :=
    destroyLoop_table js3 u2 b2 hnd3 (fun j hj => by
      obtain ⟨a, b, c⟩ := hown j (m3 j hj)
      rw [f3.1, f3.2, d2 j (n32 j hj), d1 j (n31 j hj)]
      exact ⟨a, b, c⟩)
  rw [List.map_congr_left (fun j _ => (e2 j).trans (e1 j))] at r3
  have hzero : ∀ j ∈ js1 ++ js2 ++ js3, count u3 j = 0 := by
    intro j hj
    by_cases q3 : j ∈ js3
    · exact c3 j q3
    · rw [d3 j q3]
      by_cases q2 : j ∈ js2
      · exact c2 j q2
      · rw [d2 j q2]
        rcases List.mem_append.1 hj with h | h
        · rcases List.mem_append.1 h with h | h
          · exact c1 j h
          · exact absurd h q2
        · exact absurd h q3
  have hother : ∀ j, j ∉ js1 ++ js2 ++ js3 → count u3 j = count s j := by
    intro j hj
    rw [d3 j (fun h => hj (m3 j h)), d2 j (fun h => hj (m2 j h)), d1 j (fun h => hj (m1 j h))]
  have hg : u3 = { s with mem := u3.mem } := by
    rw [g3, g2, g1]
  refine ⟨u3, ?_, hzero, hother, fun j => (e3 j).trans ((e2 j).trans (e1 j)), hg, ?_⟩
  · unfold as_destroy
    rw [h1, h2, h3, ← hl1, ← hl2, ← hl3, r1]
    simp only
    rw [r2]
    simp only
    exact r3
  · have hu := usedFrames_released s u3 (js1 ++ js2 ++ js3) (by rw [hg]) hnd
      (fun j hj => by
        obtain ⟨_, b, c⟩ := hown j hj
        exact ⟨b, by rw [c]; decide⟩) hzero hother
    rw [← hl1, ← hl2, ← hl3, ← hu]
    simp only [List.length_append]

/-- Witness for C15: the prepared address space of S3 on the 32-frame machine
with its frames 1 to 20 allocated. -/
theorem as_destroy_releases_witness :
    ∃ s1, as_destroy as_p3 own32 = some s1 ∧
      (∀ j ∈ [1, 2, 3] ++ [4, 5, 6, 7, 8] ++ [9, 10, 11, 12, 13, 14, 15, 16, 17, 18, 19, 20],
        count s1 j = 0) ∧
      (∀ j, j ∉ [1, 2, 3] ++ [4, 5, 6, 7, 8] ++
          [9, 10, 11, 12, 13, 14, 15, 16, 17, 18, 19, 20] → count s1 j = count own32 j) ∧
      (∀ j, location s1 j = location own32 j) ∧ s1 = { own32 with mem := s1.mem } ∧
      usedFrames s1 + (as_p3.as_npages1 + as_p3.as_npages2 + DUMBVM_STACKPAGES) =
        usedFrames own32 :=
  as_destroy_releases as_p3 own32 [1, 2, 3] [4, 5, 6, 7, 8]
    [9, 10, 11, 12, 13, 14, 15, 16, 17, 18, 19, 20] own32_booted
    (by decide) (by decide) (by decide) (by decide) (by decide) (by decide) (by decide)
    (fun j hj => by
      have hb : 1 ≤ j ∧ j < 21 := by
        simp only [List.cons_append, List.nil_append, List.mem_cons, List.mem_singleton,
          List.not_mem_nil, or_false] at hj
        omega
      exact ⟨hb.1, Nat.lt_of_lt_of_le hb.2 (by decide), own32_count j hb.1 hb.2⟩)

/-! ## as_copy -/

/-- Two different allocatable frames of a bootstrapped machine share no word. -/
theorem frames_disjoint (s : VM) (hs : Booted s) (j1 j2 : Nat) (a1 : s.start_page ≤ j1)
    (b1 : j1 < s.num_pages) (a2 : s.start_page ≤ j2) (b2 : j2 < s.num_pages) (hne : j1 ≠ j2) :
    frameDisjoint (location s j1) (location s j2) := by
  intro w1 w2 h1 h2
  obtain ⟨_, _, e3, e4, _, e6⟩ := Booted.numeric s hs
  have := frame_word_ne_frame s.firstpaddr s.lastpaddr s.num_pages j1 j2 w1 w2 e3 e4 b1 b2 h1 h2
    hne
  rw [e6 j1 a1 b1, e6 j2 a2 b2]
  unfold PADDR_TO_KVADDR MIPS_KSEG0
  omega

/-- One round of `as_prepare_load` leaves the content of every other frame as it
was. -/
theorem kept_step (s : VM) (i0 : Nat) (rest : List Nat) (hs : Booted s)
    (hf : freeFrames s = i0 :: rest) :
    framesKept s (as_zero_region (location s i0) 1 { s with mem := claimed s 1 i0 }) 1 := by
  obtain ⟨h1, h2, _, _⟩ := freeFrames_cons s i0 rest hf
  obtain ⟨e1, _, e3, e4, e5, e6⟩ := Booted.numeric s hs
  intro j hj1 hj2 hnot w hw
  have hne : j ≠ i0 := by
    intro h
    apply hnot
    rw [hf, h]
    exact List.mem_cons_self _ _
  rw [zero_region_mem]
  have hd := frames_disjoint s hs j i0 hj1 hj2 h1 (by omega) hne
  rw [if_neg (fun h => hd w (PADDR_TO_KVADDR (location s j) / 4 + w -
    PADDR_TO_KVADDR (location s i0) / 4) hw (by omega) (by omega))]
  show claimed s 1 i0 _ = _
  rw [mem_claimed_other s 1 i0 _ ?_ (by decide)]
  have := frame_word_ne_coremap s.firstpaddr s.lastpaddr s.num_pages s.start_page j w i0
    e3 e4 e5 hj1 hj2 hw (by omega)
  rw [e6 j hj1 hj2]
  unfold countAddr PADDR_TO_KVADDR MIPS_KSEG0
  rw [e1]
  have e7 : (1 : Int).toNat = 1 := rfl
  rw [e7]
  clear hd
  omega

theorem kept_refl (s : VM) : framesKept s s 0 := fun _ _ _ _ _ _ => rfl

theorem kept_trans (s t u : VM) (a b : Nat) (hs : Booted s) (h1 : Filled s t a)
    (k1 : framesKept s t a) (k2 : framesKept t u b) : framesKept s u (a + b) := by
  obtain ⟨e1, e2, _⟩ := Filled.fields s t a h1
  have htk : (freeFrames s).take (a + b) =
      (freeFrames s).take a ++ (freeFrames t).take b := by
    rw [List.take_add, h1.free]
  intro j hj1 hj2 hnot w hw
  rw [htk, List.mem_append, not_or] at hnot
  have hl := Filled.location_eq s t a hs h1 j hj1 hj2
  have := k2 j (by omega) (by omega) hnot.2 w hw
  rw [hl] at this
  rw [this]
  exact k1 j hj1 hj2 hnot.1 w hw

/-- A loop of `as_prepare_load` leaves the content of the frames it does not take
as it was. -/
theorem prepareLoop_kept (k : Nat) : ∀ (i : Nat) (l : List Nat) (s : VM), Booted s →
    k ≤ (freeFrames s).length → i + k ≤ l.length →
    ∀ r, prepareLoop k i (some l) s = some r → framesKept s r.2.2 k := by
  induction k with
  | zero =>
    intro i l s _ _ _ r hr
    have : r = (Status.ok, some l, s) := by
      unfold prepareLoop at hr
      exact (Option.some.inj hr).symm
    rw [this]
    exact kept_refl s
  | succ k ih =>
    intro i l s hs hk hl r hr
    obtain ⟨i0, rest, hf⟩ : ∃ i0 rest, freeFrames s = i0 :: rest := by
      cases hfr : freeFrames s with
      | nil => rw [hfr] at hk; simp at hk
      | cons a r => exact ⟨a, r, rfl⟩
    obtain ⟨hg, hne, hfill⟩ := prepare_step s i0 rest hs hf
    have hrest : freeFrames
        (as_zero_region (location s i0) 1 { s with mem := claimed s 1 i0 }) = rest := by
      rw [hfill.free, hf]
      rfl
    have hk2 : k ≤ rest.length := by
      rw [hf] at hk
      simpa using hk
    rw [prepareLoop, hg] at hr
    simp only at hr
    rw [if_pos (by omega), if_neg hne] at hr
    have h2 := ih (i + 1) (l.set i (location s i0)) _ hfill.booted (by rw [hrest]; exact hk2)
      (by rw [List.length_set]; omega) r hr
    have := kept_trans s _ r.2.2 1 k hs hfill (kept_step s i0 rest hs hf) h2
    rw [Nat.add_comm] at this
    exact this

/-- A loop of `as_prepare_load` over a whole table: the table, the coremap and the
frames left alone. -/
theorem prepareLoop_table_kept (k : Nat) (l : List Nat) (s : VM) (hs : Booted s)
    (hk : k ≤ (freeFrames s).length) (hl : l.length = k) :
    ∃ t, prepareLoop k 0 (some l) s =
        some (Status.ok, some (((freeFrames s).take k).map (location s)), t) ∧
      Filled s t k ∧ framesKept s t k := by
  obtain ⟨t, hrun, hft⟩ := prepareLoop_table k l s hs hk hl
  exact ⟨t, hrun, hft, prepareLoop_kept k 0 l s hs hk (by omega) _ hrun⟩

/-- A successful `as_prepare_load` in terms of the free frames of the state
before: the three tables, the coremap afterwards and the frames left alone. -/
theorem as_prepare_load_filled (fresh : List Nat) (as : addrspace) (s : VM)
    (l1 l2 : List Nat) (hs : Booted s)
    (h1 : as.page_table1 = some l1) (hl1 : l1.length = as.as_npages1)
    (h2 : as.page_table2 = some l2) (hl2 : l2.length = as.as_npages2)
    (hfresh : fresh.length = DUMBVM_STACKPAGES)
    (hfree : as.as_npages1 + as.as_npages2 + DUMBVM_STACKPAGES ≤ (freeFrames s).length) :
    ∃ u, as_prepare_load fresh as s =
        some (Status.ok,
          { as with
            page_table1 := some (((freeFrames s).take as.as_npages1).map (location s))
            page_table2 := some
              ((((freeFrames s).drop as.as_npages1).take as.as_npages2).map (location s))
            page_table3 := some
              ((((freeFrames s).drop (as.as_npages1 + as.as_npages2)).take
                DUMBVM_STACKPAGES).map (location s)) }, u) ∧
      Filled s u (as.as_npages1 + as.as_npages2 + DUMBVM_STACKPAGES) ∧
      framesKept s u (as.as_npages1 + as.as_npages2 + DUMBVM_STACKPAGES) := by
  obtain ⟨u1, r1, f1, k1⟩ := prepareLoop_table_kept as.as_npages1 l1 s hs (by omega) hl1
  have hfr1 := f1.free
  obtain ⟨u2, r2, f2, k2⟩ := prepareLoop_table_kept as.as_npages2 l2 u1 f1.booted
    (by rw [hfr1, List.length_drop]; omega) hl2
  have f12 := filled_trans s u1 u2 _ _ hs f1 f2
  have k12 := kept_trans s u1 u2 _ _ hs f1 k1 k2
  have hfr2 := f12.free
  obtain ⟨u3, r3, f3, k3⟩ := prepareLoop_table_kept DUMBVM_STACKPAGES fresh u2 f2.booted
    (by rw [hfr2, List.length_drop]; omega) hfresh
  have f123 := filled_trans s u2 u3 _ _ hs f12 f3
  have k123 := kept_trans s u2 u3 _ _ hs f12 k12 k3
  have e2 : ((freeFrames u1).take as.as_npages2).map (location u1) =
      (((freeFrames s).drop as.as_npages1).take as.as_npages2).map (location s) := by
    rw [hfr1]
    apply List.map_congr_left
    intro j hj
    obtain ⟨m1, m2, _⟩ := mem_freeFrames s j (List.mem_of_mem_drop (List.mem_of_mem_take hj))
    exact Filled.location_eq s u1 _ hs f1 j m1 (by omega)
  have e3 : ((freeFrames u2).take DUMBVM_STACKPAGES).map (location u2) =
      (((freeFrames s).drop (as.as_npages1 + as.as_npages2)).take DUMBVM_STACKPAGES).map
        (location s) := by
    rw [hfr2]
    apply List.map_congr_left
    intro j hj
    obtain ⟨m1, m2, _⟩ := mem_freeFrames s j (List.mem_of_mem_drop (List.mem_of_mem_take hj))
    exact Filled.location_eq s u2 _ hs f12 j m1 (by omega)
  rw [e2] at r2
  rw [e3] at r3
  refine ⟨u3, ?_, f123, k123⟩
  unfold as_prepare_load
  rw [h1, r1]
  simp only [ne_eq, not_true_eq_false, if_false]
  rw [h2, r2]
  simp only [ne_eq, not_true_eq_false, if_false]
  rw [r3]
  simp only [ne_eq, not_true_eq_false, if_false]

theorem memmove_dst (m : Mem) (d o w : Nat) (hw : w < 1024) :
    memmove m (PADDR_TO_KVADDR d) (PADDR_TO_KVADDR o) PAGE_SIZE (PADDR_TO_KVADDR d / 4 + w) =
      m (PADDR_TO_KVADDR o / 4 + w) := by
  unfold memmove PAGE_SIZE
  rw [if_pos (by omega)]
  congr 1
  omega

theorem memmove_other (m : Mem) (d o x : Nat)
    (h : ∀ w, w < 1024 → x ≠ PADDR_TO_KVADDR d / 4 + w) :
    memmove m (PADDR_TO_KVADDR d) (PADDR_TO_KVADDR o) PAGE_SIZE x = m x := by
  unfold memmove PAGE_SIZE
  rw [if_neg]
  intro hx
  exact h (x - PADDR_TO_KVADDR d / 4) (by omega) (by omega)

theorem copyPairs_append (ps qs : List (Nat × Nat)) (m : Mem) :
    copyPairs (ps ++ qs) m = copyPairs qs (copyPairs ps m) := by
  induction ps generalizing m with
  | nil => rfl
  | cons p ps ih =>
    obtain ⟨d, o⟩ := p
    show copyPairs (ps ++ qs) _ = copyPairs qs (copyPairs ps _)
    exact ih _

/-- A run of page copies leaves every word outside the destination frames as it
was. -/
theorem copyPairs_other (ps : List (Nat × Nat)) (m : Mem) (x : Nat)
    (h : ∀ p ∈ ps, ∀ w, w < 1024 → x ≠ PADDR_TO_KVADDR p.1 / 4 + w) :
    copyPairs ps m x = m x := by
  induction ps generalizing m with
  | nil => rfl
  | cons p ps ih =>
    obtain ⟨d, o⟩ := p
    show copyPairs ps _ x = m x
    rw [ih _ (fun q hq => h q (List.mem_cons_of_mem _ hq))]
    exact memmove_other m d o x (h (d, o) (List.mem_cons_self _ _))

/-- After a run of page copies whose destination frames are pairwise disjoint
and disjoint from every source frame, each destination frame holds what its
source frame held before the run. -/
theorem copyPairs_copied (ps : List (Nat × Nat)) (m : Mem)
    (hdd : ps.Pairwise (fun p q => frameDisjoint p.1 q.1))
    (hds : ∀ p ∈ ps, ∀ q ∈ ps, frameDisjoint p.1 q.2)
    (p : Nat × Nat) (hp : p ∈ ps) (w : Nat) (hw : w < 1024) :
    copyPairs ps m (PADDR_TO_KVADDR p.1 / 4 + w) = m (PADDR_TO_KVADDR p.2 / 4 + w) := by
  induction ps generalizing m with
  | nil => exact absurd hp (List.not_mem_nil _)
  | cons q ps ih =>
    obtain ⟨d, o⟩ := q
    obtain ⟨hhead, htail⟩ := List.pairwise_cons.1 hdd
    show copyPairs ps _ _ = _
    rcases List.mem_cons.1 hp with h | h
    · rw [h]
      rw [copyPairs_other ps _ _ (fun r hr w2 hw2 => hhead r hr w w2 hw hw2)]
      exact memmove_dst m d o w hw
    · rw [ih _ htail (fun a ha b hb => hds a (List.mem_cons_of_mem _ ha) b
        (List.mem_cons_of_mem _ hb)) h]
      exact memmove_other m d o _
        (fun w2 hw2 hx => hds (d, o) (List.mem_cons_self _ _) p (List.mem_cons_of_mem _ h)
          w2 w hw2 hw hx.symm)

/-- A copy loop of `as_copy` over tables long enough is a run of page copies. -/
theorem copyLoop_pairs (dl ol : List Nat) :
    ∀ (k i : Nat) (s : VM), i + k ≤ dl.length → i + k ≤ ol.length →
      copyLoop (some dl) (some ol) k i s =
        some { s with mem := copyPairs (((dl.zip ol).drop i).take k) s.mem } := by
  intro k
  induction k with
  | zero =>
    intro i s _ _
    rfl
  | succ k ih =>
    intro i s h1 h2
    have hi1 : i < dl.length := by omega
    have hi2 : i < ol.length := by omega
    have hz : i < (dl.zip ol).length := by
      rw [List.length_zip]
      omega
    have hdrop : (dl.zip ol).drop i = (dl[i], ol[i]) :: (dl.zip ol).drop (i + 1) := by
      rw [List.drop_eq_getElem_cons hz, List.getElem_zip]
    unfold copyLoop readEntry
    simp only [List.getElem?_eq_getElem hi1, List.getElem?_eq_getElem hi2]
    rw [ih (i + 1) _ (by omega) (by omega), hdrop]
    rfl

theorem location_pos (s : VM) (hs : Booted s) (j : Nat) (h1 : s.start_page ≤ j)
    (h2 : j < s.num_pages) : location s j ≠ 0 := by
  have hsp := Booted.start_pos s hs (by omega)
  rw [hs.locs j h1 h2]
  unfold PAGE_SIZE
  omega

theorem location_injective (s : VM) (hs : Booted s) (j1 j2 : Nat) (a1 : s.start_page ≤ j1)
    (b1 : j1 < s.num_pages) (a2 : s.start_page ≤ j2) (b2 : j2 < s.num_pages)
    (h : location s j1 = location s j2) : j1 = j2 := by
  rw [hs.locs j1 a1 b1, hs.locs j2 a2 b2] at h
  unfold PAGE_SIZE at h
  omega

/-- The copy part of `as_copy`: after a successful `as_prepare_load` of the new
address space the three loops run to the end, every new frame receives the
content of the old frame of the same page, and the old frames keep theirs. -/
theorem copy_frames (s u : VM) (k : Nat) (hs : Booted s) (hk : framesKept s u k) (js os : List Nat) (hjs : js = (freeFrames s).take k)
    (hlen : js.length = os.length)
    (hold : ∀ j ∈ os, s.start_page ≤ j ∧ j < s.num_pages ∧ count s j ≠ 0) :
    (∀ p ∈ (js.map (location s)).zip (os.map (location s)), ∀ w, w < 1024 →
      copyPairs ((js.map (location s)).zip (os.map (location s))) u.mem
          (PADDR_TO_KVADDR p.1 / 4 + w) = s.mem (PADDR_TO_KVADDR p.2 / 4 + w)) ∧
    (∀ j ∈ os, ∀ w, w < 1024 →
      copyPairs ((js.map (location s)).zip (os.map (location s))) u.mem
          (PADDR_TO_KVADDR (location s j) / 4 + w) =
        s.mem (PADDR_TO_KVADDR (location s j) / 4 + w)) := by
  have hjmem : ∀ j ∈ js, s.start_page ≤ j ∧ j < s.num_pages ∧ count s j = 0 := by
    intro j hj
    rw [hjs] at hj
    obtain ⟨a, b, c⟩ := mem_freeFrames s j (List.mem_of_mem_take hj)
    exact ⟨a, by omega, c⟩
  have hne : ∀ j ∈ js, ∀ j2 ∈ os, j ≠ j2 := by
    intro j hj j2 hj2 h
    have := (hjmem j hj).2.2
    rw [h] at this
    exact (hold j2 hj2).2.2 this
  have hnot : ∀ j ∈ os, j ∉ (freeFrames s).take k := by
    intro j hj hin
    rw [← hjs] at hin
    exact hne j hin j hj rfl
  have hnd : js.Nodup := by
    rw [hjs]
    exact take_freeFrames_nodup s k
  have hfst : ((js.map (location s)).zip (os.map (location s))).map Prod.fst =
      js.map (location s) :=
    List.map_fst_zip _ _ (by rw [List.length_map, List.length_map, hlen])
  have hdd : ((js.map (location s)).zip (os.map (location s))).Pairwise
      (fun p q => frameDisjoint p.1 q.1) := by
    have h1 : (js.map (location s)).Pairwise frameDisjoint := by
      rw [List.pairwise_map]
      refine List.Pairwise.imp_of_mem ?_ hnd
      intro a b ha hb hab
      obtain ⟨a1, a2, _⟩ := hjmem a ha
      obtain ⟨b1, b2, _⟩ := hjmem b hb
      exact frames_disjoint s hs a b a1 a2 b1 b2 hab
    rw [← hfst, List.pairwise_map] at h1
    exact h1
  have hds : ∀ p ∈ (js.map (location s)).zip (os.map (location s)),
      ∀ q ∈ (js.map (location s)).zip (os.map (location s)), frameDisjoint p.1 q.2 := by
    intro p hp q hq
    obtain ⟨j, hj, e1⟩ := List.mem_map.1 (List.of_mem_zip hp).1
    obtain ⟨j2, hj2, e2⟩ := List.mem_map.1 (List.of_mem_zip hq).2
    obtain ⟨a1, a2, _⟩ := hjmem j hj
    obtain ⟨b1, b2, _⟩ := hold j2 hj2
    rw [← e1, ← e2]
    exact frames_disjoint s hs j j2 a1 a2 b1 b2 (hne j hj j2 hj2)
  refine ⟨?_, ?_⟩
  · intro p hp w hw
    rw [copyPairs_copied _ u.mem hdd hds p hp w hw]
    obtain ⟨j2, hj2, e2⟩ := List.mem_map.1 (List.of_mem_zip hp).2
    obtain ⟨b1, b2, _⟩ := hold j2 hj2
    rw [← e2]
    exact hk j2 b1 b2 (hnot j2 hj2) w hw
  · intro j2 hj2 w hw
    obtain ⟨b1, b2, _⟩ := hold j2 hj2
    rw [copyPairs_other]
    · exact hk j2 b1 b2 (hnot j2 hj2) w hw
    · intro p hp w2 hw2 h
      obtain ⟨j, hj, e1⟩ := List.mem_map.1 (List.of_mem_zip hp).1
      obtain ⟨a1, a2, _⟩ := hjmem j hj
      rw [← e1] at h
      exact frames_disjoint s hs j j2 a1 a2 b1 b2 (hne j hj j2 hj2) w2 w hw2 hw h.symm

/-- The run of `as_copy` when `as_prepare_load` succeeds: the result and the
memory after the three copy loops. -/
theorem as_copy_run (fresh : List Nat) (old : addrspace) (s : VM) (o1 o2 o3 : List Nat)
    (hs : Booted s)
    (h1 : old.page_table1 = some o1) (hl1 : o1.length = old.as_npages1)
    (h2 : old.page_table2 = some o2) (hl2 : o2.length = old.as_npages2)
    (h3 : old.page_table3 = some o3) (hl3 : o3.length = DUMBVM_STACKPAGES)
    (hfresh : fresh.length = DUMBVM_STACKPAGES)
    (hfree : old.as_npages1 + old.as_npages2 + DUMBVM_STACKPAGES ≤ (freeFrames s).length) :
    ∃ u, Filled s u (old.as_npages1 + old.as_npages2 + DUMBVM_STACKPAGES) ∧
      framesKept s u (old.as_npages1 + old.as_npages2 + DUMBVM_STACKPAGES) ∧
      as_copy fresh old s =
        some (Status.ok,
          some { as_create with
            as_vbase1 := old.as_vbase1
            as_npages1 := old.as_npages1
            as_vbase2 := old.as_vbase2
            as_npages2 := old.as_npages2
            page_table1 := some (((freeFrames s).take old.as_npages1).map (location s))
            page_table2 := some
              ((((freeFrames s).drop old.as_npages1).take old.as_npages2).map (location s))
            page_table3 := some
              ((((freeFrames s).drop (old.as_npages1 + old.as_npages2)).take
                DUMBVM_STACKPAGES).map (location s)) },
          { u with
            mem := copyPairs
              ((((freeFrames s).take old.as_npages1).map (location s)).zip o1 ++
               ((((freeFrames s).drop old.as_npages1).take old.as_npages2).map
                  (location s)).zip o2 ++
               ((((freeFrames s).drop (old.as_npages1 + old.as_npages2)).take
                  DUMBVM_STACKPAGES).map (location s)).zip o3) u.mem }) := by
  obtain ⟨u, hrun, hfill, hkept⟩ := as_prepare_load_filled fresh (copy_init old) s
    (List.replicate old.as_npages1 0) (List.replicate old.as_npages2 0) hs rfl
    (List.length_replicate _ _) rfl (List.length_replicate _ _) hfresh hfree
  have e1 : (copy_init old).as_npages1 = old.as_npages1 := rfl
  have e2 : (copy_init old).as_npages2 = old.as_npages2 := rfl
  rw [e1, e2] at hrun hfill hkept
  refine ⟨u, hfill, hkept, ?_⟩
  have hF1 : old.as_npages1 ≤ (freeFrames s).length := by omega
  have hF2 : old.as_npages2 ≤ ((freeFrames s).drop old.as_npages1).length := by
    rw [List.length_drop]
    omega
  have hF3 : DUMBVM_STACKPAGES ≤
      ((freeFrames s).drop (old.as_npages1 + old.as_npages2)).length := by
    rw [List.length_drop]
    omega
  have c1 := fun v => copyLoop_pairs (((freeFrames s).take old.as_npages1).map (location s)) o1
    old.as_npages1 0 v
    (by rw [List.length_map, List.length_take]; omega) (by omega)
  have c2 := fun v => copyLoop_pairs
    ((((freeFrames s).drop old.as_npages1).take old.as_npages2).map (location s)) o2
    old.as_npages2 0 v
    (by rw [List.length_map, List.length_take]; omega) (by omega)
  have c3 := fun v => copyLoop_pairs
    ((((freeFrames s).drop (old.as_npages1 + old.as_npages2)).take
      DUMBVM_STACKPAGES).map (location s)) o3
    DUMBVM_STACKPAGES 0 v
    (by rw [List.length_map, List.length_take]; omega) (by omega)
  unfold as_copy
  rw [hrun]
  simp only [ne_eq, not_true_eq_false, if_false, h1, h2, h3, e1, e2, c1, c2, c3, List.drop_zero]
  have t1 : ∀ (n : Nat) (a b : List Nat), b.length = n → List.take n (a.zip b) = a.zip b :=
    fun n a b h => List.take_of_length_le (by rw [List.length_zip]; omega)
  rw [t1 _ _ _ hl1, t1 _ _ _ hl2, t1 _ _ _ hl3,
    copyPairs_append, copyPairs_append]
  rfl

/-- C14. Deep copy: for an address space `old` whose three page tables hold the
locations of allocated frames (`os1`, `os2`, `os3` are their coremap indices,
each with a non-zero count), on a bootstrapped coremap with at least
`npages1 + npages2 + 12` free frames, `as_copy(old)` returns 0 with a new
address space that has the bases and sizes of `old`; its page-table entries
are non-zero and none of them is an entry of `old`; for every page index `p`
of region 1, region 2 and the stack the 1024 words (`PAGE_SIZE` bytes) of the
new frame `p` equal those of the old frame `p` before the call; and the old
frames keep their content. -/
theorem as_copy_deep (fresh : List Nat) (old : addrspace) (s : VM) (os1 os2 os3 : List Nat)
    (hs : Booted s)
    (h1 : old.page_table1 = some (os1.map (location s))) (hl1 : os1.length = old.as_npages1)
    (h2 : old.page_table2 = some (os2.map (location s))) (hl2 : os2.length = old.as_npages2)
    (h3 : old.page_table3 = some (os3.map (location s)))
    (hl3 : os3.length = DUMBVM_STACKPAGES)
    (hold : ∀ j ∈ os1 ++ os2 ++ os3, s.start_page ≤ j ∧ j < s.num_pages ∧ count s j ≠ 0)
    (hfresh : fresh.length = DUMBVM_STACKPAGES)
    (hfree : old.as_npages1 + old.as_npages2 + DUMBVM_STACKPAGES ≤ (freeFrames s).length) :
    ∃ (n1 n2 n3 : List Nat) (s1 : VM),
      as_copy fresh old s =
        some (Status.ok,
          some { as_create with
            as_vbase1 := old.as_vbase1
            as_npages1 := old.as_npages1
            as_vbase2 := old.as_vbase2
            as_npages2 := old.as_npages2
            page_table1 := some n1
            page_table2 := some n2
            page_table3 := some n3 }, s1) ∧
      n1.length = old.as_npages1 ∧ n2.length = old.as_npages2 ∧
      n3.length = DUMBVM_STACKPAGES ∧
      (∀ e ∈ n1 ++ n2 ++ n3, e ≠ 0 ∧ e ∉ (os1 ++ os2 ++ os3).map (location s)) ∧
      (∀ (p d o : Nat), n1[p]? = some d → (os1.map (location s))[p]? = some o → ∀ w, w < 1024 →
        s1.mem (PADDR_TO_KVADDR d / 4 + w) = s.mem (PADDR_TO_KVADDR o / 4 + w)) ∧
      (∀ (p d o : Nat), n2[p]? = some d → (os2.map (location s))[p]? = some o → ∀ w, w < 1024 →
        s1.mem (PADDR_TO_KVADDR d / 4 + w) = s.mem (PADDR_TO_KVADDR o / 4 + w)) ∧
      (∀ (p d o : Nat), n3[p]? = some d → (os3.map (location s))[p]? = some o → ∀ w, w < 1024 →
        s1.mem (PADDR_TO_KVADDR d / 4 + w) = s.mem (PADDR_TO_KVADDR o / 4 + w)) ∧
      (∀ j ∈ os1 ++ os2 ++ os3, ∀ w, w < 1024 →
        s1.mem (PADDR_TO_KVADDR (location s j) / 4 + w) =
          s.mem (PADDR_TO_KVADDR (location s j) / 4 + w)) := by
  obtain ⟨u, _, hkept, hrun⟩ := as_copy_run fresh old s (os1.map (location s))
    (os2.map (location s)) (os3.map (location s)) hs h1 (by rw [List.length_map]; exact hl1)
    h2 (by rw [List.length_map]; exact hl2) h3 (by rw [List.length_map]; exact hl3) hfresh hfree
  have hall : ((freeFrames s).take old.as_npages1).map (location s) ++
      (((freeFrames s).drop old.as_npages1).take old.as_npages2).map (location s) ++
      (((freeFrames s).drop (old.as_npages1 + old.as_npages2)).take DUMBVM_STACKPAGES).map
        (location s) =
      ((freeFrames s).take (old.as_npages1 + old.as_npages2 + DUMBVM_STACKPAGES)).map
        (location s) := by
    rw [List.take_add, List.take_add, List.map_append, List.map_append]
  have hL1 : (((freeFrames s).take old.as_npages1).map (location s)).length =
      old.as_npages1 := by
    rw [List.length_map, List.length_take]
    omega
  have hL2 : ((((freeFrames s).drop old.as_npages1).take old.as_npages2).map
      (location s)).length = old.as_npages2 := by
    rw [List.length_map, List.length_take, List.length_drop]
    omega
  have hL3 : ((((freeFrames s).drop (old.as_npages1 + old.as_npages2)).take
      DUMBVM_STACKPAGES).map (location s)).length = DUMBVM_STACKPAGES := by
    rw [List.length_map, List.length_take, List.length_drop]
    omega
  have hP : (((freeFrames s).take old.as_npages1).map (location s)).zip
        (os1.map (location s)) ++
      ((((freeFrames s).drop old.as_npages1).take old.as_npages2).map (location s)).zip
        (os2.map (location s)) ++
      ((((freeFrames s).drop (old.as_npages1 + old.as_npages2)).take
        DUMBVM_STACKPAGES).map (location s)).zip (os3.map (location s)) =
      (((freeFrames s).take (old.as_npages1 + old.as_npages2 + DUMBVM_STACKPAGES)).map
        (location s)).zip ((os1 ++ os2 ++ os3).map (location s)) := by
    rw [← hall, List.map_append, List.map_append,
      List.zip_append (by
        rw [List.length_append, List.length_append, hL1, hL2, List.length_map,
          List.length_map, hl1, hl2]),
      List.zip_append (by rw [hL1, List.length_map, hl1])]
  obtain ⟨hA, hB⟩ := copy_frames s u _ hs hkept
    ((freeFrames s).take (old.as_npages1 + old.as_npages2 + DUMBVM_STACKPAGES))
    (os1 ++ os2 ++ os3) rfl
    (by
      rw [List.length_take, List.length_append, List.length_append, hl1, hl2, hl3]
      omega)
    hold
  rw [← hP] at hA hB
  have pick : ∀ (n o : List Nat) (p d e : Nat), n[p]? = some d → o[p]? = some e →
      (d, e) ∈ n.zip o := fun n o p d e hd he =>
    List.getElem?_mem (List.getElem?_zip_eq_some.2 ⟨hd, he⟩)
  refine ⟨_, _, _, _, hrun, hL1, hL2, hL3, ?_, ?_, ?_, ?_, hB⟩
  · intro e he
    rw [hall] at he
    obtain ⟨j, hj, ej⟩ := List.mem_map.1 he
    obtain ⟨a, b, c⟩ := mem_freeFrames s j (List.mem_of_mem_take hj)
    refine ⟨by rw [← ej]; exact location_pos s hs j a (by omega), ?_⟩
    intro hin
    obtain ⟨j2, hj2, ej2⟩ := List.mem_map.1 hin
    obtain ⟨a2, b2, c2⟩ := hold j2 hj2
    have := location_injective s hs j2 j a2 b2 a (by omega) (ej2.trans ej.symm)
    rw [this] at c2
    exact c2 c
  · intro p d o hd ho w hw
    exact hA (d, o) (List.mem_append_left _ (List.mem_append_left _ (pick _ _ p d o hd ho))) w hw
  · intro p d o hd ho w hw
    exact hA (d, o) (List.mem_append_left _ (List.mem_append_right _ (pick _ _ p d o hd ho))) w hw
  · intro p d o hd ho w hw
    exact hA (d, o) (List.mem_append_right _ (pick _ _ p d o hd ho)) w hw

theorem m64_booted : Booted m64 := by
  obtain ⟨s1, h, _, _, _, _, _, hb, _⟩ :=
    vm_bootstrap_post 0x100000 0x140000 ram0 rfl (by decide) (by decide)
  have : m64 = s1 := by
    unfold m64
    rw [h]
    rfl
  rw [this]
  exact hb

theorem own64_booted : Booted own64 := by
  apply booted_with m64 _ m64_booted
  intro j h1 h2
  have hl := m64_booted.layout
  have hb := m64_booted.base
  have hnp : m64.num_pages = 64 := by decide
  have hf : m64.firstpaddr = 0x100000 := by decide
  rw [hnp] at hl h2
  rw [hf] at hb
  have hc : m64.coremap_count = 0x80100000 := by
    rw [hb]
    decide
  have e1 : ¬ (countAddr m64 1 ≤ locationAddr m64 j ∧ locationAddr m64 j < countAddr m64 21) := by
    unfold countAddr locationAddr
    omega
  have e2 : ¬ (locationAddr m64 j = PADDR_TO_KVADDR 0x101000 / 4 + 1) := by
    have : PADDR_TO_KVADDR 0x101000 / 4 + 1 = 0x80101000 / 4 + 1 := by decide
    rw [this]
    unfold locationAddr
    rw [hl, hc]
    omega
  simp only [e1, e2, if_false]

theorem own64_count (j : Nat) (h1 : 1 ≤ j) (h2 : j < 21) : count own64 j = 1 := by
  show toInt (if countAddr m64 1 ≤ countAddr m64 j ∧ countAddr m64 j < countAddr m64 21 then 1
    else _) = 1
  rw [if_pos (by unfold countAddr; omega)]
  rfl

/-- Witness for C14: the prepared address space of S3 on the 64-frame machine,
with the byte `0xAB` at offset 7 of its first text frame (`vbase1 + 7`).  The
copy's first text frame is at another physical address and holds `0xAB` at
offset 7. -/
theorem as_copy_deep_witness :
    ∃ (new : addrspace) (d : Nat) (s1 : VM),
      as_copy (List.replicate 12 0) as_p3 own64 = some (Status.ok, some new, s1) ∧
      readEntry as_p3.page_table1 0 = some 0x101000 ∧
      readEntry new.page_table1 0 = some d ∧ d ≠ 0x101000 ∧
      frameByte own64.mem 0x101000 7 = 0xAB ∧ frameByte s1.mem d 7 = 0xAB := by
  obtain ⟨n1, n2, n3, s1, hrun, hl1, _, _, hne, hc1, _, _, _⟩ :=
    as_copy_deep (List.replicate 12 0) as_p3 own64 [1, 2, 3] [4, 5, 6, 7, 8]
      [9, 10, 11, 12, 13, 14, 15, 16, 17, 18, 19, 20] own64_booted
      (by decide) (by decide) (by decide) (by decide) (by decide) (by decide)
      (fun j hj => by
        have hb : 1 ≤ j ∧ j < 21 := by
          simp only [List.cons_append, List.nil_append, List.mem_cons, List.mem_singleton,
            List.not_mem_nil, or_false] at hj
          omega
        refine ⟨hb.1, Nat.lt_of_lt_of_le hb.2 (by decide), ?_⟩
        rw [own64_count j hb.1 hb.2]
        decide)
      (by decide) (by decide)
  have h0 : 0 < n1.length := by
    rw [hl1]
    decide
  have hd : n1[0]? = some n1[0] := List.getElem?_eq_getElem h0
  have hold0 : ([1, 2, 3].map (location own64))[0]? = some 0x101000 := by decide
  refine ⟨_, n1[0], s1, hrun, by decide, hd, ?_, by decide, ?_⟩
  · intro h
    have hmem : n1[0] ∈ n1 ++ n2 ++ n3 :=
      List.mem_append_left _ (List.mem_append_left _ (List.getElem_mem h0))
    apply (hne _ hmem).2
    rw [h]
    decide
  · have := hc1 0 n1[0] 0x101000 hd hold0 1 (by decide)
    unfold frameByte
    have e : 7 / 4 = 1 := by decide
    rw [e, this]
    decide

/-! ## free_kpages on reachable states -/

/-- Every state reachable from a bootstrapped coremap keeps the layout and the
head/interior invariant. -/
theorem reachable_headInv (s0 s : VM) (hb0 : Booted s0) (hh0 : HeadInv s0)
    (hr : Reachable s0 s) : Booted s ∧ HeadInv s := by
  induction hr with
  | boot => exact ⟨hb0, hh0⟩
  | alloc s n kva s1 _ hn hn31 ha ih =>
    obtain ⟨hb, hh⟩ := ih
    obtain ⟨i, _, h2, _, _, _, hs1⟩ := alloc_kpages_step s n kva s1 hb hn hn31 ha
    have hlt := Booted.num_pages_lt s hb
    refine ⟨?_, headInv_alloc_kpages s n kva s1 hh (by omega) hn hn31 ha⟩
    rw [hs1]
    exact booted_claimed s n i hb hn (by omega)
  | free s addr s1 _ hf ih =>
    obtain ⟨hb, hh⟩ := ih
    obtain ⟨i, _, _, _, h3, hs1⟩ := free_kpages_step s addr s1 hb hh hf
    have hlt := Booted.num_pages_lt s hb
    refine ⟨?_, headInv_free_kpages s addr s1 hh (by omega) hf⟩
    rw [hs1]
    exact booted_released s i _ hb h3

theorem m8_headInv : HeadInv m8 := by
  obtain ⟨s1, h, hz⟩ := vm_bootstrap_zero (0x100000, 0x108000) ram0 rfl
  rw [m8_eq] at h
  rw [← Option.some.inj h] at hz
  intro i hi1 hi2 hpos
  rw [hz i hi1 hi2] at hpos
  omega

theorem used8_headInv : HeadInv used8 :=
  headInv_alloc_kpages m8 6 0x80101000 used8 m8_headInv (by decide) (by decide) (by decide)
    used8_alloc

/-- C4. Free postcondition: in a coremap state with the layout `vm_bootstrap` sets
up and the head/interior invariant, in which `i ≥ start_page` is the least
index with `PADDR_TO_KVADDR(location[i]) = kva` and `count[i] = k > 0`,
`free_kpages(kva)` sets `count[i .. i+k-1]` to 0 and leaves every other count
entry, every location entry and every global unchanged; in any state in which
no index in `[start_page, num_pages)` has that KVA the call fails its
assertion, so no state is produced.  The last conjunct says that the two
assumptions on the state hold in every state reachable from `vm_bootstrap` by
`alloc_kpages(n)` with `n ≥ 1` and `free_kpages` calls that return. -/
theorem free_kpages_postcondition (s : VM) (kva : Nat) :
    ((∀ j, s.start_page ≤ j → j < s.num_pages → PADDR_TO_KVADDR (location s j) ≠ kva) →
      free_kpages kva s = none) ∧
    (∀ (i k : Nat), Laid s → HeadInv s → s.start_page ≤ i → i < s.num_pages →
      PADDR_TO_KVADDR (location s i) = kva →
      (∀ j, s.start_page ≤ j → j < i → PADDR_TO_KVADDR (location s j) ≠ kva) →
      count s i = (k : Int) → 0 < k →
      ∃ s1, free_kpages kva s = some s1 ∧
        (∀ j, i ≤ j → j < i + k → count s1 j = 0) ∧
        (∀ j, j < i ∨ i + k ≤ j → count s1 j = count s j) ∧
        (∀ j, j < s.num_pages → location s1 j = location s j) ∧
        s1 = { s with mem := s1.mem }) ∧
    (∀ (first last : Nat) (r0 s0 : VM), first ≤ last → last < 4294967296 →
      vm_bootstrap (first, last) r0 = some s0 → Reachable s0 s → Laid s ∧ HeadInv s) := by
  refine ⟨free_kpages_miss s kva, ?_, ?_⟩
  · intro i k hs hh hlo hhi hkva hmin hk hpos
    have hnp := laid_num_pages_lt s hs
    have hsp := laid_start_pos s hs (by omega)
    have hfit : i + k ≤ s.num_pages := by
      have := (hh i hlo hhi (by rw [hk]; omega)).2
      rw [hk] at this
      omega
    have hf := free_kpages_hit s kva i hlo hhi (by omega) hkva hmin (by omega)
    rw [hk, Int.toNat_ofNat] at hf
    exact ⟨_, hf, fun j h1 h2 => count_released_in s i k j h1 h2,
      fun j h => count_released_out s i k j h,
      fun j _ => location_released s i k j hs.layout hfit, rfl⟩
  · intro first last r0 s0 h1 h2 hb hr
    obtain ⟨hb0, _, _, _, hz⟩ := vm_bootstrap_some first last r0 s0 h1 h2 hb
    have hh0 : HeadInv s0 := by
      intro i hi1 hi2 hpos
      rw [hz i hi1 hi2] at hpos
      omega
    obtain ⟨hbs, hhs⟩ := reachable_headInv s0 s hb0 hh0 hr
    exact ⟨Booted.laid s hbs, hhs⟩

/-- Witness for C4: on the 8-frame machine with frames 1 to 6 allocated as one
run, a state reached by `vm_bootstrap` and `alloc_kpages(6)`, freeing the
run's address clears entries 1 to 6. -/
theorem free_kpages_postcondition_witness :
    ∃ s1, free_kpages 0x80101000 used8 = some s1 ∧
      (∀ j, 1 ≤ j → j < 1 + 6 → count s1 j = 0) ∧
      (∀ j, j < 1 ∨ 1 + 6 ≤ j → count s1 j = count used8 j) ∧
      (∀ j, j < used8.num_pages → location s1 j = location used8 j) ∧
      s1 = { used8 with mem := s1.mem } :=
  (free_kpages_postcondition used8 0x80101000).2.1 1 6 (Booted.laid used8 used8_booted)
    used8_headInv (by decide) (by decide)
    (by decide) (fun j h1 h2 => absurd (Nat.lt_of_le_of_lt h1 h2) (by decide)) (by decide)
    (by decide)

/-! ## as_prepare_load with too few allocatable frames -/

/-- With no free frame in `[start_page, num_pages - 1)` `getppages(1)` fails its
assertion. -/
theorem getppages_no_free (s : VM) (hs : Booted s) (hf : freeFrames s = []) :
    getppages 1 s = none := by
  have hnp := Booted.num_pages_lt s hs
  rcases getppages_cases s 1 hs.boot (by omega) (by decide) (by decide) with
    hg | ⟨i, h1, h2, _, h4, _, _⟩
  · exact hg
  · have : i ∈ freeFrames s := by
      unfold freeFrames
      rw [mem_freeFrom]
      exact ⟨h1, by omega, h4⟩
    rw [hf] at this
    exact absurd this (List.not_mem_nil _)

/-- A loop of `as_prepare_load` that needs more frames than are free panics. -/
theorem prepareLoop_short (k : Nat) : ∀ (i : Nat) (l : List Nat) (s : VM), Booted s →
    (freeFrames s).length < k → i + k ≤ l.length → prepareLoop k i (some l) s = none := by
  induction k with
  | zero =>
    intro i l s _ h _
    exact absurd h (Nat.not_lt_zero _)
  | succ k ih =>
    intro i l s hs hk hl
    cases hfr : freeFrames s with
    | nil =>
      rw [prepareLoop, getppages_no_free s hs hfr]
    | cons i0 rest =>
      obtain ⟨hg, hne, hfill⟩ := prepare_step s i0 rest hs hfr
      have hrest : freeFrames
          (as_zero_region (location s i0) 1 { s with mem := claimed s 1 i0 }) = rest := by
        rw [hfill.free, hfr]
        rfl
      rw [prepareLoop, hg]
      simp only
      rw [if_pos (by omega), if_neg hne]
      exact ih (i + 1) (l.set i (location s i0)) _ hfill.booted
        (by
          rw [hrest]
          rw [hfr] at hk
          simpa using hk)
        (by rw [List.length_set]; omega)

/-- `as_prepare_load` panics when fewer than `npages1 + npages2 + 12` frames are
free in `[start_page, num_pages - 1)`. -/
theorem as_prepare_load_short (fresh : List Nat) (as : addrspace) (s : VM)
    (l1 l2 : List Nat) (hs : Booted s)
    (h1 : as.page_table1 = some l1) (hl1 : l1.length = as.as_npages1)
    (h2 : as.page_table2 = some l2) (hl2 : l2.length = as.as_npages2)
    (hfresh : fresh.length = DUMBVM_STACKPAGES)
    (hfree : (freeFrames s).length < as.as_npages1 + as.as_npages2 + DUMBVM_STACKPAGES) :
    as_prepare_load fresh as s = none := by
  unfold as_prepare_load
  rw [h1]
  by_cases c1 : as.as_npages1 ≤ (freeFrames s).length
  · obtain ⟨u1, r1, f1⟩ := prepareLoop_table as.as_npages1 l1 s hs c1 hl1
    rw [r1]
    simp only [ne_eq, not_true_eq_false, if_false]
    rw [h2]
    have hfr1 : (freeFrames u1).length = (freeFrames s).length - as.as_npages1 := by
      rw [f1.free, List.length_drop]
    by_cases c2 : as.as_npages2 ≤ (freeFrames u1).length
    · obtain ⟨u2, r2, f2⟩ := prepareLoop_table as.as_npages2 l2 u1 f1.booted c2 hl2
      rw [r2]
      simp only [ne_eq, not_true_eq_false, if_false]
      have hfr2 : (freeFrames u2).length = (freeFrames u1).length - as.as_npages2 := by
        rw [f2.free, List.length_drop]
      rw [prepareLoop_short DUMBVM_STACKPAGES 0 fresh u2 f2.booted (by omega) (by omega)]
    · rw [prepareLoop_short as.as_npages2 0 l2 u1 f1.booted (by omega) (by omega)]
  · rw [prepareLoop_short as.as_npages1 0 l1 s hs (by omega) (by omega)]

theorem z513_eq : vm_bootstrap (0x100000, 0x301000) ramz = some z513 := by
  obtain ⟨s1, h, -⟩ := vm_bootstrap_zero (0x100000, 0x301000) ramz rfl
  unfold z513
  rw [h]
  rfl

theorem z513_facts :
    Booted z513 ∧ z513.num_pages = 513 ∧ z513.start_page = 2 ∧
      z513.firstpaddr = 0x100000 ∧ count z513 1 = 0 ∧
      ∀ i, 2 ≤ i → i < 513 → count z513 i = 0 := by
  have hnp : z513.num_pages = 513 := by decide
  have hsp : z513.start_page = 2 := by decide
  obtain ⟨hb, hf, _, _, hz⟩ :=
    vm_bootstrap_some 0x100000 0x301000 ramz z513 (by decide) (by decide) z513_eq
  refine ⟨hb, hnp, hsp, hf, ?_, fun i a b => hz i (by rw [hsp]; exact a) (by rw [hnp]; exact b)⟩
  obtain ⟨s1, h, hj⟩ := vm_bootstrap_below_start (0x100000, 0x301000) ramz rfl
  rw [z513_eq] at h
  rw [← Option.some.inj h] at hj
  rw [hj 1 (by decide) (by rw [hsp]; decide) (by rw [hsp, hnp]; decide)]
  exact toInt_zero

theorem low513_alloc : alloc_kpages 491 z513 = some (0x80102000, low513) := by
  obtain ⟨hb, hnp, hsp, hf, _, hz⟩ := z513_facts
  have h := alloc_kpages_hit z513 491 2 hb (by decide) (by decide) (by rw [hsp])
    (by rw [hnp]; decide) (hz 2 (by decide) (by decide))
    (fun j h1 h2 => by rw [hsp] at h1; omega)
  have hl : location z513 2 = 0x102000 := by
    rw [hb.locs 2 (by rw [hsp]) (by rw [hnp]; decide), hf]
    decide
  rw [hl] at h
  unfold low513
  rw [h]
  rfl

theorem low513_mem : low513 = { z513 with mem := claimed z513 491 2 } := by
  obtain ⟨hb, hnp, hsp, hf, _, hz⟩ := z513_facts
  have h := alloc_kpages_hit z513 491 2 hb (by decide) (by decide) (by rw [hsp])
    (by rw [hnp]; decide) (hz 2 (by decide) (by decide))
    (fun j h1 h2 => by rw [hsp] at h1; omega)
  unfold low513
  rw [h]
  rfl

theorem low513_facts :
    Booted low513 ∧ low513.num_pages = 513 ∧ low513.start_page = 2 ∧
      count low513 1 = 0 ∧ (∀ j, 493 ≤ j → j < 513 → count low513 j = 0) ∧
      (∀ j, 2 ≤ j → j < 493 → count low513 j ≠ 0) := by
  obtain ⟨hb, hnp, hsp, _, h1, hz⟩ := z513_facts
  rw [low513_mem]
  refine ⟨booted_claimed z513 491 2 hb (by decide) (by rw [hnp]; decide), hnp, hsp, ?_, ?_, ?_⟩
  · rw [count_claimed_other z513 491 2 1 (by decide) (Or.inl (by decide))]
    exact h1
  · intro j a b
    rw [count_claimed_other z513 491 2 j (by decide) (Or.inr (by omega))]
    exact hz j (by omega) b
  · intro j a b
    by_cases e : j = 2
    · rw [e, count_claimed_head z513 491 2 (by decide) (by decide)]
      decide
    · rw [count_claimed_interior z513 491 2 j (by omega) (by omega)]
      decide

theorem low513_free_length : (freeFrames low513).length ≤ 19 := by
  obtain ⟨_, hnp, hsp, _, _, hnz⟩ := low513_facts
  have hnd : (freeFrames low513).Nodup := by
    have := take_freeFrames_nodup low513 (freeFrames low513).length
    rw [List.take_length] at this
    exact this
  rw [← List.toFinset_card_of_nodup hnd]
  have hsub : (freeFrames low513).toFinset ⊆ Finset.Ico 493 512 := by
    intro j hj
    rw [List.mem_toFinset] at hj
    obtain ⟨a, b, c⟩ := mem_freeFrames low513 j hj
    rw [hsp] at a
    rw [hnp] at b
    rw [Finset.mem_Ico]
    refine ⟨?_, by omega⟩
    by_contra hlt
    exact hnz j a (by omega) c
  have := Finset.card_le_card hsub
  rw [Nat.card_Ico] at this
  exact this

/-- Counterexample for C10 as stated: the 513-frame machine booted from
zero-filled RAM, after `alloc_kpages(491)`.  The 20 indices 1 and 493 to 511
lie below `num_pages - 1 = 512` and have count 0, as many as the address space
of scenario S3 needs (3 + 5 + 12); but index 1 is below `start_page = 2`, where
`getppages` never looks, so `as_prepare_load` runs out of frames and fails the
assertion of `getppages`. -/
theorem as_prepare_load_low_index_counterexample :
    vm_bootstrap (0x100000, 0x301000) ramz = some z513 ∧
    alloc_kpages 491 z513 = some (0x80102000, low513) ∧
    Booted low513 ∧ low513.num_pages = 513 ∧ low513.start_page = 2 ∧
    as_s3.as_npages1 + as_s3.as_npages2 + DUMBVM_STACKPAGES = 20 ∧
    (1 :: List.range' 493 19).length = 20 ∧ (1 :: List.range' 493 19).Nodup ∧
    (∀ j ∈ 1 :: List.range' 493 19, j < low513.num_pages - 1 ∧ count low513 j = 0) ∧
    as_prepare_load (List.replicate 12 0) as_s3 low513 = none := by
  obtain ⟨hb, hnp, hsp, h1, hz, _⟩ := low513_facts
  refine ⟨z513_eq, low513_alloc, hb, hnp, hsp, by decide, by decide, by decide, ?_, ?_⟩
  · intro j hj
    rw [hnp]
    rcases List.mem_cons.1 hj with e | e
    · rw [e]
      exact ⟨by decide, h1⟩
    · rw [List.mem_range'_1] at e
      exact ⟨by omega, hz j e.1 (by omega)⟩
  · have hlen := low513_free_length
    exact as_prepare_load_short (List.replicate 12 0) as_s3 low513 [0, 0, 0] [0, 0, 0, 0, 0] hb
      (by decide) (by decide) (by decide) (by decide) (by decide)
      (Nat.lt_of_le_of_lt hlen (by decide))

end DumbVM
